import Mathlib

/-!
# Programming_C_Summative

Shallow embeddings of three programs of the repository and theorems about
them: `smarttraffic.cpp` (an Arduino sketch driving a two-lane traffic signal),
the sorting and searching functions of `dynamicmath.c`, and the roster
operations of `studentmg.c`.  The definitions of the three programs come
first, each in its own namespace, then the theorems.

## Smart Traffic Control and Monitoring System (`smarttraffic.cpp`)

Modelling conventions.

* The global variables of the sketch (`lanes`, `currentLaneIndex`, `nextLogTime`)
  together with the levels of the digital output pins and the text written to
  `Serial` form one record, `Controller`; every function of the sketch is a
  function on that record.
* `unsigned long` is 32 bits wide on the target: values are natural numbers and
  every arithmetic result is reduced modulo `2^32`.  `long` is a signed 32-bit
  integer: values are integers and results are wrapped into `[-2^31, 2^31)`.
* `millis()` is an input: each function that reads the clock takes the reading
  as the argument `now`; all readings made during one call are the same.
  `loop` reads the clock itself, after the detector, which may have waited for
  a button: once at the gate of the logger and once in the assignment of
  `nextLogTime`.  A pass of `loop` therefore takes four readings: the one of
  the state machine, the one at the gate, the one of `logData` and the one of
  the assignment.
* `digitalRead` on a button is an input: the successive results of the reads of
  one button during one detector pass are a stream `Nat → Bool`.
* A pointer to a lane is `Option (Fin 2)`: `none` is `NULL`, `some i` is
  `&lanes[i]`.
-/

namespace SmartTraffic

/-! ## Constants -/

/-- Pin of the red lamp of lane A. -/
def A_RED : Int := 13
/-- Pin of the yellow lamp of lane A. -/
def A_YELLOW : Int := 12
/-- Pin of the green lamp of lane A. -/
def A_GREEN : Int := 11
/-- Pin of the red lamp of lane B. -/
def B_RED : Int := 10
/-- Pin of the yellow lamp of lane B. -/
def B_YELLOW : Int := 9
/-- Pin of the green lamp of lane B. -/
def B_GREEN : Int := 8
/-- Pin of the push button of lane A. -/
def BTN_A : Int := 2
/-- Pin of the push button of lane B. -/
def BTN_B : Int := 3

/-- Minimum time for a green light (ms). -/
def MIN_GREEN_TIME : Nat := 4000
/-- Maximum time for a green light (ms). -/
def MAX_GREEN_TIME : Nat := 15000
/-- Standard yellow light time (ms). -/
def YELLOW_TIME : Nat := 2000
/-- Additional green time per waiting vehicle (ms). -/
def TIME_PER_VEHICLE : Int := 500
/-- Log data every 10 seconds (ms). -/
def LOGGING_INTERVAL : Nat := 10000

/-- Logic level `LOW` of a digital pin. -/
def LOW : Bool := false
/-- Logic level `HIGH` of a digital pin. -/
def HIGH : Bool := true

/-! ## Machine arithmetic -/

/-- Number of values of an `unsigned long`: `2^32`. -/
def ULONG_RANGE : Nat := 4294967296

/-- Result of a `long` computation whose mathematical value is `x`: the
two's-complement wrap into `[-2^31, 2^31)`. -/
def wrapLong (x : Int) : Int := (x + 2147483648) % 4294967296 - 2147483648

/-- Conversion of a `long` to `unsigned long`: reduction modulo `2^32`. -/
def toULong (x : Int) : Nat := (x % 4294967296).toNat

/-- Sum of two `unsigned long` values. -/
def addULong (a b : Nat) : Nat := (a + b) % ULONG_RANGE

/-- Difference `a - b` of two `unsigned long` values. -/
def subULong (a b : Nat) : Nat := (a + (ULONG_RANGE - b % ULONG_RANGE)) % ULONG_RANGE

/-! ## Data model -/

/-- Signal states for the FSM. -/
inductive SignalState
  | GREEN
  | YELLOW
  | RED
  deriving DecidableEq, Repr

/-- Structure holding the data of one lane. -/
structure TrafficLane where
  laneID : Int
  redPin : Int
  yellowPin : Int
  greenPin : Int
  buttonPin : Int
  vehicleCount : Int
  currentState : SignalState
  greenDuration : Nat
  startTime : Nat
  totalWaitTime : Nat
  deriving DecidableEq, Repr

/-- One item written to `Serial`. -/
inductive SerialItem
  | text (s : String)
  | int (n : Int)
  | ulong (n : Nat)
  | seconds (ms : Nat)
  | char (ch : Char)
  | newline
  deriving DecidableEq, Repr

/-- The global variables of the sketch, the levels of the digital output pins
and everything written to `Serial` so far. -/
structure Controller where
  lanes : Fin 2 → TrafficLane
  currentLaneIndex : Int
  nextLogTime : Nat
  pins : Int → Bool
  serial : List SerialItem

/-- The lane a valid array index designates: `&lanes[k]`, defined for `k = 0`
and `k = 1` only. -/
def laneAt (k : Int) : Option (Fin 2) :=
  if k = 0 then some 0 else if k = 1 then some 1 else none

/-- Assignment to the fields of `lanes[i]`. -/
def setLane (c : Controller) (i : Fin 2) (l : TrafficLane) : Controller :=
  { c with lanes := Function.update c.lanes i l }

/-- Effect of `digitalWrite(pin, level)`. -/
def digitalWrite (c : Controller) (pin : Int) (level : Bool) : Controller :=
  { c with pins := fun p => if p = pin then level else c.pins p }

/-- Effect of a run of `Serial.print` / `Serial.println` calls. -/
def serialPrint (c : Controller) (items : List SerialItem) : Controller :=
  { c with serial := c.serial ++ items }

/-! ## The functions of the sketch -/

/-- The arithmetic of `dynamicTiming`: the green duration stored for a lane
whose `vehicleCount` is `v`. -/
def greenTime (v : Int) : Nat :=
  let dynamicTime : Nat := toULong (wrapLong (v * TIME_PER_VEHICLE))
  let greenDuration : Nat := addULong MIN_GREEN_TIME dynamicTime
  if greenDuration > MAX_GREEN_TIME then MAX_GREEN_TIME else greenDuration

/-- Adjust signal timing dynamically based on traffic count. -/
def dynamicTiming (c : Controller) (i : Fin 2) : Controller :=
  let lane := c.lanes i
  let g := greenTime lane.vehicleCount
  let c := setLane c i { lane with greenDuration := g }
  serialPrint c [.text "Lane ", .int lane.laneID, .text " count: ", .int lane.vehicleCount,
    .text " -> Duration: ", .seconds g, .text "s", .newline]

/-- Manages the state transition for a lane. -/
def transitionState (c : Controller) (lane : Option (Fin 2)) (newState : SignalState)
    (now : Nat) : Controller :=
  match lane with
  | none => c
  | some i =>
    let c := digitalWrite c (c.lanes i).redPin LOW
    let c := digitalWrite c (c.lanes i).yellowPin LOW
    let c := digitalWrite c (c.lanes i).greenPin LOW
    let c := setLane c i { c.lanes i with currentState := newState }
    let c := setLane c i { c.lanes i with startTime := now }
    match newState with
    | .GREEN =>
      let c := dynamicTiming c i
      let c := digitalWrite c (c.lanes i).greenPin HIGH
      let c := serialPrint c [.text "Lane ", .int (c.lanes i).laneID, .text " -> GREEN", .newline]
      if (c.lanes i).laneID = (c.lanes 0).laneID then
        let c := digitalWrite c (c.lanes 1).redPin HIGH
        setLane c 1 { c.lanes 1 with currentState := .RED }
      else
        let c := digitalWrite c (c.lanes 0).redPin HIGH
        setLane c 0 { c.lanes 0 with currentState := .RED }
    | .YELLOW =>
      let c := digitalWrite c (c.lanes i).yellowPin HIGH
      serialPrint c [.text "Lane ", .int (c.lanes i).laneID, .text " -> YELLOW", .newline]
    | .RED =>
      let c := digitalWrite c (c.lanes i).redPin HIGH
      let c := serialPrint c [.text "Lane ", .int (c.lanes i).laneID, .text " -> RED", .newline]
      setLane c i { c.lanes i with vehicleCount := 0 }

/-- FSM logic for signal cycling.  The result is `none` when `currentLaneIndex`
is not an index of `lanes`. -/
def updateSignals (c : Controller) (now : Nat) : Option Controller :=
  match laneAt c.currentLaneIndex with
  | none => none
  | some cur =>
    match (c.lanes cur).currentState with
    | .GREEN =>
      let duration := (c.lanes cur).greenDuration
      if subULong now (c.lanes cur).startTime ≥ duration then
        some (transitionState c (some cur) .YELLOW now)
      else some c
    | .YELLOW =>
      let duration := YELLOW_TIME
      if subULong now (c.lanes cur).startTime ≥ duration then
        let c := transitionState c (some cur) .RED now
        let c := { c with currentLaneIndex := 1 - c.currentLaneIndex }
        match laneAt c.currentLaneIndex with
        | none => none
        | some next => some (transitionState c (some next) .GREEN now)
      else some c
    | .RED => some c

/-- The loop `while(digitalRead(BTN) == LOW);`: `btn k` is the result of the
`k`-th read of the button in this pass, and the loop makes at most `fuel`
reads.  The result is the number of reads made in this pass once the button
is released, and `none` when the button is still held after `fuel` reads. -/
def waitRelease (btn : Nat → Bool) : Nat → Nat → Option Nat
  | 0, _ => none
  | fuel + 1, k => if btn k = LOW then waitRelease btn fuel (k + 1) else some (k + 1)

/-- Detection on one button: `if (digitalRead(BTN) == LOW)` count the vehicle,
then wait until the button is released. -/
def checkButton (fuel : Nat) (btn : Nat → Bool) (i : Fin 2) (c : Controller) :
    Option Controller :=
  if btn 0 = LOW then
    let c := setLane c i { c.lanes i with vehicleCount := wrapLong ((c.lanes i).vehicleCount + 1) }
    match waitRelease btn fuel 1 with
    | none => none
    | some _ => some c
  else some c

/-- Detects vehicle presence (using buttons).  The result is `none` when a
debounce loop does not finish within `fuel` reads. -/
def checkTrafficSensors (fuel : Nat) (btnA btnB : Nat → Bool) (c : Controller) :
    Option Controller :=
  match checkButton fuel btnA 0 c with
  | none => none
  | some c => checkButton fuel btnB 1 c

/-- Name of a state as `logData` prints it. -/
def stateName (s : SignalState) : String :=
  if s = .GREEN then "GREEN" else if s = .YELLOW then "YELLOW" else "RED"

/-- Body of the `for` loop of `logData` for lane `i`. -/
def logLane (c : Controller) (i : Fin 2) (now : Nat) : Controller :=
  let c :=
    if (c.lanes i).currentState = .RED then
      let currentWait := subULong now (c.lanes i).startTime
      setLane c i { c.lanes i with totalWaitTime := addULong (c.lanes i).totalWaitTime currentWait }
    else c
  serialPrint c [.ulong now, .text ",", .int (c.lanes i).laneID, .text ",",
    .text (stateName (c.lanes i).currentState), .text ",",
    .int (c.lanes i).vehicleCount, .text ",", .ulong (c.lanes i).greenDuration, .text ",",
    .ulong (c.lanes i).totalWaitTime, .newline]

/-- Logs data to the Serial port. -/
def logData (c : Controller) (now : Nat) : Controller :=
  let c := serialPrint c [.text "\n--- LOG ENTRY ---", .newline]
  let c := serialPrint c
    [.text "Timestamp(ms),LaneID,State,VehicleCount,CurrentGreenDuration(ms),WaitTime(ms)", .newline]
  let c := logLane c 0 now
  let c := logLane c 1 now
  serialPrint c [.text "-----------------", .newline]

/-- Serial interface for status.  `command` is the byte `Serial.read()` would
return, `none` when `Serial.available()` is `0`. -/
def checkSerialInterface (c : Controller) (command : Option Char) : Controller :=
  match command with
  | none => c
  | some command =>
    let c := serialPrint c [.text "Command received: ", .char command, .newline]
    if command = 's' then
      let c := serialPrint c [.text "\n--- SYSTEM STATUS ---", .newline]
      let c := serialPrint c [.text "Lane A Count: ", .int (c.lanes 0).vehicleCount, .newline]
      serialPrint c [.text "Lane B Count: ", .int (c.lanes 1).vehicleCount, .newline]
    else c

/-- Helper to set up a lane struct. -/
def setupLane (c : Controller) (i : Fin 2) (id rP yP gP bP : Int) : Controller :=
  setLane c i
    { laneID := id, redPin := rP, yellowPin := yP, greenPin := gP, buttonPin := bP,
      vehicleCount := 0, currentState := .RED, greenDuration := MIN_GREEN_TIME,
      startTime := 0, totalWaitTime := 0 }

/-- The state at power-on: zero-initialised globals, `currentLaneIndex = 0`,
`nextLogTime = 0`, every pin `LOW`, nothing written to `Serial`. -/
def powerOn : Controller :=
  { lanes := fun _ =>
      { laneID := 0, redPin := 0, yellowPin := 0, greenPin := 0, buttonPin := 0,
        vehicleCount := 0, currentState := .GREEN, greenDuration := 0,
        startTime := 0, totalWaitTime := 0 },
    currentLaneIndex := 0,
    nextLogTime := 0,
    pins := fun _ => LOW,
    serial := [] }

/-- The function `setup`, run from the power-on state with clock reading `now`. -/
def setup (now : Nat) : Controller :=
  let c := serialPrint powerOn [.text "--- Smart Traffic System Initialized ---", .newline]
  let c := setupLane c 0 0 A_RED A_YELLOW A_GREEN BTN_A
  let c := setupLane c 1 1 B_RED B_YELLOW B_GREEN BTN_B
  let c := transitionState c (some 0) .GREEN now
  let c := transitionState c (some 1) .RED now
  { c with nextLogTime := addULong now LOGGING_INTERVAL }

/-- The inputs of one pass of `loop`: the clock reading `now` the state machine
takes, the reads of the two buttons, the clock readings taken after the
detector (`nowGate` by the test `millis() >= nextLogTime`, `nowLog` by
`logData`, `nowDeadline` by `nextLogTime = millis() + LOGGING_INTERVAL`) and
the byte pending on the serial line. -/
structure TickInput where
  now : Nat
  btnA : Nat → Bool
  btnB : Nat → Bool
  nowGate : Nat
  nowLog : Nat
  nowDeadline : Nat
  command : Option Char

/-- One pass of `loop`.  The result is `none` when the pass does not finish:
a debounce loop is still waiting after `fuel` reads, or `currentLaneIndex` is
out of range. -/
def loop (fuel : Nat) (inp : TickInput) (c : Controller) : Option Controller :=
  match updateSignals c inp.now with
  | none => none
  | some c =>
    match checkTrafficSensors fuel inp.btnA inp.btnB c with
    | none => none
    | some c =>
      let c :=
        if inp.nowGate ≥ c.nextLogTime then
          let c := logData c inp.nowLog
          { c with nextLogTime := addULong inp.nowDeadline LOGGING_INTERVAL }
        else c
      some (checkSerialInterface c inp.command)

/-- The controller states the sketch can be in after `setup` and any number of
completed passes of `loop`, for any inputs. -/
inductive Reachable : Controller → Prop
  | setup (now : Nat) : Reachable (setup now)
  | tick {c d : Controller} (fuel : Nat) (inp : TickInput) :
      Reachable c → loop fuel inp c = some d → Reachable d

/-- Running `loop` once for each element of a list of inputs, in order.  The
result is `none` when one of the passes does not finish. -/
def run (fuel : Nat) : List TickInput → Controller → Option Controller
  | [], c => some c
  | inp :: rest, c =>
    match loop fuel inp c with
    | none => none
    | some d => run fuel rest d

/-- The value `millis()` returns `T` milliseconds after power-on: the
millisecond count as an `unsigned long`. -/
def millis (T : Nat) : Nat := T % ULONG_RANGE

/-! ## Predicates used in the theorems -/

/-- The lane that is not lane `i`. -/
def otherLane (i : Fin 2) : Fin 2 := if i = 0 then 1 else 0

/-- The record `transitionState(lane, GREEN)` leaves in the lane it is called
on: state, start time and green duration are rewritten. -/
def greenLane (l : TrafficLane) (now : Nat) : TrafficLane :=
  { l with currentState := .GREEN, startTime := now, greenDuration := greenTime l.vehicleCount }

/-- The lane ids are the ones `setup` assigns: `lanes[0].laneID = 0` and
`lanes[1].laneID = 1`. -/
def LaneIds (c : Controller) : Prop :=
  (c.lanes 0).laneID = 0 ∧ (c.lanes 1).laneID = 1

/-- Lane `i` holds the go/caution phase: it is green or yellow. -/
def Moving (c : Controller) (i : Fin 2) : Prop :=
  (c.lanes i).currentState = .GREEN ∨ (c.lanes i).currentState = .YELLOW

/-- Mutual exclusion: `currentLaneIndex` is `0` or `1`, the lane it designates
is green or yellow, and the other lane is red. -/
def MutualExclusion (c : Controller) : Prop :=
  (c.currentLaneIndex = 0 ∧ Moving c 0 ∧ (c.lanes 1).currentState = .RED) ∨
  (c.currentLaneIndex = 1 ∧ Moving c 1 ∧ (c.lanes 0).currentState = .RED)

/-- The controllers `c` and `d` agree on everything the state machine reads
or writes: for both lanes the id, state, green duration and phase start time,
and the index of the current lane. -/
def SameSignals (c d : Controller) : Prop :=
  (∀ i : Fin 2, (d.lanes i).laneID = (c.lanes i).laneID ∧
    (d.lanes i).currentState = (c.lanes i).currentState ∧
    (d.lanes i).greenDuration = (c.lanes i).greenDuration ∧
    (d.lanes i).startTime = (c.lanes i).startTime) ∧
  d.currentLaneIndex = c.currentLaneIndex

/-- The clock readings the state machine takes in the passes `inps` are the
readings `millis T` of times `T` that never decrease from one pass to the
next, are at least `lo` and stay below `hi`. -/
def ClockBetween (lo hi : Nat) : List TickInput → Prop
  | [] => True
  | inp :: rest => ∃ T, lo ≤ T ∧ T < hi ∧ inp.now = millis T ∧ ClockBetween T hi rest

/-- Inputs of a pass in which no button is pressed, no command is pending and
every clock reading is `now`. -/
def quiet (now : Nat) : TickInput :=
  { now := now, btnA := fun _ => HIGH, btnB := fun _ => HIGH, nowGate := now, nowLog := now,
    nowDeadline := now, command := none }

/-- Inputs of a pass in which button B reads `LOW` at the first read and
`HIGH` afterwards, button A is not pressed, no command is pending and every
clock reading is `now`. -/
def pressB (now : Nat) : TickInput :=
  { now := now, btnA := fun _ => HIGH, btnB := fun k => if k = 0 then LOW else HIGH,
    nowGate := now, nowLog := now, nowDeadline := now, command := none }

/-- The controller `c` with `lanes[1].vehicleCount` set to `n`. -/
def withCountB (c : Controller) (n : Int) : Controller :=
  setLane c 1 { c.lanes 1 with vehicleCount := n }

/-- The first phase after `setup` at time `T0`, seen at time `T`: lane 0 is
the current lane and is either still in the green phase `setup` started, or in
the yellow phase it entered at some time between `T0 + 4000` and `T`. -/
def FirstPhase (T0 T : Nat) (c : Controller) : Prop :=
  c.currentLaneIndex = 0 ∧
  (((c.lanes 0).currentState = .GREEN ∧ (c.lanes 0).startTime = millis T0 ∧
      (c.lanes 0).greenDuration = 4000) ∨
    ((c.lanes 0).currentState = .YELLOW ∧
      ∃ Ti, T0 + 4000 ≤ Ti ∧ Ti ≤ T ∧ (c.lanes 0).startTime = millis Ti))

/-- A reachable controller state in which lane 1 is green with five vehicles
counted: the state after `setup` at clock reading 0, five passes of `loop` at
0 in each of which button B is pressed once, a quiet pass at 4000 and a quiet
pass at 6000. -/
def laneBGreenFive : Controller :=
  (run 2 (List.replicate 5 (pressB 0) ++ [quiet 4000, quiet 6000]) (setup 0)).getD powerOn

/-- A controller in which the current lane, lane 0, is yellow since clock
reading 4000: the state `setup` produces at clock reading 0 after
`transitionState(&lanes[0], YELLOW)` at 4000. -/
def laneAYellow : Controller :=
  transitionState (setup 0) (some 0) .YELLOW 4000

/-- The state after `setup` at clock reading 0 and quiet passes of `loop` at
4000, 6000 and 10000: lane 1 is in the yellow phase it entered at 10000. -/
def inCautionB : Controller :=
  (run 2 [quiet 4000, quiet 6000, quiet 10000] (setup 0)).getD powerOn

/-- The state after the pass at 12000 from `inCautionB`: lane 1 has entered
RED at the end of its own yellow phase and lane 0 is green. -/
def stoppedB : Controller := (loop 2 (quiet 12000) inCautionB).getD powerOn

/-- The state after a quiet pass at 16000 from `stoppedB` with 8589927 vehicles
counted on lane 1. -/
def waitingB : Controller :=
  (run 2 [quiet 16000] (withCountB stoppedB 8589927)).getD powerOn

/-- The state after the pass at 18000 from `waitingB`: lane 1 has entered
GREEN again. -/
def releasedB : Controller := (loop 2 (quiet 18000) waitingB).getD powerOn

/-- Button of lane `i` reads `LOW` at the first read of the pass: the detector
records one arrival on lane `i` in this pass. -/
def pressed (i : Fin 2) (inp : TickInput) : Bool :=
  (if i = 0 then inp.btnA 0 else inp.btnB 0) == LOW

/-- Number of arrivals the detector records on lane `i` during the passes
`inps`. -/
def arrivals (i : Fin 2) (inps : List TickInput) : Nat :=
  inps.countP (pressed i)

/-- Running the passes `inps` as `run` does, with the further requirement that
lane `i` is red after each of them. -/
def runWhileRed (fuel : Nat) (i : Fin 2) : List TickInput → Controller → Option Controller
  | [], c => some c
  | inp :: rest, c =>
    match loop fuel inp c with
    | none => none
    | some d => if (d.lanes i).currentState = .RED then runWhileRed fuel i rest d else none

/-- The passes of the two-arrival scenario after lane 1 turned yellow: the pass
at 12000 that ends its yellow phase, then two passes in which button B is
pressed once, separated and followed by quiet passes. -/
def twoArrivals : List TickInput :=
  [quiet 12000, pressB 12000, quiet 13000, pressB 14000, quiet 16000]

/-- The state after the passes `twoArrivals` from `inCautionB`. -/
def afterTwoArrivals : Controller := (runWhileRed 2 1 twoArrivals inCautionB).getD powerOn

/-- The state after the step of the state machine at 18000 from
`afterTwoArrivals`. -/
def greenAfterTwoArrivals : Controller := (updateSignals afterTwoArrivals 18000).getD powerOn

/-- The controller `c` after the detector has counted one vehicle on lane `i`:
`lanes[i].vehicleCount++`. -/
def countArrival (c : Controller) (i : Fin 2) : Controller :=
  setLane c i { c.lanes i with vehicleCount := wrapLong ((c.lanes i).vehicleCount + 1) }

/-- The controllers `c` and `d` differ at most in the `vehicleCount` fields of
the two lanes. -/
def CountsOnly (c d : Controller) : Prop :=
  (∀ i : Fin 2, d.lanes i = { c.lanes i with vehicleCount := (d.lanes i).vehicleCount }) ∧
  d.currentLaneIndex = c.currentLaneIndex ∧ d.nextLogTime = c.nextLogTime ∧
  d.pins = c.pins ∧ d.serial = c.serial

/-- Reads of a button that is `LOW` at the first three reads of a pass and
`HIGH` from the fourth on. -/
def heldThreeReads : Nat → Bool := fun k => if k < 3 then LOW else HIGH

/-- The items `checkSerialInterface` writes to `Serial` for the pending command
`command` in state `c`: the serial output after the call without the output
before it. -/
def emitted (c : Controller) (command : Option Char) : List SerialItem :=
  (checkSerialInterface c command).serial.drop c.serial.length

/-- The state of scenario E: the state after `setup` with three vehicles
counted on lane 0 and none on lane 1. -/
def scenarioE : Controller :=
  setLane (setup 0) 0 { (setup 0).lanes 0 with vehicleCount := 3 }

/-- The CSV record `logData` writes for lane `i` of the controller `d` at
clock reading `now`: timestamp, lane id, state name, vehicle count, green
duration and total wait time. -/
def logRecord (d : Controller) (i : Fin 2) (now : Nat) : List SerialItem :=
  [.ulong now, .text ",", .int (d.lanes i).laneID, .text ",",
    .text (stateName (d.lanes i).currentState), .text ",",
    .int (d.lanes i).vehicleCount, .text ",", .ulong (d.lanes i).greenDuration, .text ",",
    .ulong (d.lanes i).totalWaitTime, .newline]

/-- The record `logData` leaves in a lane: a red lane has the time since its
start time added to its total wait time, in `unsigned long` arithmetic; a lane
that is not red is unchanged. -/
def accrueWait (l : TrafficLane) (now : Nat) : TrafficLane :=
  if l.currentState = .RED then
    { l with totalWaitTime := addULong l.totalWaitTime (subULong now l.startTime) }
  else l

/-- A controller in which lane 1 has been red since clock reading 1000 with a
total wait time of 250: the state after `setup` at 1000 with that total. -/
def waitingLaneB : Controller :=
  setLane (setup 1000) 1 { (setup 1000).lanes 1 with totalWaitTime := 250 }

/-- The lamp pins of the two lanes are the ones `setup` assigns. -/
def PinsConfigured (c : Controller) : Prop :=
  (c.lanes 0).redPin = A_RED ∧ (c.lanes 0).yellowPin = A_YELLOW ∧
  (c.lanes 0).greenPin = A_GREEN ∧ (c.lanes 1).redPin = B_RED ∧
  (c.lanes 1).yellowPin = B_YELLOW ∧ (c.lanes 1).greenPin = B_GREEN

/-- For each lane, each of the three lamp pins is `HIGH` exactly when the
state field of the lane is the state of that lamp. -/
def LampsMatch (c : Controller) : Prop :=
  ∀ i : Fin 2,
    (c.pins (c.lanes i).redPin = HIGH ↔ (c.lanes i).currentState = .RED) ∧
    (c.pins (c.lanes i).yellowPin = HIGH ↔ (c.lanes i).currentState = .YELLOW) ∧
    (c.pins (c.lanes i).greenPin = HIGH ↔ (c.lanes i).currentState = .GREEN)

/-- The controllers `c` and `d` have the same pin levels, and their lanes have
the same lamp pins and the same state. -/
def SameLamps (c d : Controller) : Prop :=
  d.pins = c.pins ∧
  ∀ i : Fin 2, (d.lanes i).redPin = (c.lanes i).redPin ∧
    (d.lanes i).yellowPin = (c.lanes i).yellowPin ∧
    (d.lanes i).greenPin = (c.lanes i).greenPin ∧
    (d.lanes i).currentState = (c.lanes i).currentState

/-- Reads of a button that is `LOW` at the first read of a pass and `HIGH`
afterwards. -/
def pressedOnce : Nat → Bool := fun k => if k = 0 then LOW else HIGH

/-- A controller in which the count of lane 0 is the largest `long`: the state
after `setup` with `lanes[0].vehicleCount = 2147483647`. -/
def laneACountMax : Controller :=
  setLane (setup 0) 0 { (setup 0).lanes 0 with vehicleCount := 2147483647 }

/-- The state after a detector pass from `laneACountMax` in which button A is
pressed once. -/
def laneACountWrapped : Controller :=
  (checkTrafficSensors 2 pressedOnce (fun _ => HIGH) laneACountMax).getD powerOn

/-- A controller in which lane 1 is red since clock reading 0 and its total
wait time is the largest `unsigned long`: the state after `setup` with
`lanes[1].totalWaitTime = 4294967295`. -/
def waitNearMax : Controller :=
  setLane (setup 0) 1 { (setup 0).lanes 1 with totalWaitTime := 4294967295 }

/-- Time lane `i` has spent in RED during the passes `inps` made from state
`c`, when the pass before them was made at clock reading `prev`: a lane keeps
its state between two passes, so the clock advance from one pass to the next
counts when the lane is RED as the next pass starts.  The time of a pass is
the reading `now` of its state machine, the only step that changes the state
of a lane. -/
def stopTime (fuel : Nat) (i : Fin 2) : Nat → List TickInput → Controller → Nat
  | _, [], _ => 0
  | prev, inp :: rest, c =>
    (if (c.lanes i).currentState = .RED then inp.now - prev else 0) +
      match loop fuel inp c with
      | none => 0
      | some d => stopTime fuel i inp.now rest d

/-- Passes of a run under heavy load on lane 1: 22 passes at clock reading 0
in each of which button B is pressed once, then quiet passes at 4000 (lane 0
turns yellow), 6000 (lane 0 turns red, lane 1 green for 15000 ms) and 10000
(first log entry). -/
def heavyLoadB : List TickInput :=
  List.replicate 22 (pressB 0) ++ [quiet 4000, quiet 6000, quiet 10000]

/-- The state after the passes `heavyLoadB` from `setup` at clock reading 0. -/
def afterFirstLog : Controller := (run 2 heavyLoadB (setup 0)).getD powerOn

/-- The state after a further quiet pass at 20000 (second log entry). -/
def afterSecondLog : Controller := (loop 2 (quiet 20000) afterFirstLog).getD powerOn

/-- The state after `setup` at clock reading 0 with 8589927 vehicles counted on
lane 1, a quiet pass at 4000 and a quiet pass at 6000: lane 1 has entered
GREEN at 6000. -/
def laneBGreenWrapped : Controller :=
  (run 2 [quiet 4000, quiet 6000] (withCountB (setup 0) 8589927)).getD powerOn

/-- The state after a quiet pass at 6204 from `laneBGreenWrapped`. -/
def laneBGreenCut : Controller := (loop 2 (quiet 6204) laneBGreenWrapped).getD powerOn

/-- The lane record `l` without its wait accumulator: `totalWaitTime` set to 0. -/
def eraseLane (l : TrafficLane) : TrafficLane := { l with totalWaitTime := 0 }

/-- The controller `c` without its wait accumulators and its Serial output:
the `totalWaitTime` field of both lanes set to 0 and the text written to
`Serial` dropped. -/
def eraseWait (c : Controller) : Controller :=
  { c with lanes := fun i => eraseLane (c.lanes i), serial := [] }

/-- The controllers `c` and `d` differ at most in the `totalWaitTime` fields of
the two lanes and in the text written to `Serial`. -/
def SameButWait (c d : Controller) : Prop :=
  (∀ i : Fin 2, d.lanes i = { c.lanes i with totalWaitTime := (d.lanes i).totalWaitTime }) ∧
  d.currentLaneIndex = c.currentLaneIndex ∧ d.nextLogTime = c.nextLogTime ∧ d.pins = c.pins

/-- The state after a quiet pass from `setup` at clock reading 0 in which every
clock reading is 4294967295, the largest `unsigned long`. -/
def afterWrapPass : Controller := (loop 1 (quiet 4294967295) (setup 0)).getD powerOn

/-- Inputs of a pass that starts at clock reading 4000 and in which button A
is held: it reads `LOW` at the first three reads, and the clock readings taken
after the detector are 11500. -/
def heldPass : TickInput :=
  { now := 4000, btnA := heldThreeReads, btnB := fun _ => HIGH, nowGate := 11500,
    nowLog := 11500, nowDeadline := 11500, command := none }

/-- The state after the pass `heldPass` from `setup` at clock reading 0. -/
def afterHeldPass : Controller := (loop 4 heldPass (setup 0)).getD powerOn

end SmartTraffic

/-! ## Array loops shared by the C programs

`dynamicmath.c` and `studentmg.c` work on arrays passed as a pointer and an
`int` size.  An array is a list holding at least `size` elements; `data[k]` is
`data.getD k dflt`, where the default is never read as long as `size` does not
exceed the length of the list.  A `for` loop whose bounds are not assigned in
its body is a fold over the list of the values of its counter. -/

namespace ArrayLoops

/-- The three assignments `t = data[j]; data[j] = data[j + 1]; data[j + 1] = t`. -/
def swapAdjacent {α : Type} (dflt : α) (data : List α) (j : Nat) : List α :=
  let t := data.getD j dflt
  let data := data.set j (data.getD (j + 1) dflt)
  data.set (j + 1) t

/-- Body of the inner loop of the three bubble sorts of the repository:
`if (data[j] and data[j + 1] are out of order)` swap them. -/
def bubbleStep {α : Type} (dflt : α) (outOfOrder : α → α → Prop) [DecidableRel outOfOrder]
    (data : List α) (j : Nat) : List α :=
  if outOfOrder (data.getD j dflt) (data.getD (j + 1) dflt) then swapAdjacent dflt data j
  else data

/-- The loop nest of the three bubble sorts of the repository (`sortAsc`,
`sortDesc`, `sort_by_name`): `passes` iterations of the outer loop, the `i`-th
of which runs the inner loop for `j = 0, ..., bound i - 1`. -/
def bubbleLoops {α : Type} (dflt : α) (outOfOrder : α → α → Prop) [DecidableRel outOfOrder]
    (passes : Nat) (bound : Nat → Nat) (data : List α) : List α :=
  (List.range passes).foldl
    (fun data i => (List.range (bound i)).foldl (bubbleStep dflt outOfOrder) data) data

/-- A loop `for (i = ...; ...; i++) { if (hit i) return i; } return -1;` over
the counter values `is`. -/
def returnFirst (hit : Nat → Bool) : List Nat → Int
  | [] => -1
  | i :: rest => if hit i then (i : Int) else returnFirst hit rest

end ArrayLoops

/-! ## Dynamic Math and Data Processing Engine (`dynamicmath.c`) -/

namespace DynamicMath

/-- sort ascending -/
def sortAsc (data : List Int) (size : Int) : List Int :=
  (List.range (size - 1).toNat).foldl
    (fun data (i : Nat) =>
      (List.range (size - i - 1).toNat).foldl
        (fun data (j : Nat) =>
          if data.getD j 0 > data.getD (j + 1) 0 then
            let t := data.getD j 0
            let data := data.set j (data.getD (j + 1) 0)
            data.set (j + 1) t
          else data)
        data)
    data

/-- sort descending -/
def sortDesc (data : List Int) (size : Int) : List Int :=
  (List.range (size - 1).toNat).foldl
    (fun data (i : Nat) =>
      (List.range (size - i - 1).toNat).foldl
        (fun data (j : Nat) =>
          if data.getD j 0 < data.getD (j + 1) 0 then
            let t := data.getD j 0
            let data := data.set j (data.getD (j + 1) 0)
            data.set (j + 1) t
          else data)
        data)
    data

/-- search for value -/
def searchVal (data : List Int) (size : Int) (v : Int) : Int :=
  ArrayLoops.returnFirst (fun i => data.getD i 0 == v) (List.range size.toNat)

end DynamicMath

/-! ## Student Management System (`studentmg.c`)

The array of students is the pair of the allocated block `students` (a list)
and the `int` count; the roster is the first `count` elements of the block.
The text written to `stdout` and the autosave file are not part of the model.
The lines `read_line` delivers are inputs (`none` when `fgets` fails), a line
being the list of its bytes; `parse_int` and `parse_float`, which wrap `strtol`
and `strtof`, are parameters; whether `realloc` succeeds is an input.  A
`float` grade is a rational number. -/

namespace StudentMg

/-- Size of the `name` field. -/
def NAME_LEN : Nat := 100

/-- Student structure -/
structure Student where
  id : Int
  name : List Nat
  grade : Rat
  deriving DecidableEq

/-- Content of a cell of the block that has not been assigned yet. -/
def noStudent : Student := { id := 0, name := [], grade := 0 }

/-- The library functions behind `parse_int` and `parse_float`: the value
parsed from a line, `none` when the helper returns 0. -/
structure Parsers where
  parse_int : List Nat → Option Int
  parse_float : List Nat → Option Rat

/-- Find student index by ID; return -1 if not found -/
def find_by_id (arr : List Student) (n : Int) (id : Int) : Int :=
  ArrayLoops.returnFirst (fun i => (arr.getD i noStudent).id == id) (List.range n.toNat)

/-- The block `realloc(students, newSize * sizeof(Student))` returns when it
succeeds: the old contents up to the smaller of the two sizes, new cells
unassigned. -/
def realloc (students : List Student) (newSize : Nat) : List Student :=
  students.take newSize ++ List.replicate (newSize - students.length) noStudent

/-- The effect of `strncpy(dst, buf, NAME_LEN); dst[NAME_LEN-1] = 0` on the
string in `dst`: the first `NAME_LEN - 1` bytes of `buf`. -/
def copyName (buf : List Nat) : List Nat := buf.take (NAME_LEN - 1)

/-- The inputs of one call of `add_student`: the three lines read and the
outcome of `realloc`. -/
structure AddInput where
  idLine : Option (List Nat)
  nameLine : Option (List Nat)
  gradeLine : Option (List Nat)
  reallocOk : Bool

/-- Add student (interactive), returns new array pointer and updates count -/
def add_student (lib : Parsers) (students : List Student) (count : Int) (inp : AddInput) :
    List Student × Int :=
  match inp.idLine with
  | none => (students, count)
  | some buf =>
    match lib.parse_int buf with
    | none => (students, count)
    | some id =>
      if find_by_id students count id ≠ -1 then (students, count)
      else
        match inp.nameLine with
        | none => (students, count)
        | some buf =>
          let name := copyName buf
          match inp.gradeLine with
          | none => (students, count)
          | some buf =>
            match lib.parse_float buf with
            | none => (students, count)
            | some grade =>
              if grade < 0 ∨ grade > 100 then (students, count)
              else
                let newSize := count + 1
                if inp.reallocOk = false then (students, count)
                else
                  let students := realloc students newSize.toNat
                  let students := students.set count.toNat
                    { id := id, name := copyName name, grade := grade }
                  (students, newSize)

/-- The inputs of one call of `update_student`: the three lines read. -/
structure UpdateInput where
  idLine : Option (List Nat)
  nameLine : Option (List Nat)
  gradeLine : Option (List Nat)

/-- Update student (by ID) -/
def update_student (lib : Parsers) (students : List Student) (count : Int) (inp : UpdateInput) :
    List Student :=
  if count = 0 then students
  else
    match inp.idLine with
    | none => students
    | some buf =>
      match lib.parse_int buf with
      | none => students
      | some id =>
        let idx := find_by_id students count id
        if idx = -1 then students
        else
          match inp.nameLine with
          | none => students
          | some buf =>
            let students :=
              if buf ≠ [] then
                students.set idx.toNat
                  { students.getD idx.toNat noStudent with name := copyName buf }
              else students
            match inp.gradeLine with
            | none => students
            | some buf =>
              if buf ≠ [] then
                match lib.parse_float buf with
                | none => students
                | some g =>
                  if g < 0 ∨ g > 100 then students
                  else
                    students.set idx.toNat { students.getD idx.toNat noStudent with grade := g }
              else students

/-- The inputs of one call of `delete_student`: the line read and the outcome
of `realloc`. -/
structure DeleteInput where
  idLine : Option (List Nat)
  reallocOk : Bool

/-- The loop `for (int i = idx; i < *count - 1; ++i) students[i] = students[i+1];`. -/
def shiftLeft (students : List Student) (count : Int) (idx : Int) : List Student :=
  (List.range' idx.toNat (count - 1 - idx).toNat).foldl
    (fun students (i : Nat) => students.set i (students.getD (i + 1) noStudent)) students

/-- Delete student by ID -/
def delete_student (lib : Parsers) (students : List Student) (count : Int) (inp : DeleteInput) :
    List Student × Int :=
  if count = 0 then (students, count)
  else
    match inp.idLine with
    | none => (students, count)
    | some buf =>
      match lib.parse_int buf with
      | none => (students, count)
      | some id =>
        let idx := find_by_id students count id
        if idx = -1 then (students, count)
        else
          let students := shiftLeft students count idx
          let newSize := count - 1
          if newSize = 0 then ([], 0)
          else
            let students := if inp.reallocOk then realloc students newSize.toNat else students
            (students, newSize)

/-- The result of `strcmp` on two strings given by their bytes: 0 when they
are equal, otherwise the difference of the first two bytes that differ, the
end of a string counting as the byte 0. -/
def strcmp : List Nat → List Nat → Int
  | [], [] => 0
  | [], b :: _ => -(b : Int)
  | a :: _, [] => (a : Int)
  | a :: s, b :: t => if a = b then strcmp s t else (a : Int) - (b : Int)

/-- Sort by name (ascending) using bubble sort -/
def sort_by_name (students : List Student) (count : Int) : List Student :=
  if count < 2 then students
  else
    (List.range (count - 1).toNat).foldl
      (fun students (i : Nat) =>
        (List.range (count - 1 - i).toNat).foldl
          (fun students (j : Nat) =>
            if strcmp (students.getD j noStudent).name (students.getD (j + 1) noStudent).name > 0
            then
              let tmp := students.getD j noStudent
              let students := students.set j (students.getD (j + 1) noStudent)
              students.set (j + 1) tmp
            else students)
          students)
      students

/-- A block of three students with the ids 1, 2 and 3 (named "Ann", "Bob" and
"Cy"). -/
def sampleRoster : List Student :=
  [{ id := 1, name := [65, 110, 110], grade := 50 },
   { id := 2, name := [66, 111, 98], grade := 70 },
   { id := 3, name := [67, 121], grade := 90 }]

/-- Parsing helpers for one-digit lines: the value of the first byte as a
decimal digit, and ten times that value for a grade. -/
def sampleParsers : Parsers :=
  { parse_int := fun buf =>
      match buf with
      | [] => none
      | b :: _ => some ((b : Int) - 48),
    parse_float := fun buf =>
      match buf with
      | [] => none
      | b :: _ => some ((((b : Int) - 48) * 10 : Int) : Rat) }

/-- The lines "4", "Dan" and "8", and a `realloc` that succeeds. -/
def sampleAdd : AddInput :=
  { idLine := some [52], nameLine := some [68, 97, 110], gradeLine := some [56],
    reallocOk := true }

/-- The line "2", an empty line and the line "9". -/
def sampleUpdate : UpdateInput :=
  { idLine := some [50], nameLine := some [], gradeLine := some [57] }

/-- The line "2", and a `realloc` that succeeds. -/
def sampleDelete : DeleteInput := { idLine := some [50], reallocOk := true }

/-- The block holds the roster: the count is not negative and does not exceed
the number of cells of the block. -/
def WellFormed (students : List Student) (count : Int) : Prop :=
  0 ≤ count ∧ count ≤ students.length

/-- The ids of the roster, in the order of the array. -/
def rosterIds (students : List Student) (count : Int) : List Int :=
  (students.take count.toNat).map Student.id

/-- The ids of the roster are pairwise distinct. -/
def UniqueIds (students : List Student) (count : Int) : Prop :=
  (rosterIds students count).Nodup

end StudentMg

namespace SmartTraffic

/-! ## Machine arithmetic: lemmas -/

theorem toULong_wrapLong (x : Int) : toULong (wrapLong x) = toULong x := by
  unfold toULong wrapLong
  congr 1
  omega

theorem toULong_natCast (n : Nat) : toULong (n : Int) = n % 4294967296 := by
  unfold toULong
  omega

theorem wrapLong_of_range (x : Int) (h0 : -2147483648 ≤ x) (h1 : x < 2147483648) :
    wrapLong x = x := by
  unfold wrapLong
  omega

/-- The green duration for a count `n ≥ 0`, written with natural numbers. -/
theorem greenTime_natCast (n : Nat) :
    greenTime (n : Int) =
      if (4000 + (500 * n) % 4294967296) % 4294967296 > 15000 then 15000
      else (4000 + (500 * n) % 4294967296) % 4294967296 := by
  have h : ((n : Int) * 500) = ((n * 500 : Nat) : Int) := by push_cast; ring
  simp only [greenTime, toULong_wrapLong, TIME_PER_VEHICLE, h, toULong_natCast, addULong,
    MIN_GREEN_TIME, MAX_GREEN_TIME, ULONG_RANGE, Nat.mul_comm n 500]

/-- While `4000 + 500 * n` fits in 32 bits the green duration is the capped
linear formula. -/
theorem greenTime_of_le (n : Nat) (h1 : n ≤ 8589926) :
    greenTime (n : Int) = min (4000 + 500 * n) 15000 := by
  rw [greenTime_natCast]
  have h2 : 500 * n % 4294967296 = 500 * n := Nat.mod_eq_of_lt (by omega)
  have h3 : (4000 + 500 * n) % 4294967296 = 4000 + 500 * n := Nat.mod_eq_of_lt (by omega)
  rw [h2, h3]
  split <;> omega

/-- The cap of `dynamicTiming` holds for every count. -/
theorem greenTime_le_max (v : Int) : greenTime v ≤ MAX_GREEN_TIME := by
  unfold greenTime
  simp only []
  split
  · exact Nat.le_refl _
  · omega

theorem subULong_millis (a b : Nat) (hab : a ≤ b) (hlt : b - a < 4294967296) :
    subULong (millis b) (millis a) = b - a := by
  unfold subULong millis ULONG_RANGE
  omega

/-! ## Effect of `transitionState` field by field -/

theorem transitionState_yellow_lanes (c : Controller) (i : Fin 2) (now : Nat) :
    (transitionState c (some i) .YELLOW now).lanes =
      Function.update c.lanes i { c.lanes i with currentState := .YELLOW, startTime := now } := by
  simp [transitionState, setLane, digitalWrite, serialPrint]

theorem transitionState_red_lanes (c : Controller) (i : Fin 2) (now : Nat) :
    (transitionState c (some i) .RED now).lanes =
      Function.update c.lanes i
        { c.lanes i with currentState := .RED, startTime := now, vehicleCount := 0 } := by
  simp [transitionState, setLane, digitalWrite, serialPrint]

theorem transitionState_green_lanes (c : Controller) (i : Fin 2) (now : Nat) :
    (transitionState c (some i) .GREEN now).lanes =
      if (c.lanes i).laneID = (c.lanes 0).laneID then
        Function.update (Function.update c.lanes i (greenLane (c.lanes i) now)) 1
          { Function.update c.lanes i (greenLane (c.lanes i) now) 1 with currentState := .RED }
      else
        Function.update (Function.update c.lanes i (greenLane (c.lanes i) now)) 0
          { Function.update c.lanes i (greenLane (c.lanes i) now) 0 with currentState := .RED } := by
  fin_cases i
  · simp [transitionState, setLane, digitalWrite, serialPrint, dynamicTiming, greenLane,
      Function.update]
  · simp [transitionState, setLane, digitalWrite, serialPrint, dynamicTiming, greenLane,
      Function.update]
    split <;> simp_all

theorem transitionState_index (c : Controller) (l : Option (Fin 2)) (s : SignalState) (now : Nat) :
    (transitionState c l s now).currentLaneIndex = c.currentLaneIndex := by
  cases l with
  | none => rfl
  | some i =>
    cases s <;> simp [transitionState, setLane, digitalWrite, serialPrint, dynamicTiming]
    split <;> rfl

theorem transitionState_nextLogTime (c : Controller) (l : Option (Fin 2)) (s : SignalState)
    (now : Nat) : (transitionState c l s now).nextLogTime = c.nextLogTime := by
  cases l with
  | none => rfl
  | some i =>
    cases s <;> simp [transitionState, setLane, digitalWrite, serialPrint, dynamicTiming]
    split <;> rfl

theorem transitionState_laneID (c : Controller) (l : Option (Fin 2)) (s : SignalState)
    (now : Nat) (j : Fin 2) :
    ((transitionState c l s now).lanes j).laneID = (c.lanes j).laneID := by
  cases l with
  | none => rfl
  | some i =>
    cases s
    · rw [transitionState_green_lanes]
      fin_cases i <;> fin_cases j <;> split <;> simp [Function.update, greenLane]
    · rw [transitionState_yellow_lanes]
      fin_cases i <;> fin_cases j <;> simp [Function.update]
    · rw [transitionState_red_lanes]
      fin_cases i <;> fin_cases j <;> simp [Function.update]

/-- The count of a lane other than the one `transitionState` is called on is
not written. -/
theorem transitionState_vehicleCount_other (c : Controller) (i j : Fin 2) (s : SignalState)
    (now : Nat) (hj : j ≠ i) :
    ((transitionState c (some i) s now).lanes j).vehicleCount = (c.lanes j).vehicleCount := by
  cases s
  · rw [transitionState_green_lanes]
    fin_cases i <;> fin_cases j <;> first
      | exact absurd rfl hj
      | (split <;> simp [Function.update, greenLane])
  · rw [transitionState_yellow_lanes]
    simp [Function.update, hj]
  · rw [transitionState_red_lanes]
    simp [Function.update, hj]

/-- The green duration stored by `transitionState(lane, GREEN)` is the one
`dynamicTiming` computes from the count the lane holds at the call. -/
theorem transitionState_green_duration (c : Controller) (i : Fin 2) (now : Nat) :
    ((transitionState c (some i) .GREEN now).lanes i).greenDuration =
      greenTime (c.lanes i).vehicleCount := by
  rw [transitionState_green_lanes]
  fin_cases i <;> split <;> simp [Function.update, greenLane]

theorem transitionState_yellow_pins (c : Controller) (i : Fin 2) (now : Nat) (p : Int)
    (hr : p ≠ (c.lanes i).redPin) (hy : p ≠ (c.lanes i).yellowPin)
    (hg : p ≠ (c.lanes i).greenPin) :
    (transitionState c (some i) .YELLOW now).pins p = c.pins p := by
  simp [transitionState, setLane, digitalWrite, serialPrint, hr, hy, hg]

theorem transitionState_yellow_lamp (c : Controller) (i : Fin 2) (now : Nat) :
    (transitionState c (some i) .YELLOW now).pins (c.lanes i).yellowPin = HIGH := by
  simp [transitionState, setLane, digitalWrite, serialPrint]

/-! ## Index arithmetic -/

theorem laneAt_eq_some {k : Int} {i : Fin 2} (h : laneAt k = some i) : k = (i.val : Int) := by
  unfold laneAt at h
  split at h
  · cases h; simp_all
  · split at h
    · cases h; simp_all
    · exact absurd h (by simp)

theorem laneAt_one_sub {k : Int} {i : Fin 2} (h : laneAt k = some i) :
    laneAt (1 - k) = some (otherLane i) := by
  have hk := laneAt_eq_some h
  subst hk
  fin_cases i <;> simp [laneAt, otherLane]

/-! ## The three cases of `updateSignals` -/

theorem updateSignals_of_green {c : Controller} {cur : Fin 2} (now : Nat)
    (hcur : laneAt c.currentLaneIndex = some cur)
    (hgreen : (c.lanes cur).currentState = .GREEN) :
    updateSignals c now =
      some (if subULong now (c.lanes cur).startTime ≥ (c.lanes cur).greenDuration then
        transitionState c (some cur) .YELLOW now else c) := by
  by_cases h : subULong now (c.lanes cur).startTime ≥ (c.lanes cur).greenDuration <;>
    simp [updateSignals, hcur, hgreen, h]

theorem updateSignals_of_yellow {c : Controller} {cur : Fin 2} (now : Nat)
    (hcur : laneAt c.currentLaneIndex = some cur)
    (hyellow : (c.lanes cur).currentState = .YELLOW) :
    updateSignals c now =
      some (if subULong now (c.lanes cur).startTime ≥ 2000 then
        transitionState
          { transitionState c (some cur) .RED now with
            currentLaneIndex := 1 - c.currentLaneIndex }
          (some (otherLane cur)) .GREEN now
        else c) := by
  have hnext : laneAt (1 - c.currentLaneIndex) = some (otherLane cur) := laneAt_one_sub hcur
  by_cases h : subULong now (c.lanes cur).startTime ≥ 2000 <;>
    simp [updateSignals, hcur, hyellow, h, YELLOW_TIME, transitionState_index, hnext]

theorem updateSignals_of_red {c : Controller} {cur : Fin 2} (now : Nat)
    (hcur : laneAt c.currentLaneIndex = some cur)
    (hred : (c.lanes cur).currentState = .RED) :
    updateSignals c now = some c := by
  simp [updateSignals, hcur, hred]

/-! ## The steps of `loop` after the state machine leave the signals alone -/

theorem sameSignals_refl (c : Controller) : SameSignals c c :=
  ⟨fun _ => ⟨rfl, rfl, rfl, rfl⟩, rfl⟩

theorem sameSignals_trans {c d e : Controller} (h1 : SameSignals c d) (h2 : SameSignals d e) :
    SameSignals c e := by
  refine ⟨fun i => ?_, h2.2.trans h1.2⟩
  obtain ⟨a1, a2, a3, a4⟩ := h1.1 i
  obtain ⟨b1, b2, b3, b4⟩ := h2.1 i
  exact ⟨b1.trans a1, b2.trans a2, b3.trans a3, b4.trans a4⟩

theorem serialPrint_sameSignals (c : Controller) (items : List SerialItem) :
    SameSignals c (serialPrint c items) :=
  ⟨fun _ => ⟨rfl, rfl, rfl, rfl⟩, rfl⟩

theorem checkButton_sameSignals {fuel : Nat} {btn : Nat → Bool} {i : Fin 2} {c d : Controller}
    (h : checkButton fuel btn i c = some d) : SameSignals c d := by
  unfold checkButton at h
  split at h
  · split at h
    · exact absurd h (by simp)
    · cases h
      refine ⟨fun j => ?_, rfl⟩
      by_cases hj : j = i
      · subst hj; simp [setLane]
      · simp [setLane, Function.update, hj]
  · cases h
    exact sameSignals_refl c

theorem checkTrafficSensors_sameSignals {fuel : Nat} {btnA btnB : Nat → Bool}
    {c d : Controller} (h : checkTrafficSensors fuel btnA btnB c = some d) :
    SameSignals c d := by
  unfold checkTrafficSensors at h
  split at h
  · exact absurd h (by simp)
  · next m hm => exact sameSignals_trans (checkButton_sameSignals hm) (checkButton_sameSignals h)

theorem logLane_sameSignals (c : Controller) (i : Fin 2) (now : Nat) :
    SameSignals c (logLane c i now) := by
  refine ⟨fun j => ?_, ?_⟩
  · unfold logLane
    by_cases hr : (c.lanes i).currentState = .RED
    · by_cases hj : j = i
      · subst hj; simp [hr, setLane, serialPrint]
      · simp [hr, setLane, serialPrint, Function.update, hj]
    · simp [hr, serialPrint]
  · unfold logLane
    by_cases hr : (c.lanes i).currentState = .RED <;> simp [hr, setLane, serialPrint]

theorem logData_sameSignals (c : Controller) (now : Nat) : SameSignals c (logData c now) := by
  unfold logData
  exact sameSignals_trans (sameSignals_trans (sameSignals_trans (sameSignals_trans
    (serialPrint_sameSignals c _) (serialPrint_sameSignals _ _))
    (logLane_sameSignals _ 0 now)) (logLane_sameSignals _ 1 now))
    (serialPrint_sameSignals _ _)

theorem checkSerialInterface_sameSignals (c : Controller) (command : Option Char) :
    SameSignals c (checkSerialInterface c command) := by
  unfold checkSerialInterface
  cases command with
  | none => exact sameSignals_refl c
  | some ch =>
    by_cases hs : ch = 's' <;> simp [hs, serialPrint] <;> exact sameSignals_refl _

/-- One pass of `loop` is a step of the state machine followed by steps that
leave the signal fields alone. -/
theorem loop_sameSignals {fuel : Nat} {inp : TickInput} {c d : Controller}
    (h : loop fuel inp c = some d) :
    ∃ m, updateSignals c inp.now = some m ∧ SameSignals m d := by
  unfold loop at h
  split at h
  · exact absurd h (by simp)
  · next m hm =>
    split at h
    · exact absurd h (by simp)
    · next s hs =>
      cases h
      refine ⟨m, hm, sameSignals_trans (checkTrafficSensors_sameSignals hs) ?_⟩
      refine sameSignals_trans ?_ (checkSerialInterface_sameSignals _ _)
      split
      · exact sameSignals_trans (logData_sameSignals s inp.nowLog)
          ⟨fun _ => ⟨rfl, rfl, rfl, rfl⟩, rfl⟩
      · exact sameSignals_refl s

theorem laneIds_of_sameSignals {c d : Controller} (h : SameSignals c d) (hid : LaneIds c) :
    LaneIds d :=
  ⟨(h.1 0).1.trans hid.1, (h.1 1).1.trans hid.2⟩

theorem mutualExclusion_of_sameSignals {c d : Controller} (h : SameSignals c d)
    (hm : MutualExclusion c) : MutualExclusion d := by
  have e0 := (h.1 0).2.1
  have e1 := (h.1 1).2.1
  unfold MutualExclusion Moving at *
  rw [e0, e1, h.2]
  exact hm

/-! ## Mutual exclusion -/

theorem setup_laneIds (now : Nat) : LaneIds (setup now) := by
  constructor <;> rfl

theorem setup_mutualExclusion (now : Nat) : MutualExclusion (setup now) :=
  Or.inl ⟨rfl, Or.inl rfl, rfl⟩

theorem updateSignals_laneIds {c d : Controller} {now : Nat} (h : updateSignals c now = some d)
    (hid : LaneIds c) : LaneIds d := by
  unfold updateSignals at h
  split at h
  · exact absurd h (by simp)
  · split at h
    · dsimp only at h
      split at h <;> cases h
      · exact ⟨by rw [transitionState_laneID]; exact hid.1,
          by rw [transitionState_laneID]; exact hid.2⟩
      · exact hid
    · dsimp only at h
      split at h
      · split at h
        · exact absurd h (by simp)
        · cases h
          exact ⟨by rw [transitionState_laneID]; simp only [transitionState_laneID]; exact hid.1,
            by rw [transitionState_laneID]; simp only [transitionState_laneID]; exact hid.2⟩
      · cases h; exact hid
    · cases h; exact hid

theorem updateSignals_mutualExclusion {c d : Controller} {now : Nat}
    (h : updateSignals c now = some d) (hid : LaneIds c) (hm : MutualExclusion c) :
    MutualExclusion d := by
  obtain ⟨h0, h1⟩ := hid
  rcases hm with ⟨hi, hmv, hr⟩ | ⟨hi, hmv, hr⟩
  · have hcur : laneAt c.currentLaneIndex = some 0 := by simp [hi, laneAt]
    rcases hmv with hg | hy
    · rw [updateSignals_of_green now hcur hg] at h
      cases h
      split
      · left
        refine ⟨by rw [transitionState_index]; exact hi, Or.inr ?_, ?_⟩ <;>
          simp [transitionState_yellow_lanes, Function.update, hr]
      · left; exact ⟨hi, Or.inl hg, hr⟩
    · rw [updateSignals_of_yellow now hcur hy] at h
      cases h
      split
      · right
        refine ⟨by simp [transitionState_index, hi], Or.inl ?_, ?_⟩ <;>
          simp [transitionState_green_lanes, transitionState_red_lanes, Function.update, greenLane,
            otherLane, h0, h1]
      · left; exact ⟨hi, Or.inr hy, hr⟩
  · have hcur : laneAt c.currentLaneIndex = some 1 := by simp [hi, laneAt]
    rcases hmv with hg | hy
    · rw [updateSignals_of_green now hcur hg] at h
      cases h
      split
      · right
        refine ⟨by rw [transitionState_index]; exact hi, Or.inr ?_, ?_⟩ <;>
          simp [transitionState_yellow_lanes, Function.update, hr]
      · right; exact ⟨hi, Or.inl hg, hr⟩
    · rw [updateSignals_of_yellow now hcur hy] at h
      cases h
      split
      · left
        refine ⟨by simp [transitionState_index, hi], Or.inl ?_, ?_⟩ <;>
          simp [transitionState_green_lanes, transitionState_red_lanes, Function.update, greenLane,
            otherLane, h0, h1]
      · right; exact ⟨hi, Or.inr hy, hr⟩

/-- The lane ids and mutual exclusion hold in every reachable state. -/
theorem reachable_invariant {c : Controller} (h : Reachable c) :
    LaneIds c ∧ MutualExclusion c := by
  induction h with
  | setup now => exact ⟨setup_laneIds now, setup_mutualExclusion now⟩
  | tick fuel inp _ hstep ih =>
    obtain ⟨m, hm, hs⟩ := loop_sameSignals hstep
    exact ⟨laneIds_of_sameSignals hs (updateSignals_laneIds hm ih.1),
      mutualExclusion_of_sameSignals hs (updateSignals_mutualExclusion hm ih.1 ih.2)⟩

/-! ## The first phase after `setup` -/

theorem setup_firstPhase (T0 : Nat) : FirstPhase T0 T0 (setup (millis T0)) :=
  ⟨rfl, Or.inl ⟨rfl, rfl, rfl⟩⟩

theorem firstPhase_of_sameSignals {T0 T : Nat} {c d : Controller} (h : SameSignals c d)
    (hp : FirstPhase T0 T c) : FirstPhase T0 T d := by
  obtain ⟨_, e2, e3, e4⟩ := h.1 0
  unfold FirstPhase at *
  rw [e2, e3, e4, h.2]
  exact hp

theorem updateSignals_firstPhase {T0 T T1 : Nat} {c d : Controller}
    (hp : FirstPhase T0 T c) (h0 : T0 ≤ T) (hT : T ≤ T1) (hlt : T1 < T0 + 4000 + 2000)
    (h : updateSignals c (millis T1) = some d) : FirstPhase T0 T1 d := by
  obtain ⟨hi, hs⟩ := hp
  have hcur : laneAt c.currentLaneIndex = some 0 := by simp [hi, laneAt]
  rcases hs with ⟨hg, hst, hdur⟩ | ⟨hy, Ti, hTi, hTi2, hst⟩
  · rw [updateSignals_of_green _ hcur hg] at h
    cases h
    rw [hst, hdur, subULong_millis T0 T1 (by omega) (by omega)]
    split
    · refine ⟨by rw [transitionState_index]; exact hi, Or.inr ⟨?_, T1, by omega, le_rfl, ?_⟩⟩ <;>
        simp [transitionState_yellow_lanes]
    · exact ⟨hi, Or.inl ⟨hg, hst, hdur⟩⟩
  · rw [updateSignals_of_yellow _ hcur hy] at h
    cases h
    rw [hst, subULong_millis Ti T1 (by omega) (by omega)]
    rw [if_neg (by omega)]
    exact ⟨hi, Or.inr ⟨hy, Ti, hTi, by omega, hst⟩⟩

theorem run_firstPhase {T0 : Nat} (fuel : Nat) (inps : List TickInput) :
    ∀ (T : Nat) (c d : Controller), FirstPhase T0 T c → T0 ≤ T →
      ClockBetween T (T0 + 4000 + 2000) inps → run fuel inps c = some d →
      d.currentLaneIndex = 0 := by
  induction inps with
  | nil =>
    intro T c d hp _ _ h
    simp only [run, Option.some.injEq] at h
    subst h
    exact hp.1
  | cons inp rest ih =>
    intro T c d hp h0 hclock h
    obtain ⟨T1, hT, hlt, hnow, hrest⟩ := hclock
    simp only [run] at h
    split at h
    · exact absurd h (by simp)
    · next e he =>
      obtain ⟨m, hm, hs⟩ := loop_sameSignals he
      rw [hnow] at hm
      exact ih T1 e d (firstPhase_of_sameSignals hs (updateSignals_firstPhase hp h0 hT hlt hm))
        (by omega) hrest h

/-! ## Runs -/

theorem reachable_run {fuel : Nat} (inps : List TickInput) :
    ∀ {c d : Controller}, Reachable c → run fuel inps c = some d → Reachable d := by
  induction inps with
  | nil =>
    intro c d hc h
    simp only [run, Option.some.injEq] at h
    exact h ▸ hc
  | cons inp rest ih =>
    intro c d hc h
    simp only [run] at h
    split at h
    · exact absurd h (by simp)
    · next e he => exact ih (Reachable.tick fuel inp hc he) h

theorem run_append (fuel : Nat) (xs ys : List TickInput) :
    ∀ c : Controller, run fuel (xs ++ ys) c = (run fuel xs c).bind (run fuel ys) := by
  induction xs with
  | nil => intro c; rfl
  | cons inp rest ih =>
    intro c
    simp only [List.cons_append, run]
    cases loop fuel inp c with
    | none => rfl
    | some d => exact ih d

theorem updateSignals_nextLogTime {c d : Controller} {now : Nat}
    (h : updateSignals c now = some d) : d.nextLogTime = c.nextLogTime := by
  unfold updateSignals at h
  split at h
  · exact absurd h (by simp)
  · split at h
    · dsimp only at h
      split at h <;> cases h
      · exact transitionState_nextLogTime _ _ _ _
      · rfl
    · dsimp only at h
      split at h
      · split at h
        · exact absurd h (by simp)
        · cases h
          rw [transitionState_nextLogTime]
          exact transitionState_nextLogTime _ _ _ _
      · cases h; rfl
    · cases h; rfl

/-- A pass without button presses or commands before the next log time is a
step of the state machine. -/
theorem loop_quiet (fuel : Nat) (now : Nat) (c : Controller) (hlog : now < c.nextLogTime) :
    loop fuel (quiet now) c = updateSignals c now := by
  unfold loop
  cases h : updateSignals c now with
  | none => simp only [quiet, h]
  | some m =>
    have hn := updateSignals_nextLogTime h
    have hs : checkTrafficSensors fuel (fun _ => HIGH) (fun _ => HIGH) m = some m := by
      simp [checkTrafficSensors, checkButton, HIGH, LOW]
    simp only [quiet, h, hs, hn, ge_iff_le, Nat.not_le.mpr hlog, if_false, checkSerialInterface]

/-- A pass in which button B is pressed once, while the state machine makes no
transition and no log is due, adds one to the count of lane 1 and does nothing
else. -/
theorem loop_pressB (now : Nat) (c : Controller) (n : Int)
    (hstay : updateSignals c now = some c) (hlog : now < c.nextLogTime)
    (hcount : (c.lanes 1).vehicleCount = n) (h0 : -2147483648 ≤ n + 1)
    (h1 : n + 1 < 2147483648) :
    loop 2 (pressB now) c = some (withCountB c (n + 1)) := by
  unfold loop
  have hs : checkTrafficSensors 2 (fun _ => HIGH) (fun k => if k = 0 then LOW else HIGH) c =
      some (withCountB c (n + 1)) := by
    simp [checkTrafficSensors, checkButton, waitRelease, HIGH, LOW, withCountB, hcount,
      wrapLong_of_range (n + 1) h0 h1]
  have hn : (withCountB c (n + 1)).nextLogTime = c.nextLogTime := rfl
  simp only [pressB, hstay, hs, hn, ge_iff_le, Nat.not_le.mpr hlog, if_false,
    checkSerialInterface]

theorem withCountB_withCountB (c : Controller) (m n : Int) :
    withCountB (withCountB c m) n = withCountB c n := by
  simp [withCountB, setLane]

theorem withCountB_self (c : Controller) : withCountB c (c.lanes 1).vehicleCount = c := by
  simp [withCountB, setLane]

/-- While lane 0 stays green and no log is due, `k` passes in each of which
button B is pressed once add `k` to the count of lane 1. -/
theorem run_pressB_replicate (now : Nat) (c : Controller)
    (hcur : laneAt c.currentLaneIndex = some 0)
    (hgreen : (c.lanes 0).currentState = .GREEN)
    (hnot : ¬ subULong now (c.lanes 0).startTime ≥ (c.lanes 0).greenDuration)
    (hlog : now < c.nextLogTime) (rest : List TickInput) :
    ∀ (k n : Nat), n + k ≤ 2147483647 →
      run 2 (List.replicate k (pressB now) ++ rest) (withCountB c (n : Int)) =
        run 2 rest (withCountB c ((n + k : Nat) : Int)) := by
  intro k
  induction k with
  | zero => intro n _; rfl
  | succ k ih =>
    intro n hn
    have hcur1 : laneAt (withCountB c (n : Int)).currentLaneIndex = some 0 := hcur
    have hgreen1 : ((withCountB c (n : Int)).lanes 0).currentState = .GREEN := by
      simpa [withCountB, setLane, Function.update] using hgreen
    have hst : ((withCountB c (n : Int)).lanes 0).startTime = (c.lanes 0).startTime := by
      simp [withCountB, setLane, Function.update]
    have hdu : ((withCountB c (n : Int)).lanes 0).greenDuration = (c.lanes 0).greenDuration := by
      simp [withCountB, setLane, Function.update]
    have hstay : updateSignals (withCountB c (n : Int)) now = some (withCountB c (n : Int)) := by
      rw [updateSignals_of_green now hcur1 hgreen1, hst, hdu, if_neg hnot]
    have hcount : ((withCountB c (n : Int)).lanes 1).vehicleCount = (n : Int) := by
      simp [withCountB, setLane]
    have hstep := loop_pressB now (withCountB c (n : Int)) (n : Int) hstay hlog hcount
      (by omega) (by omega)
    rw [withCountB_withCountB] at hstep
    simp only [List.replicate_succ, List.cons_append, run, hstep]
    have := ih (n + 1) (by omega)
    rw [show ((n + 1 : Nat) : Int) = (n : Int) + 1 by push_cast; rfl,
      show n + 1 + k = n + (k + 1) by omega] at this
    exact this

theorem run_singleton (fuel : Nat) (inp : TickInput) (c : Controller) :
    run fuel [inp] c = loop fuel inp c := by
  simp only [run]
  cases loop fuel inp c <;> rfl

theorem eq_some_getD {o : Option Controller} (h : o.isSome = true) (x : Controller) :
    o = some (o.getD x) := by
  cases o with
  | none => exact absurd h (by simp)
  | some v => rfl

/-! ## Counts -/

theorem checkButton_vehicleCount {fuel : Nat} {btn : Nat → Bool} {i : Fin 2} {c d : Controller}
    (h : checkButton fuel btn i c = some d) (j : Fin 2) :
    (d.lanes j).vehicleCount =
      if j = i ∧ btn 0 = LOW then wrapLong ((c.lanes j).vehicleCount + 1)
      else (c.lanes j).vehicleCount := by
  unfold checkButton at h
  split at h
  · next hb =>
    split at h
    · exact absurd h (by simp)
    · cases h
      by_cases hj : j = i
      · subst hj; simp [setLane, hb]
      · simp [setLane, Function.update, hj]
  · next hb =>
    cases h
    simp [hb]

theorem checkTrafficSensors_vehicleCount {fuel : Nat} {btnA btnB : Nat → Bool}
    {c d : Controller} (h : checkTrafficSensors fuel btnA btnB c = some d) (j : Fin 2) :
    (d.lanes j).vehicleCount =
      if (if j = 0 then btnA 0 else btnB 0) = LOW then wrapLong ((c.lanes j).vehicleCount + 1)
      else (c.lanes j).vehicleCount := by
  unfold checkTrafficSensors at h
  split at h
  · exact absurd h (by simp)
  · next m hm =>
    rw [checkButton_vehicleCount h j, checkButton_vehicleCount hm j]
    fin_cases j <;> simp

theorem logLane_vehicleCount (c : Controller) (i : Fin 2) (now : Nat) (j : Fin 2) :
    ((logLane c i now).lanes j).vehicleCount = (c.lanes j).vehicleCount := by
  unfold logLane
  by_cases hr : (c.lanes i).currentState = .RED
  · by_cases hj : j = i
    · subst hj; simp [hr, setLane, serialPrint]
    · simp [hr, setLane, serialPrint, Function.update, hj]
  · simp [hr, serialPrint]

theorem logData_vehicleCount (c : Controller) (now : Nat) (j : Fin 2) :
    ((logData c now).lanes j).vehicleCount = (c.lanes j).vehicleCount := by
  simp only [logData, serialPrint, logLane_vehicleCount]

theorem checkSerialInterface_lanes (c : Controller) (command : Option Char) :
    (checkSerialInterface c command).lanes = c.lanes := by
  unfold checkSerialInterface
  cases command with
  | none => rfl
  | some ch => by_cases hs : ch = 's' <;> simp [hs, serialPrint]

/-- One pass of `loop`, seen from the counts: after the step of the state
machine, the count of lane `j` goes up by one if its button reads `LOW` at the
first read, and is not touched otherwise. -/
theorem loop_vehicleCount {fuel : Nat} {inp : TickInput} {c d : Controller}
    (h : loop fuel inp c = some d) :
    ∃ m, updateSignals c inp.now = some m ∧ SameSignals m d ∧
      ∀ j, (d.lanes j).vehicleCount =
        if pressed j inp = true then wrapLong ((m.lanes j).vehicleCount + 1)
        else (m.lanes j).vehicleCount := by
  obtain ⟨m, hm, hs⟩ := loop_sameSignals h
  refine ⟨m, hm, hs, fun j => ?_⟩
  unfold loop at h
  rw [hm] at h
  dsimp only at h
  split at h
  · exact absurd h (by simp)
  · next s hsens =>
    cases h
    rw [checkSerialInterface_lanes]
    have hc := checkTrafficSensors_vehicleCount hsens j
    have hl : ((if inp.nowGate ≥ s.nextLogTime then
          { logData s inp.nowLog with
            nextLogTime := addULong inp.nowDeadline LOGGING_INTERVAL }
        else s).lanes j).vehicleCount = (s.lanes j).vehicleCount := by
      split
      · exact logData_vehicleCount s inp.nowLog j
      · rfl
    rw [hl, hc]
    simp [pressed]

theorem otherLane_ne (i : Fin 2) : otherLane i ≠ i := by
  fin_cases i <;> simp [otherLane]

theorem eq_otherLane_of_ne {i j : Fin 2} (h : j ≠ i) : j = otherLane i := by
  fin_cases i <;> fin_cases j <;> simp_all [otherLane]

/-- The state `updateSignals` builds when the yellow phase of lane `cur` is
over: `cur` to red, the index flipped, the other lane to green. -/
theorem handover_lanes (c : Controller) (cur : Fin 2) (now : Nat)
    (hid : (c.lanes 0).laneID ≠ (c.lanes 1).laneID) :
    ((transitionState { transitionState c (some cur) .RED now with
        currentLaneIndex := 1 - c.currentLaneIndex } (some (otherLane cur)) .GREEN now).lanes
        cur = { c.lanes cur with currentState := .RED, startTime := now, vehicleCount := 0 }) ∧
    ((transitionState { transitionState c (some cur) .RED now with
        currentLaneIndex := 1 - c.currentLaneIndex } (some (otherLane cur)) .GREEN now).lanes
        (otherLane cur) = greenLane (c.lanes (otherLane cur)) now) := by
  constructor <;>
  · fin_cases cur <;>
      simp [transitionState_green_lanes, transitionState_red_lanes, Function.update, greenLane,
        otherLane, hid, Ne.symm hid]

/-- A step of the state machine that leaves a red lane red does not touch its
count. -/
theorem updateSignals_red_stays {c m : Controller} {L : Fin 2} {now : Nat}
    (hid : LaneIds c) (hred : (c.lanes L).currentState = .RED)
    (h : updateSignals c now = some m) (hred2 : (m.lanes L).currentState = .RED) :
    (m.lanes L).vehicleCount = (c.lanes L).vehicleCount := by
  have hne : (c.lanes 0).laneID ≠ (c.lanes 1).laneID := by rw [hid.1, hid.2]; decide
  cases hcur : laneAt c.currentLaneIndex with
  | none => simp [updateSignals, hcur] at h
  | some cur =>
    by_cases hL : cur = L
    · subst hL
      rw [updateSignals_of_red now hcur hred] at h
      cases h; rfl
    · have hLo : L = otherLane cur := eq_otherLane_of_ne (Ne.symm hL)
      cases hst : (c.lanes cur).currentState with
      | GREEN =>
        rw [updateSignals_of_green now hcur hst] at h
        cases h
        split
        · exact transitionState_vehicleCount_other c cur L .YELLOW now (Ne.symm hL)
        · rfl
      | YELLOW =>
        rw [updateSignals_of_yellow now hcur hst] at h
        cases h
        split
        · next hto =>
          rw [if_pos hto, hLo, (handover_lanes c cur now hne).2] at hred2
          simp [greenLane] at hred2
        · rfl
      | RED =>
        rw [updateSignals_of_red now hcur hst] at h
        cases h; rfl

/-- When a step of the state machine takes a red lane to green, the green
duration it stores is computed from the count the lane holds before the step. -/
theorem updateSignals_enters_green {e d : Controller} {L : Fin 2} {now : Nat}
    (hid : LaneIds e) (hred : (e.lanes L).currentState = .RED)
    (h : updateSignals e now = some d) (hgreen : (d.lanes L).currentState = .GREEN) :
    (d.lanes L).greenDuration = greenTime (e.lanes L).vehicleCount := by
  have hne : (e.lanes 0).laneID ≠ (e.lanes 1).laneID := by rw [hid.1, hid.2]; decide
  cases hcur : laneAt e.currentLaneIndex with
  | none => simp [updateSignals, hcur] at h
  | some cur =>
    by_cases hL : cur = L
    · subst hL
      rw [updateSignals_of_red now hcur hred] at h
      cases h
      rw [hred] at hgreen
      exact absurd hgreen (by decide)
    · have hLo : L = otherLane cur := eq_otherLane_of_ne (Ne.symm hL)
      cases hst : (e.lanes cur).currentState with
      | GREEN =>
        rw [updateSignals_of_green now hcur hst] at h
        cases h
        split at hgreen
        · rw [transitionState_yellow_lanes] at hgreen
          simp [Function.update, Ne.symm hL, hred] at hgreen
        · rw [hred] at hgreen
          exact absurd hgreen (by decide)
      | YELLOW =>
        rw [updateSignals_of_yellow now hcur hst] at h
        cases h
        split at hgreen
        · next hto =>
          rw [if_pos hto, hLo, (handover_lanes e cur now hne).2]
          rfl
        · rw [hred] at hgreen
          exact absurd hgreen (by decide)
      | RED =>
        rw [updateSignals_of_red now hcur hst] at h
        cases h
        rw [hred] at hgreen
        exact absurd hgreen (by decide)

theorem arrivals_cons (L : Fin 2) (inp : TickInput) (rest : List TickInput) :
    arrivals L (inp :: rest) = (if pressed L inp = true then 1 else 0) + arrivals L rest := by
  simp only [arrivals, List.countP_cons]
  omega

/-- While lane `L` stays red, its count goes up by the number of arrivals the
detector records on it. -/
theorem runWhileRed_count (fuel : Nat) (L : Fin 2) (inps : List TickInput) :
    ∀ (c e : Controller) (n : Nat), LaneIds c → (c.lanes L).currentState = .RED →
      (c.lanes L).vehicleCount = (n : Int) → n + arrivals L inps ≤ 2147483647 →
      runWhileRed fuel L inps c = some e →
      LaneIds e ∧ (e.lanes L).currentState = .RED ∧
        (e.lanes L).vehicleCount = ((n + arrivals L inps : Nat) : Int) := by
  induction inps with
  | nil =>
    intro c e n hid hred hn _ h
    simp only [runWhileRed, Option.some.injEq] at h
    subst h
    exact ⟨hid, hred, by simpa [arrivals] using hn⟩
  | cons inp rest ih =>
    intro c e n hid hred hn hle h
    simp only [runWhileRed] at h
    split at h
    · exact absurd h (by simp)
    · next s hs =>
      split at h
      · next hreds =>
        obtain ⟨m, hm, hsame, hcnt⟩ := loop_vehicleCount hs
        have hredm : (m.lanes L).currentState = .RED := by rw [← (hsame.1 L).2.1]; exact hreds
        have hcm := updateSignals_red_stays hid hred hm hredm
        have hids : LaneIds s := laneIds_of_sameSignals hsame (updateSignals_laneIds hm hid)
        rw [arrivals_cons] at hle ⊢
        have hmn : (m.lanes L).vehicleCount = (n : Int) := hcm.trans hn
        have hcs : (s.lanes L).vehicleCount =
            ((n + (if pressed L inp = true then 1 else 0) : Nat) : Int) := by
          rw [hcnt L, hmn]
          by_cases hp : pressed L inp = true
          · simp only [hp, if_true] at hle ⊢
            rw [wrapLong_of_range _ (by omega) (by omega)]
            push_cast
            rfl
          · simp only [hp, if_false]
            simp
        have := ih s e _ hids hreds hcs (by omega) h
        rw [Nat.add_assoc] at this
        exact this
      · exact absurd h (by simp)

/-- Demand accounting.  Let lane `L` be the current lane, in YELLOW, and let the
pass `t0` of `loop` be the one that ends its yellow phase; let the passes
`t0 :: mid` complete with lane `L` red after each of them, and let the next
step of the state machine take lane `L` to GREEN.  Then the green duration
stored at that entry is the one `dynamicTiming` computes from the number `k` of
arrivals the detector recorded on lane `L` during `t0 :: mid`, and it is
`min(4000 + 500 * k, 15000)` when `k ≤ 8589926`. -/
theorem demand_accounting (fuel : Nat) (c e d : Controller) (L : Fin 2) (t0 : TickInput)
    (mid : List TickInput) (now : Nat)
    (hid : LaneIds c) (hcur : laneAt c.currentLaneIndex = some L)
    (hyellow : (c.lanes L).currentState = .YELLOW)
    (hover : subULong t0.now (c.lanes L).startTime ≥ 2000)
    (hrun : runWhileRed fuel L (t0 :: mid) c = some e)
    (hgo : updateSignals e now = some d) (hgreen : (d.lanes L).currentState = .GREEN)
    (hk : arrivals L (t0 :: mid) ≤ 2147483647) :
    (d.lanes L).greenDuration = greenTime (arrivals L (t0 :: mid) : Nat) ∧
    (arrivals L (t0 :: mid) ≤ 8589926 →
      (d.lanes L).greenDuration = min (4000 + 500 * arrivals L (t0 :: mid)) 15000) := by
  have hne : (c.lanes 0).laneID ≠ (c.lanes 1).laneID := by rw [hid.1, hid.2]; decide
  have key : (d.lanes L).greenDuration = greenTime (arrivals L (t0 :: mid) : Nat) := by
    simp only [runWhileRed] at hrun
    split at hrun
    · exact absurd hrun (by simp)
    · next s hs =>
      split at hrun
      · next hreds =>
        obtain ⟨m, hm, hsame, hcnt⟩ := loop_vehicleCount hs
        have hids : LaneIds s := laneIds_of_sameSignals hsame (updateSignals_laneIds hm hid)
        rw [updateSignals_of_yellow t0.now hcur hyellow, if_pos hover] at hm
        cases hm
        rw [arrivals_cons] at hk ⊢
        have hcs : (s.lanes L).vehicleCount =
            (((if pressed L t0 = true then 1 else 0) : Nat) : Int) := by
          rw [hcnt L, (handover_lanes c L t0.now hne).1]
          split <;> simp [wrapLong]
        obtain ⟨hide, hrede, hce⟩ := runWhileRed_count fuel L mid s e _ hids hreds hcs hk hrun
        rw [updateSignals_enters_green hide hrede hgo hgreen, hce]
      · exact absurd hrun (by simp)
  exact ⟨key, fun hle => by rw [key, greenTime_of_le _ hle]⟩

/-! ## The cap in reachable states, and scenario D -/

theorem transitionState_greenDuration_le (c : Controller) (l : Option (Fin 2))
    (s : SignalState) (now : Nat) (h : ∀ j, (c.lanes j).greenDuration ≤ MAX_GREEN_TIME) :
    ∀ j, ((transitionState c l s now).lanes j).greenDuration ≤ MAX_GREEN_TIME := by
  intro j
  cases l with
  | none => exact h j
  | some i =>
    have hg := greenTime_le_max (c.lanes i).vehicleCount
    have h0 := h 0
    have h1 := h 1
    cases s
    · rw [transitionState_green_lanes]
      fin_cases i <;> fin_cases j <;> split <;> simp [Function.update, greenLane] <;> assumption
    · rw [transitionState_yellow_lanes]
      fin_cases i <;> fin_cases j <;> simp [Function.update] <;> assumption
    · rw [transitionState_red_lanes]
      fin_cases i <;> fin_cases j <;> simp [Function.update] <;> assumption

theorem updateSignals_greenDuration_le {c d : Controller} {now : Nat}
    (h : updateSignals c now = some d) (hc : ∀ j, (c.lanes j).greenDuration ≤ MAX_GREEN_TIME) :
    ∀ j, (d.lanes j).greenDuration ≤ MAX_GREEN_TIME := by
  cases hcur : laneAt c.currentLaneIndex with
  | none => simp [updateSignals, hcur] at h
  | some cur =>
    cases hst : (c.lanes cur).currentState with
    | GREEN =>
      rw [updateSignals_of_green now hcur hst] at h
      cases h
      split
      · exact transitionState_greenDuration_le _ _ _ _ hc
      · exact hc
    | YELLOW =>
      rw [updateSignals_of_yellow now hcur hst] at h
      cases h
      split
      · exact transitionState_greenDuration_le _ _ _ _
          (fun j => transitionState_greenDuration_le c (some cur) .RED now hc j)
      · exact hc
    | RED =>
      rw [updateSignals_of_red now hcur hst] at h
      cases h
      exact hc

/-- The cap holds in every reachable state: no lane has a green duration above
`MAX_GREEN_TIME`. -/
theorem green_duration_le_max_reachable {c : Controller} (h : Reachable c) :
    ∀ j, (c.lanes j).greenDuration ≤ MAX_GREEN_TIME := by
  induction h with
  | setup now =>
    intro j
    have h0 : ((setup now).lanes 0).greenDuration = 4000 := rfl
    have h1 : ((setup now).lanes 1).greenDuration = 4000 := rfl
    fin_cases j
    · exact h0 ▸ (by decide)
    · exact h1 ▸ (by decide)
  | tick fuel inp _ hstep ih =>
    obtain ⟨m, hm, hs⟩ := loop_sameSignals hstep
    intro j
    rw [(hs.1 j).2.2.1]
    exact updateSignals_greenDuration_le hm ih j

/-- Scenario D, obtained from `demand_accounting`: two arrivals recorded on
lane 1 between the pass in which it enters RED at the end of its own yellow
phase and the step in which it next enters GREEN give a green duration of
5000. -/
theorem demand_accounting_two_arrivals :
    runWhileRed 2 1 twoArrivals inCautionB = some afterTwoArrivals ∧
    arrivals 1 twoArrivals = 2 ∧
    updateSignals afterTwoArrivals 18000 = some greenAfterTwoArrivals ∧
    (greenAfterTwoArrivals.lanes 1).currentState = .GREEN ∧
    (greenAfterTwoArrivals.lanes 1).greenDuration = 5000 := by
  have hrun : runWhileRed 2 1 twoArrivals inCautionB = some afterTwoArrivals :=
    eq_some_getD (by decide) powerOn
  have hgo : updateSignals afterTwoArrivals 18000 = some greenAfterTwoArrivals :=
    eq_some_getD (by decide) powerOn
  have hk : arrivals 1 twoArrivals = 2 := by decide
  have h := (demand_accounting 2 inCautionB afterTwoArrivals greenAfterTwoArrivals 1
    (quiet 12000) [pressB 12000, quiet 13000, pressB 14000, quiet 16000] 18000
    ⟨by decide, by decide⟩ (by decide) (by decide) (by decide) hrun hgo (by decide)
    (by decide)).2 (by decide)
  exact ⟨hrun, hk, hgo, by decide, by rw [h]; decide⟩

/-! ## Claims C1, C5, C6, C7, C8 -/

/-- Claim C1 (mutual exclusion).  In every controller state reachable from the
state `setup` produces through any sequence of passes of `loop`, for any clock
readings, button reads and command bytes, `currentLaneIndex` is 0 or 1, the
lane it designates is GREEN or YELLOW and the other lane is RED. -/
theorem mutual_exclusion_reachable (c : Controller) (h : Reachable c) : MutualExclusion c :=
  (reachable_invariant h).2

/-- Witness for `mutual_exclusion_reachable`: the state after `setup` and one
pass of `loop` at clock reading 4000. -/
theorem mutual_exclusion_reachable_witness :
    ∃ d, loop 1 (quiet 4000) (setup 0) = some d ∧ Reachable d ∧ MutualExclusion d := by
  obtain ⟨d, hd⟩ : ∃ d, loop 1 (quiet 4000) (setup 0) = some d :=
    Option.isSome_iff_exists.mp rfl
  have hr : Reachable d := Reachable.tick 1 (quiet 4000) (Reachable.setup 0) hd
  exact ⟨d, hd, hr, mutual_exclusion_reachable d hr⟩

/-- Claim C5 as stated fails.  `laneBGreenFive` is a reachable state in which
lane 0 is RED and lane 1 is GREEN with `vehicleCount = 5`; the call
`transitionState(&lanes[0], GREEN)` in that state forces lane 1 to RED, so
lane 1 is RED after the call and was not RED before it, and its `vehicleCount`
is still 5, not 0. -/
theorem reset_law_forced_lane_counterexample :
    Reachable laneBGreenFive ∧
    (laneBGreenFive.lanes 0).laneID = 0 ∧ (laneBGreenFive.lanes 1).laneID = 1 ∧
    (laneBGreenFive.lanes 1).currentState = .GREEN ∧
    ((transitionState laneBGreenFive (some 0) .GREEN 7000).lanes 1).currentState = .RED ∧
    ((transitionState laneBGreenFive (some 0) .GREEN 7000).lanes 1).vehicleCount = 5 := by
  have hrun : run 2 (List.replicate 5 (pressB 0) ++ [quiet 4000, quiet 6000]) (setup 0) =
      some laneBGreenFive := eq_some_getD (by decide) powerOn
  exact ⟨reachable_run _ (Reachable.setup 0) hrun, by decide, by decide, by decide, by decide,
    by decide⟩

/-- Claim C5, amended (reset law).  For every controller state in which the two
lanes carry different ids, every lane `i`, every new state and every clock
reading: if `lanes[i]` is RED after `transitionState(&lanes[i], newState)` then
its `vehicleCount` is 0; the `vehicleCount` of the other lane is not changed by
the call, so a lane forced to RED because `lanes[i]` enters GREEN keeps its
count; and a call with a null lane changes nothing. -/
theorem reset_law (c : Controller) (i : Fin 2) (s : SignalState) (now : Nat)
    (hid : (c.lanes 0).laneID ≠ (c.lanes 1).laneID) :
    (((transitionState c (some i) s now).lanes i).currentState = .RED →
      ((transitionState c (some i) s now).lanes i).vehicleCount = 0) ∧
    ((transitionState c (some i) s now).lanes (otherLane i)).vehicleCount =
      (c.lanes (otherLane i)).vehicleCount ∧
    transitionState c none s now = c := by
  refine ⟨?_, ?_, rfl⟩
  · cases s
    · rw [transitionState_green_lanes]
      fin_cases i <;> simp [Function.update, greenLane, hid, Ne.symm hid]
    · rw [transitionState_yellow_lanes]
      simp
    · rw [transitionState_red_lanes]
      simp
  · apply transitionState_vehicleCount_other
    fin_cases i <;> simp [otherLane]

/-- Witness for `reset_law`: lane 1 of the state after `setup`, sent to RED. -/
theorem reset_law_witness :
    ((setup 0).lanes 0).laneID ≠ ((setup 0).lanes 1).laneID ∧
    ((transitionState (setup 0) (some 1) .RED 7).lanes 1).currentState = .RED ∧
    ((transitionState (setup 0) (some 1) .RED 7).lanes 1).vehicleCount = 0 :=
  ⟨by decide, rfl, (reset_law (setup 0) 1 .RED 7 (by decide)).1 rfl⟩

/-- Claim C6 (cycle property).  After `setup` at time `T0` lane 0 is GREEN with
green duration `d = 4000`, lane 1 is RED and `currentLaneIndex = 0`.  A step of
the state machine at time `T0 + d` puts lane 0 in YELLOW, and a following step
at time `T0 + d + 2000` leaves `currentLaneIndex = 1`, lane 0 RED and lane 1
GREEN.  No sequence of passes of `loop` whose clock times start at `T0`, never
decrease and stay below `T0 + d + 2000` changes `currentLaneIndex`.  Clock
readings are the 32-bit values `millis T`. -/
theorem cycle_property (T0 : Nat) :
    (((setup (millis T0)).lanes 0).currentState = .GREEN ∧
      ((setup (millis T0)).lanes 0).greenDuration = 4000 ∧
      ((setup (millis T0)).lanes 1).currentState = .RED ∧
      (setup (millis T0)).currentLaneIndex = 0) ∧
    (∃ d1 d2, updateSignals (setup (millis T0)) (millis (T0 + 4000)) = some d1 ∧
      (d1.lanes 0).currentState = .YELLOW ∧ d1.currentLaneIndex = 0 ∧
      updateSignals d1 (millis (T0 + 4000 + 2000)) = some d2 ∧
      d2.currentLaneIndex = 1 ∧ (d2.lanes 0).currentState = .RED ∧
      (d2.lanes 1).currentState = .GREEN) ∧
    (∀ (fuel : Nat) (inps : List TickInput) (d : Controller),
      ClockBetween T0 (T0 + 4000 + 2000) inps →
      run fuel inps (setup (millis T0)) = some d → d.currentLaneIndex = 0) := by
  refine ⟨⟨rfl, rfl, rfl, rfl⟩, ?_, ?_⟩
  · have hcur : laneAt (setup (millis T0)).currentLaneIndex = some 0 := rfl
    have hg : ((setup (millis T0)).lanes 0).currentState = .GREEN := rfl
    have h1 := updateSignals_of_green (millis (T0 + 4000)) hcur hg
    have hs : ((setup (millis T0)).lanes 0).startTime = millis T0 := rfl
    have hd : ((setup (millis T0)).lanes 0).greenDuration = 4000 := rfl
    rw [hs, hd, subULong_millis T0 (T0 + 4000) (by omega) (by omega),
      if_pos (by omega)] at h1
    have hcur1 : laneAt (transitionState (setup (millis T0)) (some 0) .YELLOW
        (millis (T0 + 4000))).currentLaneIndex = some 0 := rfl
    have hy : ((transitionState (setup (millis T0)) (some 0) .YELLOW
        (millis (T0 + 4000))).lanes 0).currentState = .YELLOW := rfl
    have h2 := updateSignals_of_yellow (millis (T0 + 4000 + 2000)) hcur1 hy
    have hs1 : ((transitionState (setup (millis T0)) (some 0) .YELLOW
        (millis (T0 + 4000))).lanes 0).startTime = millis (T0 + 4000) := rfl
    rw [hs1, subULong_millis (T0 + 4000) (T0 + 4000 + 2000) (by omega) (by omega),
      if_pos (by omega)] at h2
    exact ⟨_, _, h1, rfl, rfl, h2, rfl, rfl, rfl⟩
  · intro fuel inps d hclock hrun
    exact run_firstPhase fuel inps T0 _ d (setup_firstPhase T0) le_rfl hclock hrun

/-- Witness for `cycle_property`: after `setup` at time 0, passes of `loop` at
times 4500 and 5999 leave `currentLaneIndex = 0`. -/
theorem cycle_property_witness :
    ClockBetween 0 (0 + 4000 + 2000) [quiet (millis 4500), quiet (millis 5999)] ∧
    ∃ d, run 1 [quiet (millis 4500), quiet (millis 5999)] (setup (millis 0)) = some d ∧
      d.currentLaneIndex = 0 := by
  have hclock : ClockBetween 0 (0 + 4000 + 2000) [quiet (millis 4500), quiet (millis 5999)] :=
    ⟨4500, by decide, by decide, rfl, 5999, by decide, by decide, rfl, trivial⟩
  obtain ⟨d, hd⟩ :
      ∃ d, run 1 [quiet (millis 4500), quiet (millis 5999)] (setup (millis 0)) = some d :=
    Option.isSome_iff_exists.mp rfl
  exact ⟨hclock, d, hd, (cycle_property 0).2.2 1 _ d hclock hd⟩

/-- Claim C7 (CAUTION rule).  In every state whose current lane `cur` is YELLOW
(the two lanes carrying different ids) and for every clock reading `now`,
`updateSignals` returns a state `d`, and it hands over iff
`now - startTime >= 2000` in `unsigned long` arithmetic.  When it hands over,
the old current lane is RED with `vehicleCount = 0`, `currentLaneIndex` is 1
minus its old value and designates the other lane, and that lane is GREEN with
`startTime = now` and the green duration `dynamicTiming` computes from the
`vehicleCount` it held before the call.  Otherwise the state is unchanged. -/
theorem updateSignals_caution_rule (c : Controller) (cur : Fin 2) (now : Nat)
    (hcur : laneAt c.currentLaneIndex = some cur)
    (hyellow : (c.lanes cur).currentState = .YELLOW)
    (hid : (c.lanes 0).laneID ≠ (c.lanes 1).laneID) :
    ∃ d, updateSignals c now = some d ∧
      (d.currentLaneIndex = 1 - c.currentLaneIndex ↔
        subULong now (c.lanes cur).startTime ≥ 2000) ∧
      (subULong now (c.lanes cur).startTime ≥ 2000 →
        (d.lanes cur).currentState = .RED ∧
        (d.lanes cur).vehicleCount = 0 ∧
        laneAt d.currentLaneIndex = some (otherLane cur) ∧
        (d.lanes (otherLane cur)).currentState = .GREEN ∧
        (d.lanes (otherLane cur)).startTime = now ∧
        (d.lanes (otherLane cur)).greenDuration =
          greenTime (c.lanes (otherLane cur)).vehicleCount) ∧
      (¬ subULong now (c.lanes cur).startTime ≥ 2000 → d = c) := by
  have hk := laneAt_eq_some hcur
  rw [updateSignals_of_yellow now hcur hyellow]
  by_cases h : subULong now (c.lanes cur).startTime ≥ 2000
  · rw [if_pos h]
    refine ⟨_, rfl, ?_, ?_, fun h2 => absurd h h2⟩
    · simp [transitionState_index, h]
    · intro _
      refine ⟨?_, ?_, by simp [transitionState_index, laneAt_one_sub hcur], ?_, ?_, ?_⟩ <;>
      · fin_cases cur <;>
          simp [transitionState_green_lanes, transitionState_red_lanes, Function.update, greenLane,
            otherLane, hid, Ne.symm hid]
  · rw [if_neg h]
    refine ⟨c, rfl, ?_, fun h2 => absurd h2 h, fun _ => rfl⟩
    simp only [h, iff_false]
    rw [hk]
    fin_cases cur <;> simp

/-- Witness for `updateSignals_caution_rule`: in `laneAYellow` lane 0 is YELLOW
since 4000; the step at 6000 hands over to lane 1. -/
theorem updateSignals_caution_rule_witness :
    laneAt laneAYellow.currentLaneIndex = some 0 ∧
    (laneAYellow.lanes 0).currentState = .YELLOW ∧
    (laneAYellow.lanes 0).laneID ≠ (laneAYellow.lanes 1).laneID ∧
    ∃ d, updateSignals laneAYellow 6000 = some d ∧ d.currentLaneIndex = 1 ∧
      (d.lanes 0).currentState = .RED ∧ (d.lanes 1).currentState = .GREEN := by
  obtain ⟨d, hd, hiff, hyes, _⟩ :=
    updateSignals_caution_rule laneAYellow 0 6000 rfl rfl (by decide)
  have hel : subULong 6000 (laneAYellow.lanes 0).startTime ≥ 2000 := by decide
  obtain ⟨h1, _, _, h4, _, _⟩ := hyes hel
  exact ⟨rfl, rfl, by decide, d, hd, hiff.mpr hel, h1, h4⟩

/-- Claim C8 (GO rule).  In every state whose current lane `cur` is GREEN and
for every clock reading `now`, `updateSignals` returns a state `d` in which the
current lane is YELLOW iff `now - startTime >= greenDuration` in
`unsigned long` arithmetic.  When it is, the record of the current lane differs
from the old one in `currentState` and `startTime = now` only, the other
lane, `currentLaneIndex` and `nextLogTime` are unchanged, the yellow pin of the
lane is HIGH and every pin that is not one of the three lamp pins of the lane
keeps its level.  Otherwise the whole state is unchanged. -/
theorem updateSignals_go_rule (c : Controller) (cur : Fin 2) (now : Nat)
    (hcur : laneAt c.currentLaneIndex = some cur)
    (hgreen : (c.lanes cur).currentState = .GREEN) :
    ∃ d, updateSignals c now = some d ∧
      ((d.lanes cur).currentState = .YELLOW ↔
        subULong now (c.lanes cur).startTime ≥ (c.lanes cur).greenDuration) ∧
      (subULong now (c.lanes cur).startTime ≥ (c.lanes cur).greenDuration →
        d.lanes cur = { c.lanes cur with currentState := .YELLOW, startTime := now } ∧
        d.lanes (otherLane cur) = c.lanes (otherLane cur) ∧
        d.currentLaneIndex = c.currentLaneIndex ∧
        d.nextLogTime = c.nextLogTime ∧
        d.pins (c.lanes cur).yellowPin = HIGH ∧
        ∀ p, p ≠ (c.lanes cur).redPin → p ≠ (c.lanes cur).yellowPin →
          p ≠ (c.lanes cur).greenPin → d.pins p = c.pins p) ∧
      (¬ subULong now (c.lanes cur).startTime ≥ (c.lanes cur).greenDuration → d = c) := by
  rw [updateSignals_of_green now hcur hgreen]
  by_cases h : subULong now (c.lanes cur).startTime ≥ (c.lanes cur).greenDuration
  · rw [if_pos h]
    refine ⟨_, rfl, ?_, ?_, fun h2 => absurd h h2⟩
    · simp [transitionState_yellow_lanes, h]
    · intro _
      refine ⟨by simp [transitionState_yellow_lanes], ?_, transitionState_index _ _ _ _,
        transitionState_nextLogTime _ _ _ _, transitionState_yellow_lamp _ _ _, ?_⟩
      · fin_cases cur <;> simp [transitionState_yellow_lanes, otherLane, Function.update]
      · intro p h1 h2 h3
        exact transitionState_yellow_pins c cur now p h1 h2 h3
  · rw [if_neg h]
    exact ⟨c, rfl, by simp [hgreen, h], fun h2 => absurd h2 h, fun _ => rfl⟩

/-- Witness for `updateSignals_go_rule`: after `setup` at 0 lane 0 is GREEN
for 4000 ms; the step at 4000 makes it YELLOW. -/
theorem updateSignals_go_rule_witness :
    laneAt (setup 0).currentLaneIndex = some 0 ∧
    ((setup 0).lanes 0).currentState = .GREEN ∧
    ∃ d, updateSignals (setup 0) 4000 = some d ∧ (d.lanes 0).currentState = .YELLOW := by
  obtain ⟨d, hd, hiff, _, _⟩ := updateSignals_go_rule (setup 0) 0 4000 rfl rfl
  exact ⟨rfl, rfl, d, hd, hiff.mpr (by decide)⟩

/-! ## Claims C2, C9 -/

/-- Claim C2 (green-duration bound), evaluation of the code at a failing
input.  After `setup` at clock reading 0, 8589927 passes of `loop` at clock
reading 0 in each of which button B is pressed once, a quiet pass at 4000 and a
quiet pass at 6000, the controller is in a reachable state in which lane 1 is
GREEN with `greenDuration = 204`, below `MIN_GREEN_TIME = 4000`: the sum
`4000 + 8589927 * 500` does not fit in 32 bits. -/
theorem green_below_minimum_reachable :
    ∃ d, run 2 (List.replicate 8589927 (pressB 0) ++ [quiet 4000, quiet 6000]) (setup 0) = some d ∧
      Reachable d ∧ d.currentLaneIndex = 1 ∧ (d.lanes 1).currentState = .GREEN ∧
      (d.lanes 1).greenDuration = 204 ∧ 204 < MIN_GREEN_TIME := by
  have hrun := run_pressB_replicate 0 (setup 0) rfl rfl (by decide) (by decide)
    [quiet 4000, quiet 6000] 8589927 0 (by decide)
  have h0 : withCountB (setup 0) ((0 : Nat) : Int) = setup 0 := withCountB_self (setup 0)
  rw [h0] at hrun
  obtain ⟨d, hd⟩ :
      ∃ d, run 2 [quiet 4000, quiet 6000] (withCountB (setup 0) ((0 + 8589927 : Nat) : Int)) =
        some d :=
    Option.isSome_iff_exists.mp rfl
  have hfields : (run 2 [quiet 4000, quiet 6000]
      (withCountB (setup 0) ((0 + 8589927 : Nat) : Int))).map
      (fun d => (d.currentLaneIndex, (d.lanes 1).currentState, (d.lanes 1).greenDuration)) =
      some (1, .GREEN, 204) := rfl
  rw [hd] at hfields
  simp only [Option.map_some', Option.some.injEq, Prod.mk.injEq] at hfields
  rw [← hrun] at hd
  exact ⟨d, hd, reachable_run _ (Reachable.setup 0) hd, hfields.1, hfields.2.1, hfields.2.2,
    by decide⟩

/-- Claim C9 (demand accounting), evaluation of the code at a failing input.
From `setup` at clock reading 0, quiet passes at 4000, 6000 and 10000 put
lane 1 in YELLOW; the pass at 12000 puts it in RED with `vehicleCount = 0`;
8589927 passes at 12000 in each of which button B is pressed once and a quiet
pass at 16000 leave it RED with `vehicleCount = 8589927`; the pass at 18000
puts it in GREEN with `greenDuration = 204`, while
`min(4000 + 500 * 8589927, 15000) = 15000`. -/
theorem demand_accounting_overflow :
      run 2 [quiet 4000, quiet 6000, quiet 10000] (setup 0) = some inCautionB ∧
      (inCautionB.lanes 1).currentState = .YELLOW ∧
      loop 2 (quiet 12000) inCautionB = some stoppedB ∧
      (stoppedB.lanes 1).currentState = .RED ∧ (stoppedB.lanes 1).vehicleCount = 0 ∧
      run 2 (List.replicate 8589927 (pressB 12000) ++ [quiet 16000]) stoppedB = some waitingB ∧
      (waitingB.lanes 1).currentState = .RED ∧ (waitingB.lanes 1).vehicleCount = 8589927 ∧
      loop 2 (quiet 18000) waitingB = some releasedB ∧
      Reachable releasedB ∧
      (releasedB.lanes 1).currentState = .GREEN ∧ (releasedB.lanes 1).greenDuration = 204 ∧
      min (4000 + 500 * 8589927) 15000 = 15000 := by
  have h1 : run 2 [quiet 4000, quiet 6000, quiet 10000] (setup 0) = some inCautionB :=
    eq_some_getD (by decide) powerOn
  have h2 : loop 2 (quiet 12000) inCautionB = some stoppedB := eq_some_getD (by decide) powerOn
  have h3 : run 2 [quiet 16000] (withCountB stoppedB 8589927) = some waitingB :=
    eq_some_getD (by decide) powerOn
  have h4 : loop 2 (quiet 18000) waitingB = some releasedB := eq_some_getD (by decide) powerOn
  have hrun := run_pressB_replicate 12000 stoppedB
      (by decide) (by decide) (by decide) (by decide) [quiet 16000] 8589927 0 (by decide)
  have hself := withCountB_self stoppedB
  have hzero : (stoppedB.lanes 1).vehicleCount = ((0 : Nat) : Int) := by decide
  rw [hzero] at hself
  rw [hself] at hrun
  rw [show ((0 + 8589927 : Nat) : Int) = 8589927 by decide] at hrun
  rw [← hrun] at h3
  have r1 := reachable_run _ (Reachable.setup 0) h1
  have r2 := Reachable.tick 2 _ r1 h2
  have r3 := reachable_run _ r2 h3
  have r4 := Reachable.tick 2 _ r3 h4
  exact ⟨h1, by decide, h2, by decide, by decide, h3, by decide, by decide, h4, r4,
    by decide, by decide, by decide⟩

/-! ## Claims C3, C4 -/

/-- Claim C3 (timing formula), evaluation of the code at a failing input.  For
a lane whose `vehicleCount` is 8589927, `transitionState(lane, GREEN)` stores
`greenDuration = 204`, while `min(4000 + 8589927 * 500, 15000) = 15000`: the
sum `4000 + dynamicTime` is reduced modulo `2^32` before the cap is applied. -/
theorem timing_formula_overflow (c : Controller) (i : Fin 2) (now : Nat) :
    ((transitionState (setLane c i { c.lanes i with vehicleCount := 8589927 }) (some i) .GREEN
      now).lanes i).greenDuration = 204 ∧
    min (4000 + 8589927 * 500) 15000 = 15000 := by
  refine ⟨?_, by decide⟩
  rw [transitionState_green_duration]
  simp only [setLane, Function.update_same]
  decide

/-- The timing formula holds while `4000 + 500 * n` fits in 32 bits: for a lane
whose `vehicleCount` is `n ≤ 8589926`, `transitionState(lane, GREEN)` stores
`min(4000 + n * 500, 15000)`. -/
theorem timing_formula_in_range (c : Controller) (i : Fin 2) (now : Nat) (n : Nat)
    (hn : n ≤ 8589926) (hc : (c.lanes i).vehicleCount = (n : Int)) :
    ((transitionState c (some i) .GREEN now).lanes i).greenDuration =
      min (4000 + n * 500) 15000 := by
  rw [transitionState_green_duration, hc, greenTime_of_le n hn, Nat.mul_comm]

/-- Claim C4 (saturation), evaluation of the code at failing inputs.  The
counts 8589927 and 8589935 are at least 22 and fit in a 32-bit `long`, yet
`dynamicTiming` stores `greenDuration = 204` for the first and 4204 for the
second, not `MAX_GREEN_TIME = 15000`; for the count 30 it stores 15000. -/
theorem saturation_overflow (c : Controller) (i : Fin 2) :
    (22 : Int) ≤ 8589927 ∧ (8589927 : Int) < 2147483648 ∧
    ((dynamicTiming (setLane c i { c.lanes i with vehicleCount := 8589927 }) i).lanes
      i).greenDuration = 204 ∧
    ((dynamicTiming (setLane c i { c.lanes i with vehicleCount := 8589935 }) i).lanes
      i).greenDuration = 4204 ∧
    greenTime 30 = MAX_GREEN_TIME := by
  refine ⟨by decide, by decide, ?_, ?_, by decide⟩
  · simp only [dynamicTiming, setLane, serialPrint, Function.update_same]
    decide
  · simp only [dynamicTiming, setLane, serialPrint, Function.update_same]
    decide

/-! ## Claim C10 -/

theorem waitRelease_stuck (fuel : Nat) : ∀ k, waitRelease (fun _ => LOW) fuel k = none := by
  induction fuel with
  | zero => intro k; rfl
  | succ f ih => intro k; simp [waitRelease, ih]

theorem checkButton_stuck (fuel : Nat) (i : Fin 2) (c : Controller) :
    checkButton fuel (fun _ => LOW) i c = none := by
  simp [checkButton, waitRelease_stuck]

/-- Claim C10 (stuck sensor), evaluation of the code at the failing input.
When the reads of a button return `LOW` for ever, the detector pass and the
pass of `loop` do not finish, whatever the number `fuel` of reads allowed to
the debounce loop, the clock readings, the other button, the pending command
and the controller state: the loop `while(digitalRead(BTN) == LOW);` has no
exit but the release of the button. -/
theorem stuck_sensor_blocks_loop (fuel now nowGate nowLog nowDeadline : Nat) (btn : Nat → Bool)
    (command : Option Char) (c : Controller) :
    checkTrafficSensors fuel (fun _ => LOW) btn c = none ∧
    checkTrafficSensors fuel btn (fun _ => LOW) c = none ∧
    loop fuel
      { now := now, btnA := fun _ => LOW, btnB := btn, nowGate := nowGate, nowLog := nowLog,
        nowDeadline := nowDeadline, command := command } c = none ∧
    loop fuel
      { now := now, btnA := btn, btnB := fun _ => LOW, nowGate := nowGate, nowLog := nowLog,
        nowDeadline := nowDeadline, command := command } c = none := by
  have hA : ∀ m, checkTrafficSensors fuel (fun _ => LOW) btn m = none := by
    intro m; simp [checkTrafficSensors, checkButton_stuck]
  have hB : ∀ m, checkTrafficSensors fuel btn (fun _ => LOW) m = none := by
    intro m
    unfold checkTrafficSensors
    cases checkButton fuel btn 0 m with
    | none => rfl
    | some e => exact checkButton_stuck fuel 1 e
  refine ⟨hA c, hB c, ?_, ?_⟩
  · unfold loop
    cases updateSignals c now with
    | none => rfl
    | some m => simp only [hA m]
  · unfold loop
    cases updateSignals c now with
    | none => rfl
    | some m => simp only [hB m]

/-! ## The detector -/

/-- The debounce loop ends as soon as a read returns `HIGH`: when read `j`, at
or after the first read `k` of the loop and among its first `fuel` reads, is
`HIGH`, the loop finishes. -/
theorem waitRelease_of_released (btn : Nat → Bool) (j : Nat) (hj : btn j = HIGH) :
    ∀ (fuel k : Nat), k ≤ j → j < k + fuel → ∃ n, waitRelease btn fuel k = some n := by
  intro fuel
  induction fuel with
  | zero => intro k h1 h2; omega
  | succ f ih =>
    intro k h1 h2
    by_cases hk : btn k = LOW
    · have hne : k ≠ j := by
        intro e
        rw [e, hj] at hk
        exact absurd hk (by decide)
      obtain ⟨n, hn⟩ := ih (k + 1) (by omega) (by omega)
      exact ⟨n, by simp only [waitRelease, hk, if_true, hn]⟩
    · exact ⟨k + 1, by simp only [waitRelease, hk, if_false]⟩

theorem checkButton_of_released (fuel : Nat) (btn : Nat → Bool) (i : Fin 2) (c : Controller)
    (j : Nat) (hj : btn j = HIGH) (hf : j ≤ fuel) :
    checkButton fuel btn i c = some (if btn 0 = LOW then countArrival c i else c) := by
  unfold checkButton
  by_cases h0 : btn 0 = LOW
  · have hj1 : 1 ≤ j := by
      rcases Nat.eq_zero_or_pos j with e | e
      · rw [e, h0] at hj
        exact absurd hj (by decide)
      · exact e
    obtain ⟨n, hn⟩ := waitRelease_of_released btn j hj fuel 1 hj1 (by omega)
    simp only [h0, if_true, hn, countArrival]
  · simp only [h0, if_false]

theorem checkButton_eq_some {fuel : Nat} {btn : Nat → Bool} {i : Fin 2} {c d : Controller}
    (h : checkButton fuel btn i c = some d) :
    d = if btn 0 = LOW then countArrival c i else c := by
  unfold checkButton at h
  by_cases h0 : btn 0 = LOW
  · simp only [h0, if_true] at h ⊢
    split at h
    · exact absurd h (by simp)
    · cases h; rfl
  · simp only [h0, if_false] at h ⊢
    cases h; rfl

theorem countsOnly_refl (c : Controller) : CountsOnly c c :=
  ⟨fun _ => rfl, rfl, rfl, rfl, rfl⟩

theorem countArrival_countsOnly (c : Controller) (i : Fin 2) : CountsOnly c (countArrival c i) := by
  refine ⟨fun j => ?_, rfl, rfl, rfl, rfl⟩
  by_cases hj : j = i
  · subst hj; simp [countArrival, setLane]
  · simp [countArrival, setLane, Function.update, hj]

theorem countsOnly_trans {c d e : Controller} (h1 : CountsOnly c d) (h2 : CountsOnly d e) :
    CountsOnly c e := by
  obtain ⟨a1, a2, a3, a4, a5⟩ := h1
  obtain ⟨b1, b2, b3, b4, b5⟩ := h2
  refine ⟨fun i => ?_, b2.trans a2, b3.trans a3, b4.trans a4, b5.trans a5⟩
  rw [b1 i, a1 i]

theorem checkButton_countsOnly {fuel : Nat} {btn : Nat → Bool} {i : Fin 2} {c d : Controller}
    (h : checkButton fuel btn i c = some d) : CountsOnly c d := by
  rw [checkButton_eq_some h]
  split
  · exact countArrival_countsOnly c i
  · exact countsOnly_refl c

theorem checkTrafficSensors_countsOnly {fuel : Nat} {btnA btnB : Nat → Bool}
    {c d : Controller} (h : checkTrafficSensors fuel btnA btnB c = some d) :
    CountsOnly c d := by
  unfold checkTrafficSensors at h
  split at h
  · exact absurd h (by simp)
  · next m hm => exact countsOnly_trans (checkButton_countsOnly hm) (checkButton_countsOnly h)

/-- With both buttons released within `fuel` reads the detector pass finishes,
and its result is the state with the vehicles counted. -/
theorem checkTrafficSensors_of_released (fuel : Nat) (btnA btnB : Nat → Bool) (c : Controller)
    (jA jB : Nat) (hA : btnA jA = HIGH) (hB : btnB jB = HIGH) (hfA : jA ≤ fuel)
    (hfB : jB ≤ fuel) :
    checkTrafficSensors fuel btnA btnB c =
      some (if btnB 0 = LOW then countArrival (if btnA 0 = LOW then countArrival c 0 else c) 1
        else (if btnA 0 = LOW then countArrival c 0 else c)) := by
  unfold checkTrafficSensors
  rw [checkButton_of_released fuel btnA 0 c jA hA hfA]
  exact checkButton_of_released fuel btnB 1 _ jB hB hfB

/-- One pass of `loop` that finishes is a step of the state machine, a
detector pass, the time-gated logger and the command interface, in this
order. -/
theorem loop_eq_some {fuel : Nat} {inp : TickInput} {c d : Controller}
    (h : loop fuel inp c = some d) :
    ∃ m s, updateSignals c inp.now = some m ∧
      checkTrafficSensors fuel inp.btnA inp.btnB m = some s ∧
      d = checkSerialInterface
        (if inp.nowGate ≥ s.nextLogTime then
          { logData s inp.nowLog with
            nextLogTime := addULong inp.nowDeadline LOGGING_INTERVAL }
        else s) inp.command := by
  unfold loop at h
  split at h
  · exact absurd h (by simp)
  · next m hm =>
    split at h
    · exact absurd h (by simp)
    · next s hs =>
      cases h
      exact ⟨m, s, hm, hs, rfl⟩

/-- Claim C11, amended (arrival counting).  For every controller state and
every pair of button signals that are released within the reads the pass may
make (read `jA` of button A and read `jB` of button B are `HIGH`), one
detector pass finishes, and it replaces the `vehicleCount` of lane 0 by
`vehicleCount + 1` in 32-bit `long` arithmetic if button A is `LOW` at its
first read, however many reads it then stays `LOW`, and leaves it alone
otherwise; likewise, and independently, for lane 1 and button B.  Whenever the
old count is a `long` below `2^31 - 1` the new count is the old count plus 1,
respectively plus 0. -/
theorem arrival_counting (c : Controller) (btnA btnB : Nat → Bool) (fuel jA jB : Nat)
    (hA : btnA jA = HIGH) (hB : btnB jB = HIGH) (hfA : jA ≤ fuel) (hfB : jB ≤ fuel) :
    ∃ d, checkTrafficSensors fuel btnA btnB c = some d ∧
      (d.lanes 0).vehicleCount =
        (if btnA 0 = LOW then wrapLong ((c.lanes 0).vehicleCount + 1)
          else (c.lanes 0).vehicleCount) ∧
      (d.lanes 1).vehicleCount =
        (if btnB 0 = LOW then wrapLong ((c.lanes 1).vehicleCount + 1)
          else (c.lanes 1).vehicleCount) ∧
      (-2147483648 ≤ (c.lanes 0).vehicleCount → (c.lanes 0).vehicleCount < 2147483647 →
        (d.lanes 0).vehicleCount =
          (c.lanes 0).vehicleCount + (if btnA 0 = LOW then 1 else 0)) ∧
      (-2147483648 ≤ (c.lanes 1).vehicleCount → (c.lanes 1).vehicleCount < 2147483647 →
        (d.lanes 1).vehicleCount =
          (c.lanes 1).vehicleCount + (if btnB 0 = LOW then 1 else 0)) := by
  have hd := checkTrafficSensors_of_released fuel btnA btnB c jA jB hA hB hfA hfB
  have h0 := checkTrafficSensors_vehicleCount hd 0
  have h1 := checkTrafficSensors_vehicleCount hd 1
  simp only [if_true] at h0
  simp only [Fin.isValue, one_ne_zero, if_false] at h1
  refine ⟨_, hd, h0, h1, ?_, ?_⟩
  · intro hlo hhi
    rw [h0]
    split
    · rw [wrapLong_of_range _ (by omega) (by omega)]
    · simp
  · intro hlo hhi
    rw [h1]
    split
    · rw [wrapLong_of_range _ (by omega) (by omega)]
    · simp

/-- Witness for `arrival_counting`: after `setup`, button A held `LOW` for
three reads and button B not pressed give the counts 1 and 0. -/
theorem arrival_counting_witness :
    heldThreeReads 3 = HIGH ∧
    ∃ d, checkTrafficSensors 5 heldThreeReads (fun _ => HIGH) (setup 0) = some d ∧
      (d.lanes 0).vehicleCount = 1 ∧ (d.lanes 1).vehicleCount = 0 := by
  obtain ⟨d, hd, _, _, h0, h1⟩ :=
    arrival_counting (setup 0) heldThreeReads (fun _ => HIGH) 5 3 0 rfl rfl (by decide)
      (by decide)
  refine ⟨rfl, d, hd, ?_, ?_⟩
  · rw [h0 (by decide) (by decide)]; decide
  · rw [h1 (by decide) (by decide)]; decide

/-- Claim C12 (null lane).  For every controller state, every requested new
state and every clock reading, `transitionState` called with a null lane
returns the controller unchanged: both lanes, `currentLaneIndex`,
`nextLogTime`, the pin levels and the serial output (nothing is emitted). -/
theorem transitionState_null_noop (c : Controller) (newState : SignalState) (now : Nat) :
    transitionState c none newState now = c :=
  rfl

/-- Claim C20 (arrivals never change the duration in effect).  For every
controller state and all button reads, a detector pass that finishes changes
at most the two `vehicleCount` fields: every other field of both lanes (id,
pins, state, green duration, start time, total wait time), `currentLaneIndex`,
`nextLogTime`, the pin levels and the serial output are unchanged.  A pass of
`loop` that finishes runs the state machine first, on the state before the
pass, and the detector on its result; after the pass the id, state, green
duration and start time of both lanes and `currentLaneIndex` are those the
state machine left, so a green duration stored in this pass was computed from
the counts before the pass. -/
theorem detector_changes_counts_only (fuel : Nat) (inp : TickInput) (c : Controller) :
    (∀ d, checkTrafficSensors fuel inp.btnA inp.btnB c = some d → CountsOnly c d) ∧
    (∀ d, loop fuel inp c = some d →
      ∃ m s, updateSignals c inp.now = some m ∧
        checkTrafficSensors fuel inp.btnA inp.btnB m = some s ∧ CountsOnly m s ∧
        SameSignals m d) := by
  refine ⟨fun d h => checkTrafficSensors_countsOnly h, fun d h => ?_⟩
  obtain ⟨m, s, hm, hs, _⟩ := loop_eq_some h
  obtain ⟨m2, hm2, hsame⟩ := loop_sameSignals h
  rw [hm] at hm2
  cases hm2
  exact ⟨m, s, hm, hs, checkTrafficSensors_countsOnly hs, hsame⟩

/-- Witness for `detector_changes_counts_only`: the pass at clock reading 6000
from `laneAYellow` with button B pressed once hands over to lane 1, whose green
duration is computed from the count 0 held before the pass, and then counts
the vehicle. -/
theorem detector_changes_counts_only_witness :
    ∃ d, loop 2 (pressB 6000) laneAYellow = some d ∧
      (d.lanes 1).currentState = .GREEN ∧ (d.lanes 1).greenDuration = 4000 ∧
      (d.lanes 1).vehicleCount = 1 := by
  obtain ⟨d, hd⟩ : ∃ d, loop 2 (pressB 6000) laneAYellow = some d :=
    Option.isSome_iff_exists.mp (by decide)
  obtain ⟨m, s, hm, hs, hcount, hsame⟩ :=
    (detector_changes_counts_only 2 (pressB 6000) laneAYellow).2 d hd
  have hfields : (loop 2 (pressB 6000) laneAYellow).map
      (fun d => ((d.lanes 1).currentState, (d.lanes 1).greenDuration, (d.lanes 1).vehicleCount)) =
      some (.GREEN, 4000, 1) := by decide
  rw [hd] at hfields
  simp only [Option.map_some', Option.some.injEq, Prod.mk.injEq] at hfields
  exact ⟨d, hd, hfields.1, hfields.2.1, hfields.2.2⟩

theorem addULong_millis (T k : Nat) : addULong (millis T) k = millis (T + k) := by
  unfold addULong millis ULONG_RANGE
  omega

/-- Claim C13, amended (initial configuration).  After `setup` run at clock reading `t`,
lane 0 is GREEN with green duration `MIN_GREEN_TIME = 4000` and start time `t`,
lane 1 is RED, both vehicle counts and both total wait times are 0,
`currentLaneIndex = 0`, and `nextLogTime` is `t + 10000` as a clock reading,
that is as an `unsigned long`, `(t + 10000) mod 2^32`: it is the number
`t + 10000` whenever that sum is below `2^32`, and when `t` is the reading
`millis T` of the clock at time `T` it is the reading `millis (T + 10000)` of
the clock 10000 ms later. -/
theorem initial_configuration (t : Nat) :
    ((setup t).lanes 0).currentState = .GREEN ∧
    ((setup t).lanes 0).greenDuration = MIN_GREEN_TIME ∧
    ((setup t).lanes 0).greenDuration = 4000 ∧
    ((setup t).lanes 0).startTime = t ∧
    ((setup t).lanes 1).currentState = .RED ∧
    ((setup t).lanes 0).vehicleCount = 0 ∧ ((setup t).lanes 1).vehicleCount = 0 ∧
    ((setup t).lanes 0).totalWaitTime = 0 ∧ ((setup t).lanes 1).totalWaitTime = 0 ∧
    (setup t).currentLaneIndex = 0 ∧
    (setup t).nextLogTime = (t + 10000) % 4294967296 ∧
    (t + 10000 < 4294967296 → (setup t).nextLogTime = t + 10000) ∧
    (∀ T, t = millis T → (setup t).nextLogTime = millis (T + 10000)) := by
  refine ⟨rfl, rfl, rfl, rfl, rfl, rfl, rfl, rfl, rfl, rfl, rfl, fun h => ?_, fun T hT => ?_⟩
  · show (t + 10000) % 4294967296 = t + 10000
    exact Nat.mod_eq_of_lt h
  · rw [hT]
    exact addULong_millis T 10000

/-- Witness for `initial_configuration`: `setup` at clock reading 5 sets the
next log time to 10005. -/
theorem initial_configuration_witness :
    5 + 10000 < 4294967296 ∧ (setup 5).nextLogTime = 10005 :=
  ⟨by decide, (initial_configuration 5).2.2.2.2.2.2.2.2.2.2.2.1 (by decide)⟩

/-- Claim C17 (status command).  For every controller state, when the command
byte `'s'` is pending, `checkSerialInterface` writes the line echoing the
command, the status header, the line `Lane A Count: ` with the `vehicleCount`
of lane 0 and then the line `Lane B Count: ` with the `vehicleCount` of lane 1,
and changes nothing else: lanes, `currentLaneIndex`, `nextLogTime` and pin
levels are unchanged.  In the state of scenario E, with counts 3 and 0, the
two count lines show 3 and 0. -/
theorem status_command (c : Controller) :
    (checkSerialInterface c (some 's')).serial =
      c.serial ++ [.text "Command received: ", .char 's', .newline,
        .text "\n--- SYSTEM STATUS ---", .newline,
        .text "Lane A Count: ", .int (c.lanes 0).vehicleCount, .newline,
        .text "Lane B Count: ", .int (c.lanes 1).vehicleCount, .newline] ∧
    (checkSerialInterface c (some 's')).lanes = c.lanes ∧
    (checkSerialInterface c (some 's')).currentLaneIndex = c.currentLaneIndex ∧
    (checkSerialInterface c (some 's')).nextLogTime = c.nextLogTime ∧
    (checkSerialInterface c (some 's')).pins = c.pins ∧
    emitted scenarioE (some 's') =
      [.text "Command received: ", .char 's', .newline,
        .text "\n--- SYSTEM STATUS ---", .newline,
        .text "Lane A Count: ", .int 3, .newline,
        .text "Lane B Count: ", .int 0, .newline] := by
  refine ⟨?_, rfl, rfl, rfl, rfl, by decide⟩
  simp [checkSerialInterface, serialPrint]

/-- Claim C18 as stated fails.  For the pending byte `'x'`, which is not a
recognized command, `checkSerialInterface` writes the line
`Command received: x` and nothing else; the first line it writes for the
recognized command `'s'` is `Command received: s`.  The acknowledgment is the
same line for both: nothing written marks `'x'` as unrecognized. -/
theorem unrecognized_not_marked_counterexample :
    emitted (setup 0) (some 'x') = [.text "Command received: ", .char 'x', .newline] ∧
    (emitted (setup 0) (some 's')).take 3 =
      [.text "Command received: ", .char 's', .newline] := by
  constructor <;> decide

/-- Claim C18, amended (unrecognized command).  For every controller state and
every command byte other than `'s'`, `checkSerialInterface` writes the line
`Command received: ` followed by the byte, the same acknowledgment line it
writes first for the recognized command `'s'`, with no marking of the byte as
unrecognized, and changes nothing else; when no byte is available it writes
nothing and changes nothing. -/
theorem unrecognized_command (c : Controller) (b : Char) (hb : b ≠ 's') :
    checkSerialInterface c (some b) =
      serialPrint c [.text "Command received: ", .char b, .newline] ∧
    (checkSerialInterface c (some b)).serial =
      c.serial ++ [.text "Command received: ", .char b, .newline] ∧
    (checkSerialInterface c (some b)).lanes = c.lanes ∧
    (checkSerialInterface c (some b)).currentLaneIndex = c.currentLaneIndex ∧
    (checkSerialInterface c (some b)).nextLogTime = c.nextLogTime ∧
    (checkSerialInterface c (some b)).pins = c.pins ∧
    (∃ report, (checkSerialInterface c (some 's')).serial =
      c.serial ++ [.text "Command received: ", .char 's', .newline] ++ report) ∧
    checkSerialInterface c none = c := by
  have h : checkSerialInterface c (some b) =
      serialPrint c [.text "Command received: ", .char b, .newline] := by
    simp [checkSerialInterface, hb]
  refine ⟨h, by rw [h]; rfl, by rw [h]; rfl, by rw [h]; rfl, by rw [h]; rfl, by rw [h]; rfl,
    ⟨[.text "\n--- SYSTEM STATUS ---", .newline,
      .text "Lane A Count: ", .int (c.lanes 0).vehicleCount, .newline,
      .text "Lane B Count: ", .int (c.lanes 1).vehicleCount, .newline], ?_⟩, rfl⟩
  simp [checkSerialInterface, serialPrint]

/-- Witness for `unrecognized_command`: the byte `'x'` pending after `setup`. -/
theorem unrecognized_command_witness :
    'x' ≠ 's' ∧
    checkSerialInterface (setup 0) (some 'x') =
      serialPrint (setup 0) [.text "Command received: ", .char 'x', .newline] :=
  ⟨by decide, (unrecognized_command (setup 0) 'x' (by decide)).1⟩

/-! ## The logger -/

theorem logLane_lanes (c : Controller) (i : Fin 2) (now : Nat) :
    (logLane c i now).lanes = Function.update c.lanes i (accrueWait (c.lanes i) now) := by
  unfold logLane accrueWait
  by_cases hr : (c.lanes i).currentState = .RED
  · simp [hr, setLane, serialPrint]
  · simp [hr, serialPrint]

theorem logLane_serial (c : Controller) (i : Fin 2) (now : Nat) :
    (logLane c i now).serial = c.serial ++ logRecord (logLane c i now) i now := by
  unfold logRecord
  unfold logLane
  by_cases hr : (c.lanes i).currentState = .RED
  · simp [hr, setLane, serialPrint]
  · simp [hr, serialPrint]

theorem logLane_rest (c : Controller) (i : Fin 2) (now : Nat) :
    (logLane c i now).currentLaneIndex = c.currentLaneIndex ∧
    (logLane c i now).nextLogTime = c.nextLogTime ∧
    (logLane c i now).pins = c.pins := by
  unfold logLane
  by_cases hr : (c.lanes i).currentState = .RED
  · simp [hr, setLane, serialPrint]
  · simp [hr, serialPrint]

theorem logData_lanes (c : Controller) (now : Nat) (i : Fin 2) :
    (logData c now).lanes i = accrueWait (c.lanes i) now := by
  simp only [logData, serialPrint, logLane_lanes]
  fin_cases i <;> simp [Function.update]

theorem logData_rest (c : Controller) (now : Nat) :
    (logData c now).currentLaneIndex = c.currentLaneIndex ∧
    (logData c now).nextLogTime = c.nextLogTime ∧
    (logData c now).pins = c.pins := by
  simp only [logData, serialPrint, logLane_rest, and_self]

theorem logData_serial (c : Controller) (now : Nat) :
    (logData c now).serial =
      c.serial ++ [.text "\n--- LOG ENTRY ---", .newline,
        .text "Timestamp(ms),LaneID,State,VehicleCount,CurrentGreenDuration(ms),WaitTime(ms)",
        .newline] ++
      logRecord (logData c now) 0 now ++ logRecord (logData c now) 1 now ++
      [.text "-----------------", .newline] := by
  have h0 := logData_lanes c now 0
  have h1 := logData_lanes c now 1
  simp only [logRecord, h0, h1]
  simp only [logData, serialPrint, logLane_serial, logLane_lanes, logRecord]
  simp [Function.update]

theorem addULong_subULong_of_le (total now start : Nat) (h1 : start ≤ now)
    (h3 : total + (now - start) < 4294967296) :
    addULong total (subULong now start) = total + (now - start) := by
  unfold addULong subULong ULONG_RANGE
  omega

/-- Claim C15, amended (lazy wait accrual).  For every controller state and clock
reading `now`, one call of `logData` replaces the total wait time of each lane
that is RED by `totalWaitTime + (now - startTime)` in `unsigned long`
arithmetic, leaves a lane that is not RED unchanged, and changes no other
field of a lane, nor `currentLaneIndex`, `nextLogTime` or the pin levels.  It
writes the log header, then for lane 0 and for lane 1 one record carrying the
timestamp, the lane id, the state name, the vehicle count, the green duration
and the updated total wait time, then the closing line.  When `startTime ≤
now` and the sum stays below `2^32`, the new total wait time is the number
`totalWaitTime + (now - startTime)`. -/
theorem lazy_wait_accrual (c : Controller) (now : Nat) :
    (∀ i, (c.lanes i).currentState = .RED →
      (logData c now).lanes i =
        { c.lanes i with
          totalWaitTime := addULong (c.lanes i).totalWaitTime
            (subULong now (c.lanes i).startTime) }) ∧
    (∀ i, (c.lanes i).currentState ≠ .RED → (logData c now).lanes i = c.lanes i) ∧
    (logData c now).currentLaneIndex = c.currentLaneIndex ∧
    (logData c now).nextLogTime = c.nextLogTime ∧
    (logData c now).pins = c.pins ∧
    (logData c now).serial =
      c.serial ++ [.text "\n--- LOG ENTRY ---", .newline,
        .text "Timestamp(ms),LaneID,State,VehicleCount,CurrentGreenDuration(ms),WaitTime(ms)",
        .newline] ++
      logRecord (logData c now) 0 now ++ logRecord (logData c now) 1 now ++
      [.text "-----------------", .newline] ∧
    (∀ i, (c.lanes i).currentState = .RED → (c.lanes i).startTime ≤ now →
      (c.lanes i).totalWaitTime + (now - (c.lanes i).startTime) < 4294967296 →
      ((logData c now).lanes i).totalWaitTime =
        (c.lanes i).totalWaitTime + (now - (c.lanes i).startTime)) := by
  obtain ⟨r1, r2, r3⟩ := logData_rest c now
  refine ⟨fun i hr => ?_, fun i hr => ?_, r1, r2, r3, logData_serial c now,
    fun i hr h1 h3 => ?_⟩
  · rw [logData_lanes, accrueWait, if_pos hr]
  · rw [logData_lanes, accrueWait, if_neg hr]
  · rw [logData_lanes, accrueWait, if_pos hr]
    exact addULong_subULong_of_le _ _ _ h1 h3

/-- Witness for `lazy_wait_accrual`: in `waitingLaneB` lane 1 is RED since 1000
with a total wait time of 250; `logData` at 11000 makes it 10250 and leaves
lane 0, which is GREEN, unchanged. -/
theorem lazy_wait_accrual_witness :
    (waitingLaneB.lanes 1).currentState = .RED ∧
    (waitingLaneB.lanes 0).currentState ≠ .RED ∧
    ((logData waitingLaneB 11000).lanes 1).totalWaitTime = 10250 ∧
    (logData waitingLaneB 11000).lanes 0 = waitingLaneB.lanes 0 := by
  obtain ⟨_, h2, _, _, _, _, h7⟩ := lazy_wait_accrual waitingLaneB 11000
  refine ⟨by decide, by decide, ?_, h2 0 (by decide)⟩
  rw [h7 1 (by decide) (by decide) (by decide)]
  decide

/-! ## Totality of the state machine and the gate of the logger -/

theorem updateSignals_isSome {c : Controller} {cur : Fin 2} (now : Nat)
    (hcur : laneAt c.currentLaneIndex = some cur) : ∃ m, updateSignals c now = some m := by
  cases hst : (c.lanes cur).currentState with
  | GREEN => exact ⟨_, updateSignals_of_green now hcur hst⟩
  | YELLOW => exact ⟨_, updateSignals_of_yellow now hcur hst⟩
  | RED => exact ⟨_, updateSignals_of_red now hcur hst⟩

theorem transitionState_totalWaitTime (c : Controller) (l : Option (Fin 2)) (s : SignalState)
    (now : Nat) (j : Fin 2) :
    ((transitionState c l s now).lanes j).totalWaitTime = (c.lanes j).totalWaitTime := by
  cases l with
  | none => rfl
  | some i =>
    cases s
    · rw [transitionState_green_lanes]
      fin_cases i <;> fin_cases j <;> split <;> simp [Function.update, greenLane]
    · rw [transitionState_yellow_lanes]
      fin_cases i <;> fin_cases j <;> simp [Function.update]
    · rw [transitionState_red_lanes]
      fin_cases i <;> fin_cases j <;> simp [Function.update]

theorem updateSignals_totalWaitTime {c d : Controller} {now : Nat}
    (h : updateSignals c now = some d) (j : Fin 2) :
    (d.lanes j).totalWaitTime = (c.lanes j).totalWaitTime := by
  cases hcur : laneAt c.currentLaneIndex with
  | none => simp [updateSignals, hcur] at h
  | some cur =>
    cases hst : (c.lanes cur).currentState with
    | GREEN =>
      rw [updateSignals_of_green now hcur hst] at h
      cases h
      split
      · exact transitionState_totalWaitTime _ _ _ _ _
      · rfl
    | YELLOW =>
      rw [updateSignals_of_yellow now hcur hst] at h
      cases h
      split
      · rw [transitionState_totalWaitTime]
        exact transitionState_totalWaitTime c (some cur) .RED now j
      · rfl
    | RED =>
      rw [updateSignals_of_red now hcur hst] at h
      cases h
      rfl

theorem checkSerialInterface_rest (c : Controller) (command : Option Char) :
    (checkSerialInterface c command).currentLaneIndex = c.currentLaneIndex ∧
    (checkSerialInterface c command).nextLogTime = c.nextLogTime ∧
    (checkSerialInterface c command).pins = c.pins := by
  unfold checkSerialInterface
  cases command with
  | none => exact ⟨rfl, rfl, rfl⟩
  | some ch => by_cases hs : ch = 's' <;> simp [hs, serialPrint]

/-- Claim C16, amended (log gating).  For every controller state with a valid
`currentLaneIndex`, all clock readings of the pass and all button reads
released within the reads the pass may make, a pass of `loop` finishes; let
`s` be the state after the state machine and the detector.  If the reading
`nowGate`, taken after the detector, is at least `nextLogTime` (the value
before the pass), the pass runs `logData` on `s` and sets `nextLogTime` to the
`unsigned long` sum of the reading `nowDeadline`, taken after `logData`, and
10000, that is `(nowDeadline + 10000) mod 2^32`: the number
`nowDeadline + 10000` whenever that sum is below `2^32`, and the reading
`millis (T + 10000)` when `nowDeadline` is the reading `millis T`.  If
`nowGate` is below
`nextLogTime` the pass does not run `logData`: `nextLogTime` and the total
wait times of both lanes are the ones before the pass. -/
theorem log_gating (fuel : Nat) (inp : TickInput) (c : Controller) (cur : Fin 2) (jA jB : Nat)
    (hcur : laneAt c.currentLaneIndex = some cur)
    (hA : inp.btnA jA = HIGH) (hB : inp.btnB jB = HIGH) (hfA : jA ≤ fuel) (hfB : jB ≤ fuel) :
    ∃ m s d, updateSignals c inp.now = some m ∧
      checkTrafficSensors fuel inp.btnA inp.btnB m = some s ∧
      loop fuel inp c = some d ∧
      (inp.nowGate ≥ c.nextLogTime →
        d = checkSerialInterface
          { logData s inp.nowLog with
            nextLogTime := addULong inp.nowDeadline LOGGING_INTERVAL }
          inp.command ∧
        d.nextLogTime = (inp.nowDeadline + 10000) % 4294967296 ∧
        (inp.nowDeadline + 10000 < 4294967296 → d.nextLogTime = inp.nowDeadline + 10000) ∧
        (∀ T, inp.nowDeadline = millis T → d.nextLogTime = millis (T + 10000))) ∧
      (inp.nowGate < c.nextLogTime →
        d = checkSerialInterface s inp.command ∧
        d.nextLogTime = c.nextLogTime ∧
        ∀ i, (d.lanes i).totalWaitTime = (c.lanes i).totalWaitTime) := by
  obtain ⟨m, hm⟩ := updateSignals_isSome inp.now hcur
  obtain ⟨s, hs⟩ : ∃ s, checkTrafficSensors fuel inp.btnA inp.btnB m = some s :=
    ⟨_, checkTrafficSensors_of_released fuel inp.btnA inp.btnB m jA jB hA hB hfA hfB⟩
  have hcounts := checkTrafficSensors_countsOnly hs
  have hnext : ∀ s : Controller, CountsOnly m s → s.nextLogTime = c.nextLogTime :=
    fun s h => h.2.2.1.trans (updateSignals_nextLogTime hm)
  have hloop : loop fuel inp c = some (checkSerialInterface
      (if inp.nowGate ≥ s.nextLogTime then
        { logData s inp.nowLog with
          nextLogTime := addULong inp.nowDeadline LOGGING_INTERVAL }
      else s) inp.command) := by
    simp only [loop, hm, hs]
  refine ⟨m, s, _, hm, hs, hloop, ?_, ?_⟩
  · intro hge
    rw [← hnext _ hcounts] at hge
    rw [if_pos hge]
    refine ⟨rfl, ?_, fun hlt => ?_, fun T hT => ?_⟩
    · rw [(checkSerialInterface_rest _ _).2.1]
      rfl
    · rw [(checkSerialInterface_rest _ _).2.1]
      show (inp.nowDeadline + 10000) % 4294967296 = inp.nowDeadline + 10000
      exact Nat.mod_eq_of_lt hlt
    · rw [(checkSerialInterface_rest _ _).2.1]
      show addULong inp.nowDeadline 10000 = millis (T + 10000)
      rw [hT]
      exact addULong_millis T 10000
  · intro hlt
    rw [← hnext _ hcounts] at hlt
    rw [if_neg (Nat.not_le.mpr hlt)]
    refine ⟨rfl, ?_, fun i => ?_⟩
    · rw [(checkSerialInterface_rest _ _).2.1]
      exact hnext _ hcounts
    · rw [checkSerialInterface_lanes, hcounts.1 i]
      exact updateSignals_totalWaitTime hm i

/-- Witness for `log_gating`: after `setup` at 0 the next log time is 10000; a
quiet pass at 10000 runs the logger and sets the next log time to 20000. -/
theorem log_gating_witness :
    laneAt (setup 0).currentLaneIndex = some 0 ∧
    (quiet 10000).nowGate ≥ (setup 0).nextLogTime ∧
    ∃ d, loop 1 (quiet 10000) (setup 0) = some d ∧ d.nextLogTime = 20000 := by
  obtain ⟨m, s, d, _, _, hd, hrun, _⟩ :=
    log_gating 1 (quiet 10000) (setup 0) 0 0 0 rfl rfl rfl (by decide) (by decide)
  obtain ⟨_, _, h3, _⟩ := hrun (by decide)
  exact ⟨rfl, by decide, d, hd, h3 (by decide)⟩

/-! ## Leaving the red phase -/

/-- When the current lane is not red and a step of the state machine takes
lane `L` out of red, the step is the hand-over at the end of the yellow phase
of the current lane, which is red afterwards. -/
theorem updateSignals_leaves_red {c d : Controller} {cur L : Fin 2} {now : Nat}
    (hcur : laneAt c.currentLaneIndex = some cur)
    (hmoving : (c.lanes cur).currentState ≠ .RED)
    (h : updateSignals c now = some d)
    (hred : (c.lanes L).currentState = .RED) (hout : (d.lanes L).currentState ≠ .RED) :
    L = otherLane cur ∧ (c.lanes cur).currentState = .YELLOW ∧
      subULong now (c.lanes cur).startTime ≥ 2000 ∧ (d.lanes cur).currentState = .RED := by
  have hL : L ≠ cur := by
    intro e
    rw [e] at hred
    exact hmoving hred
  have hLo : L = otherLane cur := eq_otherLane_of_ne hL
  cases hst : (c.lanes cur).currentState with
  | GREEN =>
    rw [updateSignals_of_green now hcur hst] at h
    cases h
    exfalso
    apply hout
    split
    · rw [transitionState_yellow_lanes]
      simp [Function.update, hL, hred]
    · exact hred
  | YELLOW =>
    rw [updateSignals_of_yellow now hcur hst] at h
    cases h
    by_cases hto : subULong now (c.lanes cur).startTime ≥ 2000
    · refine ⟨hLo, rfl, hto, ?_⟩
      rw [if_pos hto, transitionState_green_lanes]
      fin_cases cur <;> split <;>
        simp [transitionState_red_lanes, Function.update, greenLane, otherLane]
    · rw [if_neg hto] at hout
      exact absurd hred hout
  | RED => exact absurd hst hmoving

theorem otherLane_otherLane (i : Fin 2) : otherLane (otherLane i) = i := by
  fin_cases i <;> simp [otherLane]

/-- Claim C19 (STOP is left only by hand-over).  For every controller state
satisfying the mutual-exclusion invariant and every clock reading `now`,
`updateSignals` returns a state, and if a lane is RED before the step and not
RED after it, then the other lane was YELLOW before the step with
`now - startTime >= 2000` in `unsigned long` arithmetic and is RED after it.
And in every state whose current lane is RED, the step changes nothing. -/
theorem stop_left_only_by_handover (c : Controller) (now : Nat) :
    (MutualExclusion c →
      ∃ d, updateSignals c now = some d ∧
        ∀ L : Fin 2, (c.lanes L).currentState = .RED → (d.lanes L).currentState ≠ .RED →
          (c.lanes (otherLane L)).currentState = .YELLOW ∧
          subULong now (c.lanes (otherLane L)).startTime ≥ 2000 ∧
          (d.lanes (otherLane L)).currentState = .RED) ∧
    (∀ cur, laneAt c.currentLaneIndex = some cur → (c.lanes cur).currentState = .RED →
      updateSignals c now = some c) := by
  refine ⟨fun hm => ?_, fun cur hcur hred => updateSignals_of_red now hcur hred⟩
  have key : ∃ cur, laneAt c.currentLaneIndex = some cur ∧ (c.lanes cur).currentState ≠ .RED := by
    rcases hm with ⟨hi, hmv, _⟩ | ⟨hi, hmv, _⟩
    · refine ⟨0, by simp [hi, laneAt], ?_⟩
      rcases hmv with h | h <;> rw [h] <;> decide
    · refine ⟨1, by simp [hi, laneAt], ?_⟩
      rcases hmv with h | h <;> rw [h] <;> decide
  obtain ⟨cur, hcur, hmoving⟩ := key
  obtain ⟨d, hd⟩ := updateSignals_isSome now hcur
  refine ⟨d, hd, fun L hred hout => ?_⟩
  obtain ⟨hL, hy, hto, hr⟩ := updateSignals_leaves_red hcur hmoving hd hred hout
  rw [hL, otherLane_otherLane]
  exact ⟨hy, hto, hr⟩

/-- Witness for `stop_left_only_by_handover`: `laneAYellow` satisfies mutual
exclusion with lane 1 RED; the step at 6000 takes lane 1 out of RED and leaves
lane 0 RED. -/
theorem stop_left_only_by_handover_witness :
    MutualExclusion laneAYellow ∧
    ∃ d, updateSignals laneAYellow 6000 = some d ∧ (d.lanes 1).currentState = .GREEN ∧
      (d.lanes 0).currentState = .RED := by
  have hm : MutualExclusion laneAYellow := Or.inl ⟨rfl, Or.inr rfl, rfl⟩
  obtain ⟨d, hd, hall⟩ := (stop_left_only_by_handover laneAYellow 6000).1 hm
  have hfields : (updateSignals laneAYellow 6000).map (fun d => (d.lanes 1).currentState) =
      some .GREEN := by decide
  rw [hd] at hfields
  simp only [Option.map_some', Option.some.injEq] at hfields
  have hout : (d.lanes 1).currentState ≠ .RED := by rw [hfields]; decide
  exact ⟨hm, d, hd, hfields, (hall 1 rfl hout).2.2⟩

/-! ## Lamps -/

theorem sameLamps_trans {c d e : Controller} (h1 : SameLamps c d) (h2 : SameLamps d e) :
    SameLamps c e := by
  refine ⟨h2.1.trans h1.1, fun i => ?_⟩
  obtain ⟨a1, a2, a3, a4⟩ := h1.2 i
  obtain ⟨b1, b2, b3, b4⟩ := h2.2 i
  exact ⟨b1.trans a1, b2.trans a2, b3.trans a3, b4.trans a4⟩

theorem sameLamps_of_countsOnly {c d : Controller} (h : CountsOnly c d) : SameLamps c d := by
  refine ⟨h.2.2.2.1, fun i => ?_⟩
  rw [h.1 i]
  exact ⟨rfl, rfl, rfl, rfl⟩

theorem logData_sameLamps (c : Controller) (now : Nat) : SameLamps c (logData c now) := by
  refine ⟨(logData_rest c now).2.2, fun i => ?_⟩
  rw [logData_lanes]
  unfold accrueWait
  split <;> exact ⟨rfl, rfl, rfl, rfl⟩

theorem checkSerialInterface_sameLamps (c : Controller) (command : Option Char) :
    SameLamps c (checkSerialInterface c command) := by
  refine ⟨(checkSerialInterface_rest c command).2.2, fun i => ?_⟩
  rw [checkSerialInterface_lanes]
  exact ⟨rfl, rfl, rfl, rfl⟩

theorem loop_sameLamps {fuel : Nat} {inp : TickInput} {c d : Controller}
    (h : loop fuel inp c = some d) :
    ∃ m, updateSignals c inp.now = some m ∧ SameLamps m d := by
  obtain ⟨m, s, hm, hs, hd⟩ := loop_eq_some h
  refine ⟨m, hm, ?_⟩
  rw [hd]
  refine sameLamps_trans (sameLamps_of_countsOnly (checkTrafficSensors_countsOnly hs))
    (sameLamps_trans ?_ (checkSerialInterface_sameLamps _ _))
  split
  · exact sameLamps_trans (logData_sameLamps s inp.nowLog) ⟨rfl, fun _ => ⟨rfl, rfl, rfl, rfl⟩⟩
  · exact ⟨rfl, fun _ => ⟨rfl, rfl, rfl, rfl⟩⟩

theorem pinsConfigured_of_sameLamps {c d : Controller} (h : SameLamps c d)
    (hp : PinsConfigured c) : PinsConfigured d := by
  obtain ⟨a1, a2, a3, _⟩ := h.2 0
  obtain ⟨b1, b2, b3, _⟩ := h.2 1
  unfold PinsConfigured at *
  rw [a1, a2, a3, b1, b2, b3]
  exact hp

theorem lampsMatch_of_sameLamps {c d : Controller} (h : SameLamps c d)
    (hl : LampsMatch c) : LampsMatch d := by
  intro i
  obtain ⟨a1, a2, a3, a4⟩ := h.2 i
  rw [h.1, a1, a2, a3, a4]
  exact hl i

theorem transitionState_sameLampPins (c : Controller) (l : Option (Fin 2)) (s : SignalState)
    (now : Nat) (j : Fin 2) :
    ((transitionState c l s now).lanes j).redPin = (c.lanes j).redPin ∧
    ((transitionState c l s now).lanes j).yellowPin = (c.lanes j).yellowPin ∧
    ((transitionState c l s now).lanes j).greenPin = (c.lanes j).greenPin := by
  cases l with
  | none => exact ⟨rfl, rfl, rfl⟩
  | some i =>
    cases s
    · rw [transitionState_green_lanes]
      fin_cases i <;> fin_cases j <;> split <;> simp [Function.update, greenLane]
    · rw [transitionState_yellow_lanes]
      fin_cases i <;> fin_cases j <;> simp [Function.update]
    · rw [transitionState_red_lanes]
      fin_cases i <;> fin_cases j <;> simp [Function.update]

theorem transitionState_pinsConfigured (c : Controller) (l : Option (Fin 2)) (s : SignalState)
    (now : Nat) (hp : PinsConfigured c) : PinsConfigured (transitionState c l s now) := by
  obtain ⟨a1, a2, a3⟩ := transitionState_sameLampPins c l s now 0
  obtain ⟨b1, b2, b3⟩ := transitionState_sameLampPins c l s now 1
  unfold PinsConfigured at *
  rw [a1, a2, a3, b1, b2, b3]
  exact hp

/-- Entering yellow keeps the lamps in step with the states. -/
theorem transitionState_yellow_lampsMatch (c : Controller) (i : Fin 2) (now : Nat)
    (hp : PinsConfigured c) (hl : LampsMatch c) :
    LampsMatch (transitionState c (some i) .YELLOW now) := by
  obtain ⟨p1, p2, p3, p4, p5, p6⟩ := hp
  have l0 := hl 0
  have l1 := hl 1
  rw [p1, p2, p3] at l0
  rw [p4, p5, p6] at l1
  intro j
  fin_cases i <;> fin_cases j <;>
    simp [transitionState, digitalWrite, setLane, serialPrint, Function.update, p1, p2, p3, p4,
      p5, p6, A_RED, A_YELLOW, A_GREEN, B_RED, B_YELLOW, B_GREEN, HIGH, LOW] <;>
    simp_all [A_RED, A_YELLOW, A_GREEN, B_RED, B_YELLOW, B_GREEN, HIGH, LOW]

/-- Entering red keeps the lamps in step with the states. -/
theorem transitionState_red_lampsMatch (c : Controller) (i : Fin 2) (now : Nat)
    (hp : PinsConfigured c) (hl : LampsMatch c) :
    LampsMatch (transitionState c (some i) .RED now) := by
  obtain ⟨p1, p2, p3, p4, p5, p6⟩ := hp
  have l0 := hl 0
  have l1 := hl 1
  rw [p1, p2, p3] at l0
  rw [p4, p5, p6] at l1
  intro j
  fin_cases i <;> fin_cases j <;>
    simp [transitionState, digitalWrite, setLane, serialPrint, Function.update, p1, p2, p3, p4,
      p5, p6, A_RED, A_YELLOW, A_GREEN, B_RED, B_YELLOW, B_GREEN, HIGH, LOW] <;>
    simp_all [A_RED, A_YELLOW, A_GREEN, B_RED, B_YELLOW, B_GREEN, HIGH, LOW]

/-- Entering green keeps the lamps in step with the states when the opposing
lane is already red. -/
theorem transitionState_green_lampsMatch (c : Controller) (i : Fin 2) (now : Nat)
    (hp : PinsConfigured c) (hid : LaneIds c) (hl : LampsMatch c)
    (hred : (c.lanes (otherLane i)).currentState = .RED) :
    LampsMatch (transitionState c (some i) .GREEN now) := by
  obtain ⟨p1, p2, p3, p4, p5, p6⟩ := hp
  obtain ⟨i0, i1⟩ := hid
  have l0 := hl 0
  have l1 := hl 1
  rw [p1, p2, p3] at l0
  rw [p4, p5, p6] at l1
  intro j
  fin_cases i <;> fin_cases j <;>
    simp [otherLane] at hred <;>
    simp [transitionState, digitalWrite, setLane, serialPrint, dynamicTiming, Function.update,
      p1, p2, p3, p4, p5, p6, i0, i1, A_RED, A_YELLOW, A_GREEN, B_RED, B_YELLOW, B_GREEN, HIGH,
      LOW] <;>
    simp_all [A_RED, A_YELLOW, A_GREEN, B_RED, B_YELLOW, B_GREEN, HIGH, LOW]

theorem setup_pinsConfigured (now : Nat) : PinsConfigured (setup now) :=
  ⟨rfl, rfl, rfl, rfl, rfl, rfl⟩

theorem setup_lampsMatch (now : Nat) : LampsMatch (setup now) := by
  intro i
  fin_cases i
  · refine ⟨?_, ?_, ?_⟩
    · show (LOW = HIGH ↔ SignalState.GREEN = SignalState.RED); decide
    · show (LOW = HIGH ↔ SignalState.GREEN = SignalState.YELLOW); decide
    · show (HIGH = HIGH ↔ SignalState.GREEN = SignalState.GREEN); decide
  · refine ⟨?_, ?_, ?_⟩
    · show (HIGH = HIGH ↔ SignalState.RED = SignalState.RED); decide
    · show (LOW = HIGH ↔ SignalState.RED = SignalState.YELLOW); decide
    · show (LOW = HIGH ↔ SignalState.RED = SignalState.GREEN); decide

theorem updateSignals_pinsConfigured {c d : Controller} {now : Nat}
    (h : updateSignals c now = some d) (hp : PinsConfigured c) : PinsConfigured d := by
  cases hcur : laneAt c.currentLaneIndex with
  | none => simp [updateSignals, hcur] at h
  | some cur =>
    cases hst : (c.lanes cur).currentState with
    | GREEN =>
      rw [updateSignals_of_green now hcur hst] at h
      cases h
      split
      · exact transitionState_pinsConfigured _ _ _ _ hp
      · exact hp
    | YELLOW =>
      rw [updateSignals_of_yellow now hcur hst] at h
      cases h
      split
      · exact transitionState_pinsConfigured _ _ _ _
          (transitionState_pinsConfigured c (some cur) .RED now hp)
      · exact hp
    | RED =>
      rw [updateSignals_of_red now hcur hst] at h
      cases h
      exact hp

theorem updateSignals_lampsMatch {c d : Controller} {now : Nat}
    (h : updateSignals c now = some d) (hp : PinsConfigured c) (hid : LaneIds c)
    (hl : LampsMatch c) : LampsMatch d := by
  cases hcur : laneAt c.currentLaneIndex with
  | none => simp [updateSignals, hcur] at h
  | some cur =>
    cases hst : (c.lanes cur).currentState with
    | GREEN =>
      rw [updateSignals_of_green now hcur hst] at h
      cases h
      split
      · exact transitionState_yellow_lampsMatch c cur now hp hl
      · exact hl
    | YELLOW =>
      rw [updateSignals_of_yellow now hcur hst] at h
      cases h
      split
      · have hp1 := transitionState_pinsConfigured c (some cur) .RED now hp
        have hl1 := transitionState_red_lampsMatch c cur now hp hl
        have hid1 : LaneIds (transitionState c (some cur) .RED now) :=
          ⟨by rw [transitionState_laneID]; exact hid.1,
            by rw [transitionState_laneID]; exact hid.2⟩
        have hred : ((transitionState c (some cur) .RED now).lanes
            (otherLane (otherLane cur))).currentState = .RED := by
          rw [otherLane_otherLane, transitionState_red_lanes]
          simp
        exact transitionState_green_lampsMatch
          { transitionState c (some cur) .RED now with
            currentLaneIndex := 1 - c.currentLaneIndex }
          (otherLane cur) now hp1 hid1 hl1 hred
      · exact hl
    | RED =>
      rw [updateSignals_of_red now hcur hst] at h
      cases h
      exact hl

/-- In every reachable state the lamp pins are the configured ones and the
lamps are in step with the states. -/
theorem reachable_lamps {c : Controller} (h : Reachable c) :
    PinsConfigured c ∧ LampsMatch c := by
  induction h with
  | setup now => exact ⟨setup_pinsConfigured now, setup_lampsMatch now⟩
  | tick fuel inp hc hstep ih =>
    obtain ⟨m, hm, hs⟩ := loop_sameLamps hstep
    have hid := (reachable_invariant hc).1
    exact ⟨pinsConfigured_of_sameLamps hs (updateSignals_pinsConfigured hm ih.1),
      lampsMatch_of_sameLamps hs (updateSignals_lampsMatch hm ih.1 hid ih.2)⟩

/-- Claim C14 (lamp exclusivity).  In every state reachable from `setup`
through any sequence of passes of `loop`, the lamp pins of lane 0 are 13, 12,
11 and those of lane 1 are 10, 9, 8; for each lane the red pin is `HIGH`
exactly when the lane is RED, the yellow pin exactly when it is YELLOW and the
green pin exactly when it is GREEN; so no two of the three lamp pins of a lane
are `HIGH` together. -/
theorem lamp_exclusivity (c : Controller) (h : Reachable c) :
    PinsConfigured c ∧ LampsMatch c ∧
    ∀ i : Fin 2,
      ¬ (c.pins (c.lanes i).redPin = HIGH ∧ c.pins (c.lanes i).yellowPin = HIGH) ∧
      ¬ (c.pins (c.lanes i).redPin = HIGH ∧ c.pins (c.lanes i).greenPin = HIGH) ∧
      ¬ (c.pins (c.lanes i).yellowPin = HIGH ∧ c.pins (c.lanes i).greenPin = HIGH) := by
  obtain ⟨hp, hl⟩ := reachable_lamps h
  refine ⟨hp, hl, fun i => ?_⟩
  obtain ⟨h1, h2, h3⟩ := hl i
  refine ⟨fun ⟨a, b⟩ => ?_, fun ⟨a, b⟩ => ?_, fun ⟨a, b⟩ => ?_⟩
  · have e1 := h1.mp a
    have e2 := h2.mp b
    rw [e1] at e2
    exact absurd e2 (by decide)
  · have e1 := h1.mp a
    have e2 := h3.mp b
    rw [e1] at e2
    exact absurd e2 (by decide)
  · have e1 := h2.mp a
    have e2 := h3.mp b
    rw [e1] at e2
    exact absurd e2 (by decide)

/-- Witness for `lamp_exclusivity`: in `laneBGreenFive`, reached from `setup`,
lane 1 is GREEN and its green pin 8 is the only one of its lamp pins that is
`HIGH`; lane 0 is RED and its red pin 13 is the only one. -/
theorem lamp_exclusivity_witness :
    Reachable laneBGreenFive ∧ LampsMatch laneBGreenFive ∧
    laneBGreenFive.pins 8 = HIGH ∧ laneBGreenFive.pins 9 = LOW ∧
    laneBGreenFive.pins 10 = LOW ∧ laneBGreenFive.pins 13 = HIGH ∧
    laneBGreenFive.pins 12 = LOW ∧ laneBGreenFive.pins 11 = LOW := by
  have hrun : run 2 (List.replicate 5 (pressB 0) ++ [quiet 4000, quiet 6000]) (setup 0) =
      some laneBGreenFive := eq_some_getD (by decide) powerOn
  have hr : Reachable laneBGreenFive := reachable_run _ (Reachable.setup 0) hrun
  exact ⟨hr, (lamp_exclusivity laneBGreenFive hr).2.1, by decide, by decide, by decide,
    by decide, by decide, by decide⟩

/-- Claim C11 as stated fails.  In `laneACountMax` the count of lane 0 is
2147483647, the largest value of a 32-bit `long`.  A detector pass in which
button A is `LOW` at the first read and then released finishes and leaves the
count −2147483648: the count has not increased by 1. -/
theorem arrival_counting_overflow_counterexample :
    (laneACountMax.lanes 0).vehicleCount = 2147483647 ∧
    pressedOnce 0 = LOW ∧ pressedOnce 1 = HIGH ∧
    checkTrafficSensors 2 pressedOnce (fun _ => HIGH) laneACountMax = some laneACountWrapped ∧
    (laneACountWrapped.lanes 0).vehicleCount = -2147483648 :=
  ⟨by decide, by decide, by decide, eq_some_getD (by decide) powerOn, by decide⟩

/-- Claim C15 as stated fails.  In `waitNearMax` lane 1 is RED since clock
reading 0 with `totalWaitTime = 4294967295`; after `logData` at clock reading 1
its `totalWaitTime` is 0, not `4294967295 + (1 - 0) = 4294967296`: the sum
does not fit in the 32-bit `unsigned long`. -/
theorem lazy_wait_accrual_overflow_counterexample :
    (waitNearMax.lanes 1).currentState = .RED ∧ (waitNearMax.lanes 1).startTime = 0 ∧
    (waitNearMax.lanes 1).totalWaitTime = 4294967295 ∧
    ((logData waitNearMax 1).lanes 1).totalWaitTime = 0 :=
  ⟨by decide, by decide, by decide, by decide⟩

/-! ## Claims C13 and C16 as stated -/

/-- Claim C13 as stated fails.  After `setup` at clock reading 4294967295, the
largest `unsigned long`, `nextLogTime` is 9999, not `4294967295 + 10000`: the
sum `millis() + LOGGING_INTERVAL` does not fit in 32 bits. -/
theorem initial_configuration_wrap_counterexample :
    (setup 4294967295).nextLogTime = 9999 ∧ 9999 ≠ 4294967295 + 10000 :=
  ⟨by decide, by decide⟩

/-- Claim C16 as stated fails, in two ways.  First, the deadline is a 32-bit
sum: after `setup` at 0 (`nextLogTime = 10000`), the quiet pass in which every
clock reading is 4294967295 runs the logger (lane 1, RED since 0, gets the
total wait time 4294967295) and leaves `nextLogTime = 9999`, not
`4294967295 + 10000`; the deadline is then below the clock reading.  Second,
the gate does not use the reading the pass started with: in `heldPass` the
state machine reads 4000, which is below `nextLogTime = 10000`, and turns
lane 0 yellow at 4000; button A is then held, the gate reads 11500, the logger
runs (lane 1 gets the total wait time 11500) and `nextLogTime` becomes 21500,
not `4000 + 10000`. -/
theorem log_gating_counterexample :
    (setup 0).nextLogTime = 10000 ∧
    loop 1 (quiet 4294967295) (setup 0) = some afterWrapPass ∧
    (afterWrapPass.lanes 1).totalWaitTime = 4294967295 ∧
    afterWrapPass.nextLogTime = 9999 ∧ 9999 ≠ 4294967295 + 10000 ∧
    heldPass.now = 4000 ∧ heldPass.now < (setup 0).nextLogTime ∧
    loop 4 heldPass (setup 0) = some afterHeldPass ∧
    (afterHeldPass.lanes 0).currentState = .YELLOW ∧
    (afterHeldPass.lanes 0).startTime = 4000 ∧
    (afterHeldPass.lanes 0).vehicleCount = 1 ∧
    (afterHeldPass.lanes 1).totalWaitTime = 11500 ∧
    afterHeldPass.nextLogTime = 21500 ∧ 21500 ≠ heldPass.now + 10000 :=
  ⟨by decide, eq_some_getD (by decide) powerOn, by decide, by decide, by decide, by decide,
    by decide, eq_some_getD (by decide) powerOn, by decide, by decide, by decide, by decide,
    by decide, by decide⟩

/-! ## Claim C24 -/

/-- Claim C24 (demand monotonicity).  For all counts `a ≤ b` with
`4000 + 500 * b` below `2^32`, and any two lanes holding these counts, the
green duration `dynamicTiming` stores for the count `a` is at most the one it
stores for the count `b`. -/
theorem demand_monotonicity (c d : Controller) (i j : Fin 2) (a b : Nat)
    (ha : (c.lanes i).vehicleCount = a) (hb : (d.lanes j).vehicleCount = b)
    (hab : a ≤ b) (hfit : 4000 + 500 * b < 4294967296) :
    ((dynamicTiming c i).lanes i).greenDuration ≤ ((dynamicTiming d j).lanes j).greenDuration := by
  have h1 : ((dynamicTiming c i).lanes i).greenDuration = greenTime (a : Int) := by
    simp [dynamicTiming, serialPrint, setLane, ha]
  have h2 : ((dynamicTiming d j).lanes j).greenDuration = greenTime (b : Int) := by
    simp [dynamicTiming, serialPrint, setLane, hb]
  rw [h1, h2, greenTime_of_le a (by omega), greenTime_of_le b (by omega)]
  omega

/-- Witness for `demand_monotonicity`: lane 1 with the counts 3 and 30 after
`setup` (green durations 5500 and 15000). -/
theorem demand_monotonicity_witness :
    ((withCountB (setup 0) 3).lanes 1).vehicleCount = (3 : Nat) ∧
    ((withCountB (setup 0) 30).lanes 1).vehicleCount = (30 : Nat) ∧
    ((dynamicTiming (withCountB (setup 0) 3) 1).lanes 1).greenDuration ≤
      ((dynamicTiming (withCountB (setup 0) 30) 1).lanes 1).greenDuration :=
  ⟨by decide, by decide,
    demand_monotonicity (withCountB (setup 0) 3) (withCountB (setup 0) 30) 1 1 3 30
      (by decide) (by decide) (by decide) (by decide)⟩

/-! ## Claim C21 -/

/-- Claim C21 (wait accumulator measures time in STOP), evaluation of the code
at a failing input.  After `setup` at clock reading 0, 22 passes at 0 in each
of which button B is pressed once, and quiet passes at 4000, 6000 and 10000,
lane 0 has been RED since 6000: its time in RED is 4000 and its
`totalWaitTime` is 4000.  After the next quiet pass, at 20000, lane 0 is still
RED, its time in RED is 14000, and its `totalWaitTime` is 18000: the second
log entry has added the whole time since 6000 again. -/
theorem wait_runs_ahead :
    run 2 heavyLoadB (setup 0) = some afterFirstLog ∧
    (afterFirstLog.lanes 0).currentState = .RED ∧ (afterFirstLog.lanes 0).startTime = 6000 ∧
    stopTime 2 0 0 heavyLoadB (setup 0) = 4000 ∧
    (afterFirstLog.lanes 0).totalWaitTime = 4000 ∧
    loop 2 (quiet 20000) afterFirstLog = some afterSecondLog ∧
    Reachable afterSecondLog ∧
    (afterSecondLog.lanes 0).currentState = .RED ∧
    stopTime 2 0 0 (heavyLoadB ++ [quiet 20000]) (setup 0) = 14000 ∧
    (afterSecondLog.lanes 0).totalWaitTime = 18000 := by
  have h1 : run 2 heavyLoadB (setup 0) = some afterFirstLog := eq_some_getD (by decide!) powerOn
  have h2 : loop 2 (quiet 20000) afterFirstLog = some afterSecondLog :=
    eq_some_getD (by decide!) powerOn
  have r1 := reachable_run _ (Reachable.setup 0) h1
  exact ⟨h1, by decide!, by decide!, by decide!, by decide!, h2, Reachable.tick 2 _ r1 h2,
    by decide!, by decide!, by decide!⟩

/-! ## Claim C22 -/

/-- The floor, as far as it holds: a pass made before the green duration of
the current lane has elapsed leaves that lane green, with the start time and
the duration it had.  With a duration of at least `MIN_GREEN_TIME` this covers
every pass made less than `MIN_GREEN_TIME` after the start time. -/
theorem loop_green_stays {fuel : Nat} {inp : TickInput} {c d : Controller} {cur : Fin 2}
    (hcur : laneAt c.currentLaneIndex = some cur) (hg : (c.lanes cur).currentState = .GREEN)
    (hlt : subULong inp.now (c.lanes cur).startTime < (c.lanes cur).greenDuration)
    (h : loop fuel inp c = some d) :
    (d.lanes cur).currentState = .GREEN ∧ (d.lanes cur).startTime = (c.lanes cur).startTime ∧
      (d.lanes cur).greenDuration = (c.lanes cur).greenDuration := by
  obtain ⟨m, hm, hs⟩ := loop_sameSignals h
  rw [updateSignals_of_green inp.now hcur hg, if_neg (Nat.not_le.mpr hlt)] at hm
  cases hm
  exact ⟨(hs.1 cur).2.1.trans hg, (hs.1 cur).2.2.2, (hs.1 cur).2.2.1⟩

/-- The ceiling: from a reachable state, a pass whose clock reading is at
least `MAX_GREEN_TIME` after the start time of a green lane leaves that lane
yellow. -/
theorem loop_green_ends {fuel : Nat} {inp : TickInput} {c d : Controller} {L : Fin 2}
    (hr : Reachable c) (hg : (c.lanes L).currentState = .GREEN)
    (hge : MAX_GREEN_TIME ≤ subULong inp.now (c.lanes L).startTime)
    (h : loop fuel inp c = some d) : (d.lanes L).currentState = .YELLOW := by
  have hcur : laneAt c.currentLaneIndex = some L := by
    rcases (reachable_invariant hr).2 with ⟨hi, _, hred⟩ | ⟨hi, _, hred⟩
    · rw [hi]
      fin_cases L
      · rfl
      · exact absurd (hg.symm.trans hred) (by decide)
    · rw [hi]
      fin_cases L
      · exact absurd (hg.symm.trans hred) (by decide)
      · rfl
  obtain ⟨m, hm, hs⟩ := loop_sameSignals h
  rw [updateSignals_of_green inp.now hcur hg,
    if_pos (le_trans (green_duration_le_max_reachable hr L) hge)] at hm
  cases hm
  rw [(hs.1 L).2.1, transitionState_yellow_lanes]
  simp

/-- Claim C22 (floor and ceiling on green time), evaluation of the code at a
failing input.  After `setup` at clock reading 0, 8589927 passes at 0 in each
of which button B is pressed once, a quiet pass at 4000 and a quiet pass at
6000, lane 1 has entered GREEN at 6000 with `greenDuration = 204`.  After the
next quiet pass, at 6204, which is below `6000 + MIN_GREEN_TIME`, lane 1 is
YELLOW. -/
theorem green_floor_broken :
    run 2 (List.replicate 8589927 (pressB 0) ++ [quiet 4000, quiet 6000]) (setup 0) =
      some laneBGreenWrapped ∧
    Reachable laneBGreenWrapped ∧
    (laneBGreenWrapped.lanes 1).currentState = .GREEN ∧
    (laneBGreenWrapped.lanes 1).startTime = 6000 ∧
    (laneBGreenWrapped.lanes 1).greenDuration = 204 ∧
    loop 2 (quiet 6204) laneBGreenWrapped = some laneBGreenCut ∧
    6204 < 6000 + MIN_GREEN_TIME ∧
    (laneBGreenCut.lanes 1).currentState = .YELLOW := by
  have hrun := run_pressB_replicate 0 (setup 0) rfl rfl (by decide) (by decide)
    [quiet 4000, quiet 6000] 8589927 0 (by decide)
  have h0 : withCountB (setup 0) ((0 : Nat) : Int) = setup 0 := withCountB_self (setup 0)
  rw [h0, show ((0 + 8589927 : Nat) : Int) = 8589927 by decide] at hrun
  have h1 : run 2 [quiet 4000, quiet 6000] (withCountB (setup 0) 8589927) =
      some laneBGreenWrapped := eq_some_getD (by decide) powerOn
  rw [← hrun] at h1
  have h2 : loop 2 (quiet 6204) laneBGreenWrapped = some laneBGreenCut :=
    eq_some_getD (by decide) powerOn
  exact ⟨h1, reachable_run _ (Reachable.setup 0) h1, by decide, by decide, by decide, h2,
    by decide, by decide⟩

/-! ## The wait accumulators do not influence the signals -/

theorem eraseWait_ext {c d : Controller}
    (hl : ∀ j, eraseLane (c.lanes j) = eraseLane (d.lanes j))
    (hi : c.currentLaneIndex = d.currentLaneIndex) (hn : c.nextLogTime = d.nextLogTime)
    (hp : c.pins = d.pins) : eraseWait c = eraseWait d := by
  unfold eraseWait
  rw [hi, hn, hp, funext hl]

theorem transitionState_pins_eraseWait (c : Controller) (l : Option (Fin 2)) (s : SignalState)
    (now : Nat) :
    (transitionState (eraseWait c) l s now).pins = (transitionState c l s now).pins := by
  cases l with
  | none => rfl
  | some i =>
    cases s
    · fin_cases i
      · simp [transitionState, eraseWait, eraseLane, setLane, digitalWrite, serialPrint, dynamicTiming]
      · by_cases h : (c.lanes 1).laneID = (c.lanes 0).laneID
        · simp [transitionState, eraseWait, eraseLane, setLane, digitalWrite, serialPrint, dynamicTiming, h]
        · simp [transitionState, eraseWait, eraseLane, setLane, digitalWrite, serialPrint, dynamicTiming, h]
    · simp [transitionState, eraseWait, eraseLane, setLane, digitalWrite, serialPrint]
    · simp [transitionState, eraseWait, eraseLane, setLane, digitalWrite, serialPrint]

theorem eraseWait_transitionState (c : Controller) (l : Option (Fin 2)) (s : SignalState)
    (now : Nat) :
    eraseWait (transitionState c l s now) = eraseWait (transitionState (eraseWait c) l s now) := by
  refine eraseWait_ext ?_ ?_ ?_ (transitionState_pins_eraseWait c l s now).symm
  · intro j
    cases l with
    | none => rfl
    | some i =>
      cases s
      · rw [transitionState_green_lanes, transitionState_green_lanes]
        fin_cases i <;> fin_cases j <;> simp [eraseWait, eraseLane, greenLane, Function.update] <;>
          split <;> simp
      · rw [transitionState_yellow_lanes, transitionState_yellow_lanes]
        fin_cases i <;> fin_cases j <;> simp [eraseWait, eraseLane, Function.update]
      · rw [transitionState_red_lanes, transitionState_red_lanes]
        fin_cases i <;> fin_cases j <;> simp [eraseWait, eraseLane, Function.update]
  · rw [transitionState_index, transitionState_index]; rfl
  · rw [transitionState_nextLogTime, transitionState_nextLogTime]; rfl

theorem eraseLane_fields {l m : TrafficLane} (h : eraseLane l = eraseLane m) :
    l.laneID = m.laneID ∧ l.redPin = m.redPin ∧ l.yellowPin = m.yellowPin ∧
    l.greenPin = m.greenPin ∧ l.buttonPin = m.buttonPin ∧ l.vehicleCount = m.vehicleCount ∧
    l.currentState = m.currentState ∧ l.greenDuration = m.greenDuration ∧
    l.startTime = m.startTime := by
  simp only [eraseLane, TrafficLane.mk.injEq] at h
  exact ⟨h.1, h.2.1, h.2.2.1, h.2.2.2.1, h.2.2.2.2.1, h.2.2.2.2.2.1, h.2.2.2.2.2.2.1,
    h.2.2.2.2.2.2.2.1, h.2.2.2.2.2.2.2.2.1⟩

theorem eraseWait_fields {c d : Controller} (h : eraseWait c = eraseWait d) :
    (∀ j, eraseLane (c.lanes j) = eraseLane (d.lanes j)) ∧
    c.currentLaneIndex = d.currentLaneIndex ∧ c.nextLogTime = d.nextLogTime ∧
    c.pins = d.pins := by
  have h1 := congrArg Controller.lanes h
  have h2 := congrArg Controller.currentLaneIndex h
  have h3 := congrArg Controller.nextLogTime h
  have h4 := congrArg Controller.pins h
  exact ⟨fun j => congrFun h1 j, h2, h3, h4⟩

theorem sameButWait_iff (c d : Controller) : SameButWait c d ↔ eraseWait c = eraseWait d := by
  constructor
  · intro h
    refine eraseWait_ext (fun j => ?_) h.2.1.symm h.2.2.1.symm h.2.2.2.symm
    rw [h.1 j]
    rfl
  · intro h
    obtain ⟨hl, hi, hn, hp⟩ := eraseWait_fields h
    refine ⟨fun j => ?_, hi.symm, hn.symm, hp.symm⟩
    obtain ⟨e1, e2, e3, e4, e5, e6, e7, e8, e9⟩ := eraseLane_fields (hl j)
    dsimp only
    rw [e1, e2, e3, e4, e5, e6, e7, e8, e9]

theorem transitionState_respects {c d : Controller} (h : eraseWait c = eraseWait d)
    (l : Option (Fin 2)) (s : SignalState) (now : Nat) :
    eraseWait (transitionState c l s now) = eraseWait (transitionState d l s now) := by
  rw [eraseWait_transitionState c, h, ← eraseWait_transitionState d]

theorem setIndex_respects {c d : Controller} (h : eraseWait c = eraseWait d) (k : Int) :
    eraseWait { c with currentLaneIndex := k } = eraseWait { d with currentLaneIndex := k } := by
  obtain ⟨hl, _, hn, hp⟩ := eraseWait_fields h
  exact eraseWait_ext hl rfl hn hp

theorem setNextLogTime_respects {c d : Controller} (h : eraseWait c = eraseWait d) (t : Nat) :
    eraseWait { c with nextLogTime := t } = eraseWait { d with nextLogTime := t } := by
  obtain ⟨hl, hi, _, hp⟩ := eraseWait_fields h
  exact eraseWait_ext hl hi rfl hp

theorem setLane_respects {c d : Controller} (h : eraseWait c = eraseWait d) (i : Fin 2)
    (l m : TrafficLane)
    (hlm : eraseLane l = eraseLane m) :
    eraseWait (setLane c i l) = eraseWait (setLane d i m) := by
  obtain ⟨hl, hi, hn, hp⟩ := eraseWait_fields h
  refine eraseWait_ext (fun j => ?_) hi hn hp
  by_cases hj : j = i
  · subst hj
    simpa [setLane] using hlm
  · simpa [setLane, Function.update, hj] using hl j

theorem updateSignals_respects {c d : Controller} (h : eraseWait c = eraseWait d) (now : Nat) :
    (updateSignals c now).map eraseWait = (updateSignals d now).map eraseWait := by
  obtain ⟨hl, hi, _, _⟩ := eraseWait_fields h
  cases hcur : laneAt d.currentLaneIndex with
  | none => simp [updateSignals, hi, hcur]
  | some cur =>
    have hcurc : laneAt c.currentLaneIndex = some cur := hi ▸ hcur
    have hst : (c.lanes cur).currentState = (d.lanes cur).currentState :=
      (eraseLane_fields (hl cur)).2.2.2.2.2.2.1
    have htm : (c.lanes cur).startTime = (d.lanes cur).startTime :=
      (eraseLane_fields (hl cur)).2.2.2.2.2.2.2.2
    have hdu : (c.lanes cur).greenDuration = (d.lanes cur).greenDuration :=
      (eraseLane_fields (hl cur)).2.2.2.2.2.2.2.1
    cases hs : (d.lanes cur).currentState with
    | GREEN =>
      rw [updateSignals_of_green now hcurc (hst.trans hs), updateSignals_of_green now hcur hs,
        htm, hdu]
      split
      · exact congrArg some (transitionState_respects h _ _ _)
      · exact congrArg some h
    | YELLOW =>
      rw [updateSignals_of_yellow now hcurc (hst.trans hs), updateSignals_of_yellow now hcur hs,
        htm, hi]
      split
      · exact congrArg some (transitionState_respects
          (setIndex_respects (transitionState_respects h _ _ _) _) _ _ _)
      · exact congrArg some h
    | RED =>
      rw [updateSignals_of_red now hcurc (hst.trans hs), updateSignals_of_red now hcur hs]
      exact congrArg some h

theorem checkButton_respects {c d : Controller} (h : eraseWait c = eraseWait d) (fuel : Nat)
    (btn : Nat → Bool) (i : Fin 2) :
    (checkButton fuel btn i c).map eraseWait = (checkButton fuel btn i d).map eraseWait := by
  obtain ⟨hl, _, _, _⟩ := eraseWait_fields h
  have hv : (c.lanes i).vehicleCount = (d.lanes i).vehicleCount :=
    (eraseLane_fields (hl i)).2.2.2.2.2.1
  have hset : eraseWait (setLane c i
      { c.lanes i with vehicleCount := wrapLong ((c.lanes i).vehicleCount + 1) }) =
      eraseWait (setLane d i
        { d.lanes i with vehicleCount := wrapLong ((d.lanes i).vehicleCount + 1) }) := by
    refine setLane_respects h i _ _ ?_
    have e := hl i
    simp only [eraseLane, TrafficLane.mk.injEq] at e ⊢
    simp [e, hv]
  unfold checkButton
  by_cases hb : btn 0 = LOW
  · simp only [hb, if_true]
    cases waitRelease btn fuel 1 with
    | none => rfl
    | some _ => exact congrArg some hset
  · simp only [hb, if_false]
    exact congrArg some h

theorem map_eraseWait_cases {a b : Option Controller}
    (h : a.map eraseWait = b.map eraseWait) :
    (a = none ∧ b = none) ∨ ∃ x y, a = some x ∧ b = some y ∧ eraseWait x = eraseWait y := by
  cases a with
  | none =>
    cases b with
    | none => exact Or.inl ⟨rfl, rfl⟩
    | some y => simp at h
  | some x =>
    cases b with
    | none => simp at h
    | some y => exact Or.inr ⟨x, y, rfl, rfl, by simpa using h⟩

theorem checkTrafficSensors_respects {c d : Controller} (h : eraseWait c = eraseWait d)
    (fuel : Nat) (btnA btnB : Nat → Bool) :
    (checkTrafficSensors fuel btnA btnB c).map eraseWait =
      (checkTrafficSensors fuel btnA btnB d).map eraseWait := by
  unfold checkTrafficSensors
  rcases map_eraseWait_cases (checkButton_respects h fuel btnA 0) with ⟨h1, h2⟩ | ⟨x, y, h1, h2, e⟩
  · rw [h1, h2]
  · rw [h1, h2]
    exact checkButton_respects e fuel btnB 1

theorem logLane_respects {c d : Controller} (h : eraseWait c = eraseWait d) (i : Fin 2)
    (now : Nat) : eraseWait (logLane c i now) = eraseWait (logLane d i now) := by
  obtain ⟨hl, _, _, _⟩ := eraseWait_fields h
  have hst : (c.lanes i).currentState = (d.lanes i).currentState :=
    (eraseLane_fields (hl i)).2.2.2.2.2.2.1
  have hp : ∀ (x : Controller) (items : List SerialItem),
      eraseWait (serialPrint x items) = eraseWait x := fun _ _ => rfl
  unfold logLane
  simp only [hp]
  by_cases hr : (d.lanes i).currentState = .RED
  · rw [if_pos (hst.trans hr), if_pos hr]
    exact setLane_respects h i _ _ (hl i)
  · rw [if_neg (fun hc => hr (hst.symm.trans hc)), if_neg hr]
    exact h

theorem logData_respects {c d : Controller} (h : eraseWait c = eraseWait d) (now : Nat) :
    eraseWait (logData c now) = eraseWait (logData d now) := by
  have hp : ∀ (x : Controller) (items : List SerialItem),
      eraseWait (serialPrint x items) = eraseWait x := fun _ _ => rfl
  unfold logData
  simp only [hp]
  exact logLane_respects (logLane_respects (by simpa only [hp] using h) 0 now) 1 now

theorem eraseWait_checkSerialInterface (c : Controller) (command : Option Char) :
    eraseWait (checkSerialInterface c command) = eraseWait c := by
  cases command with
  | none => rfl
  | some ch =>
    unfold checkSerialInterface
    simp only []
    split <;> rfl

theorem loop_respects {c d : Controller} (h : eraseWait c = eraseWait d) (fuel : Nat)
    (inp : TickInput) :
    (loop fuel inp c).map eraseWait = (loop fuel inp d).map eraseWait := by
  unfold loop
  rcases map_eraseWait_cases (updateSignals_respects h inp.now) with
    ⟨h1, h2⟩ | ⟨x, y, h1, h2, e⟩
  · rw [h1, h2]
  · rw [h1, h2]
    simp only []
    rcases map_eraseWait_cases (checkTrafficSensors_respects e fuel inp.btnA inp.btnB) with
      ⟨h3, h4⟩ | ⟨u, v, h3, h4, e2⟩
    · rw [h3, h4]
    · rw [h3, h4]
      simp only [Option.map_some', eraseWait_checkSerialInterface, Option.some.injEq]
      rw [(eraseWait_fields e2).2.2.1]
      split
      · exact setNextLogTime_respects (logData_respects e2 inp.nowLog) _
      · exact e2

theorem run_respects (fuel : Nat) (inps : List TickInput) :
    ∀ {c d : Controller}, eraseWait c = eraseWait d →
      (run fuel inps c).map eraseWait = (run fuel inps d).map eraseWait := by
  induction inps with
  | nil => intro c d h; exact congrArg some h
  | cons inp rest ih =>
    intro c d h
    simp only [run]
    rcases map_eraseWait_cases (loop_respects h fuel inp) with ⟨h1, h2⟩ | ⟨x, y, h1, h2, e⟩
    · rw [h1, h2]
    · rw [h1, h2]
      exact ih e

/-! ## Claim C23 -/

/-- Claim C23 (the wait accumulators are reporting-only).  For any two
controller states that differ at most in the `totalWaitTime` fields of the
lanes (and in the text written to `Serial` so far) and any list of passes of
`loop` with the same clock readings, button reads and command bytes, either
both runs fail to finish, or both finish and the final states agree on the
state, vehicle count, green duration and start time of both lanes, on
`currentLaneIndex`, on `nextLogTime` and on the level of every pin.  The list
of passes is arbitrary, so the agreement holds after every pass of a run. -/
theorem wait_noninterference (fuel : Nat) (inps : List TickInput) (c d : Controller)
    (h : SameButWait c d) :
    (run fuel inps c = none ∧ run fuel inps d = none) ∨
    ∃ c1 d1, run fuel inps c = some c1 ∧ run fuel inps d = some d1 ∧
      (∀ i : Fin 2, (d1.lanes i).currentState = (c1.lanes i).currentState ∧
        (d1.lanes i).vehicleCount = (c1.lanes i).vehicleCount ∧
        (d1.lanes i).greenDuration = (c1.lanes i).greenDuration ∧
        (d1.lanes i).startTime = (c1.lanes i).startTime) ∧
      d1.currentLaneIndex = c1.currentLaneIndex ∧ d1.nextLogTime = c1.nextLogTime ∧
      d1.pins = c1.pins := by
  rcases map_eraseWait_cases (run_respects fuel inps ((sameButWait_iff c d).mp h)) with
    h1 | ⟨x, y, h1, h2, e⟩
  · exact Or.inl h1
  · obtain ⟨hl, hi, hn, hp⟩ := eraseWait_fields e
    exact Or.inr ⟨x, y, h1, h2,
      fun i => ⟨(eraseLane_fields (hl i)).2.2.2.2.2.2.1.symm,
        (eraseLane_fields (hl i)).2.2.2.2.2.1.symm,
        (eraseLane_fields (hl i)).2.2.2.2.2.2.2.1.symm,
        (eraseLane_fields (hl i)).2.2.2.2.2.2.2.2.symm⟩, hi.symm, hn.symm, hp.symm⟩

/-- Witness for `wait_noninterference`: the state after `setup` at 1000 and
`waitingLaneB`, which differs from it in the total wait time of lane 1 only,
under quiet passes at 5000 and 11000, the second of which writes a log entry. -/
theorem wait_noninterference_witness :
    SameButWait (setup 1000) waitingLaneB ∧
    ((run 2 [quiet 5000, quiet 11000] (setup 1000) = none ∧
        run 2 [quiet 5000, quiet 11000] waitingLaneB = none) ∨
      ∃ c1 d1, run 2 [quiet 5000, quiet 11000] (setup 1000) = some c1 ∧
        run 2 [quiet 5000, quiet 11000] waitingLaneB = some d1 ∧
        (∀ i : Fin 2, (d1.lanes i).currentState = (c1.lanes i).currentState ∧
          (d1.lanes i).vehicleCount = (c1.lanes i).vehicleCount ∧
          (d1.lanes i).greenDuration = (c1.lanes i).greenDuration ∧
          (d1.lanes i).startTime = (c1.lanes i).startTime) ∧
        d1.currentLaneIndex = c1.currentLaneIndex ∧ d1.nextLogTime = c1.nextLogTime ∧
        d1.pins = c1.pins) :=
  have hs : SameButWait (setup 1000) waitingLaneB :=
    ⟨fun i => by fin_cases i <;> rfl, rfl, rfl, rfl⟩
  ⟨hs, wait_noninterference 2 [quiet 5000, quiet 11000] (setup 1000) waitingLaneB hs⟩

end SmartTraffic

/-! ## Array loops: lemmas -/

namespace ArrayLoops

variable {α : Type}

theorem swapAdjacent_length (dflt : α) (data : List α) (j : Nat) :
    (swapAdjacent dflt data j).length = data.length := by
  simp [swapAdjacent]

theorem swapAdjacent_perm (dflt : α) : ∀ (data : List α) (j : Nat), j + 1 < data.length →
    (swapAdjacent dflt data j).Perm data
  | [], _, h => by simp at h
  | [_], _, h => by simp at h
  | a :: b :: rest, 0, _ => by
    simpa [swapAdjacent] using List.Perm.swap a b rest
  | a :: b :: rest, j + 1, h => by
    have ih := swapAdjacent_perm dflt (b :: rest) j (by simpa using h)
    simpa [swapAdjacent] using ih

theorem swapAdjacent_getD (dflt : α) (data : List α) (j k : Nat) (h : j + 1 < data.length) :
    (swapAdjacent dflt data j).getD k dflt =
      if k = j then data.getD (j + 1) dflt else if k = j + 1 then data.getD j dflt
      else data.getD k dflt := by
  have hj : j < data.length := by omega
  simp only [swapAdjacent, List.getD_eq_getElem?_getD, List.getElem?_set, List.length_set]
  by_cases h1 : k = j
  · subst h1
    simp [h, hj]
  · by_cases h2 : k = j + 1
    · subst h2
      simp [h, hj]
    · simp [h1, h2, Ne.symm h1, Ne.symm h2]

/-- State of the array after the first `m` iterations of an inner loop started
on `orig`: the same elements, positions above `m` untouched, positions up to
`m` filled from positions up to `m`, and position `m` in order after every
position before it. -/
theorem bubblePrefix_inv (dflt : α) (outOfOrder : α → α → Prop) [DecidableRel outOfOrder]
    (r : α → α → Prop) (hr1 : ∀ x y, ¬ outOfOrder x y → r x y)
    (hr2 : ∀ x y, outOfOrder x y → r y x) (htrans : ∀ x y z, r x y → r y z → r x z)
    (orig : List α) :
    ∀ m, m < orig.length →
      ((List.range m).foldl (bubbleStep dflt outOfOrder) orig).length = orig.length ∧
      ((List.range m).foldl (bubbleStep dflt outOfOrder) orig).Perm orig ∧
      (∀ k, m < k → ((List.range m).foldl (bubbleStep dflt outOfOrder) orig).getD k dflt =
        orig.getD k dflt) ∧
      (∀ a, a ≤ m → ∃ k, k ≤ m ∧
        ((List.range m).foldl (bubbleStep dflt outOfOrder) orig).getD a dflt =
          orig.getD k dflt) ∧
      (∀ a, a < m → r (((List.range m).foldl (bubbleStep dflt outOfOrder) orig).getD a dflt)
        (((List.range m).foldl (bubbleStep dflt outOfOrder) orig).getD m dflt)) := by
  intro m
  induction m with
  | zero =>
    intro _
    refine ⟨rfl, List.Perm.refl _, fun _ _ => rfl, fun a ha => ⟨a, ha, rfl⟩, ?_⟩
    intro a ha
    exact absurd ha (Nat.not_lt_zero a)
  | succ m ih =>
    intro hm
    obtain ⟨hlen, hperm, hab, hfrom, hmax⟩ := ih (by omega)
    rw [List.range_succ, List.foldl_append]
    simp only [List.foldl_cons, List.foldl_nil]
    generalize (List.range m).foldl (bubbleStep dflt outOfOrder) orig = cur at *
    have hcur : m + 1 < cur.length := by omega
    have hnext : cur.getD (m + 1) dflt = orig.getD (m + 1) dflt := hab (m + 1) (by omega)
    unfold bubbleStep
    by_cases hc : outOfOrder (cur.getD m dflt) (cur.getD (m + 1) dflt)
    · rw [if_pos hc]
      refine ⟨(swapAdjacent_length dflt cur m).trans hlen,
        (swapAdjacent_perm dflt cur m hcur).trans hperm, ?_, ?_, ?_⟩
      · intro k hk
        rw [swapAdjacent_getD dflt cur m k hcur, if_neg (by omega), if_neg (by omega)]
        exact hab k (by omega)
      · intro a ha
        rw [swapAdjacent_getD dflt cur m a hcur]
        by_cases h1 : a = m
        · rw [if_pos h1]
          exact ⟨m + 1, Nat.le_refl _, hnext⟩
        · rw [if_neg h1]
          by_cases h2 : a = m + 1
          · rw [if_pos h2]
            obtain ⟨k, hk, e⟩ := hfrom m (Nat.le_refl m)
            exact ⟨k, by omega, e⟩
          · rw [if_neg h2]
            obtain ⟨k, hk, e⟩ := hfrom a (by omega)
            exact ⟨k, by omega, e⟩
      · intro a ha
        have e1 : (swapAdjacent dflt cur m).getD (m + 1) dflt = cur.getD m dflt := by
          rw [swapAdjacent_getD dflt cur m (m + 1) hcur, if_neg (by omega), if_pos rfl]
        rw [e1, swapAdjacent_getD dflt cur m a hcur]
        by_cases h1 : a = m
        · rw [if_pos h1]
          exact hr2 _ _ hc
        · rw [if_neg h1, if_neg (by omega)]
          exact hmax a (by omega)
    · rw [if_neg hc]
      refine ⟨hlen, hperm, fun k hk => hab k (by omega), ?_, ?_⟩
      · intro a ha
        by_cases h1 : a = m + 1
        · subst h1
          exact ⟨m + 1, Nat.le_refl _, hnext⟩
        · obtain ⟨k, hk, e⟩ := hfrom a (by omega)
          exact ⟨k, by omega, e⟩
      · intro a ha
        by_cases h1 : a = m
        · subst h1
          exact hr1 _ _ hc
        · exact htrans _ _ _ (hmax a (by omega)) (hr1 _ _ hc)

/-- State of the array after the first `p` passes of the outer loop over the
first `n` elements: the same elements, positions from `n` on untouched, and
each of the last `p` positions below `n` in order after every position before
it. -/
theorem bubbleLoops_inv (dflt : α) (outOfOrder : α → α → Prop) [DecidableRel outOfOrder]
    (r : α → α → Prop) (hr1 : ∀ x y, ¬ outOfOrder x y → r x y)
    (hr2 : ∀ x y, outOfOrder x y → r y x) (htrans : ∀ x y z, r x y → r y z → r x z)
    (orig : List α) (n : Nat) (hn : n ≤ orig.length) (bound : Nat → Nat)
    (hbound : ∀ i, i + 1 < n → bound i = n - i - 1) :
    ∀ p, p + 1 ≤ n →
      (bubbleLoops dflt outOfOrder p bound orig).length = orig.length ∧
      (bubbleLoops dflt outOfOrder p bound orig).Perm orig ∧
      (∀ k, n ≤ k → (bubbleLoops dflt outOfOrder p bound orig).getD k dflt = orig.getD k dflt) ∧
      (∀ a b, a < b → b < n → n ≤ b + p →
        r ((bubbleLoops dflt outOfOrder p bound orig).getD a dflt)
          ((bubbleLoops dflt outOfOrder p bound orig).getD b dflt)) := by
  intro p
  induction p with
  | zero =>
    intro _
    refine ⟨rfl, List.Perm.refl _, fun _ _ => rfl, ?_⟩
    intro a b _ hb hp
    omega
  | succ p ih =>
    intro hp
    obtain ⟨hlen, hperm, hrest, hsorted⟩ := ih (by omega)
    unfold bubbleLoops at *
    rw [List.range_succ, List.foldl_append]
    simp only [List.foldl_cons, List.foldl_nil]
    generalize (List.range p).foldl
      (fun data i => (List.range (bound i)).foldl (bubbleStep dflt outOfOrder) data) orig =
      cur at *
    rw [hbound p (by omega)]
    obtain ⟨plen, pperm, pab, pfrom, pmax⟩ :=
      bubblePrefix_inv dflt outOfOrder r hr1 hr2 htrans cur (n - p - 1) (by omega)
    generalize (List.range (n - p - 1)).foldl (bubbleStep dflt outOfOrder) cur = new at *
    refine ⟨plen.trans hlen, pperm.trans hperm, ?_, ?_⟩
    · intro k hk
      rw [pab k (by omega)]
      exact hrest k hk
    · intro a b hab hb hbp
      by_cases hbm : b = n - p - 1
      · subst hbm
        exact pmax a hab
      · rw [pab b (by omega)]
        by_cases ham : a ≤ n - p - 1
        · obtain ⟨k, hk, e⟩ := pfrom a ham
          rw [e]
          exact hsorted k b (by omega) hb (by omega)
        · rw [pab a (by omega)]
          exact hsorted a b hab hb (by omega)

/-- Result of the loop nest run on the first `n` elements of a list holding at
least `n` elements, with `n - 1` passes of which the `i`-th makes `n - i - 1`
comparisons: the same elements, positions from `n` on untouched, and the
positions below `n` in order. -/
theorem bubbleLoops_spec (dflt : α) (outOfOrder : α → α → Prop) [DecidableRel outOfOrder]
    (r : α → α → Prop) (hr1 : ∀ x y, ¬ outOfOrder x y → r x y)
    (hr2 : ∀ x y, outOfOrder x y → r y x) (htrans : ∀ x y z, r x y → r y z → r x z)
    (data : List α) (n : Nat) (hn : n ≤ data.length) (passes : Nat) (bound : Nat → Nat)
    (hpasses : passes = n - 1) (hbound : ∀ i, i + 1 < n → bound i = n - i - 1) :
    (bubbleLoops dflt outOfOrder passes bound data).length = data.length ∧
    (bubbleLoops dflt outOfOrder passes bound data).Perm data ∧
    (∀ k, n ≤ k →
      (bubbleLoops dflt outOfOrder passes bound data).getD k dflt = data.getD k dflt) ∧
    (∀ a b, a < b → b < n →
      r ((bubbleLoops dflt outOfOrder passes bound data).getD a dflt)
        ((bubbleLoops dflt outOfOrder passes bound data).getD b dflt)) := by
  subst hpasses
  by_cases h0 : n = 0
  · subst h0
    refine ⟨rfl, List.Perm.refl _, fun _ _ => rfl, ?_⟩
    intro a b hab hb
    omega
  · obtain ⟨hlen, hperm, hrest, hsorted⟩ :=
      bubbleLoops_inv dflt outOfOrder r hr1 hr2 htrans data n hn bound hbound (n - 1) (by omega)
    exact ⟨hlen, hperm, hrest, fun a b hab hb => hsorted a b hab hb (by omega)⟩

theorem pairwise_take_of_getD (dflt : α) (r : α → α → Prop) (l : List α) (n : Nat)
    (hn : n ≤ l.length) (h : ∀ a b, a < b → b < n → r (l.getD a dflt) (l.getD b dflt)) :
    (l.take n).Pairwise r := by
  rw [List.pairwise_iff_getElem]
  intro i j hi hj hij
  have hj2 : j < n := by
    rw [List.length_take] at hj
    omega
  have := h i j hij hj2
  rw [List.getD_eq_getElem _ _ (by omega), List.getD_eq_getElem _ _ (by omega)] at this
  simpa [List.getElem_take] using this

theorem drop_eq_of_getD (dflt : α) (l m : List α) (n : Nat) (hlen : l.length = m.length)
    (h : ∀ k, n ≤ k → l.getD k dflt = m.getD k dflt) : l.drop n = m.drop n := by
  apply List.ext_getElem
  · simp [hlen]
  · intro i h1 h2
    have hi : n + i < l.length := by
      rw [List.length_drop] at h1
      omega
    have := h (n + i) (by omega)
    rw [List.getD_eq_getElem _ _ hi, List.getD_eq_getElem _ _ (by omega)] at this
    simpa [List.getElem_drop] using this

theorem take_perm_of_drop_eq (l m : List α) (n : Nat) (hp : l.Perm m)
    (hd : l.drop n = m.drop n) : (l.take n).Perm (m.take n) := by
  have h : (l.take n ++ l.drop n).Perm (m.take n ++ m.drop n) := by
    simpa [List.take_append_drop] using hp
  rw [hd] at h
  exact (List.perm_append_right_iff _).mp h

/-- The value a search loop over the counter values `s, ..., s + n - 1`
returns: -1 when no value is a hit, otherwise the first hit. -/
theorem returnFirst_rangeFrom (hit : Nat → Bool) : ∀ (n s : Nat),
    (returnFirst hit (List.range' s n) = -1 ∧ ∀ i, s ≤ i → i < s + n → hit i = false) ∨
    ∃ k, s ≤ k ∧ k < s + n ∧ returnFirst hit (List.range' s n) = (k : Int) ∧ hit k = true ∧
      ∀ i, s ≤ i → i < k → hit i = false := by
  intro n
  induction n with
  | zero =>
    intro s
    left
    exact ⟨rfl, fun i h1 h2 => by omega⟩
  | succ n ih =>
    intro s
    rw [List.range'_succ]
    unfold returnFirst
    by_cases hs : hit s = true
    · right
      exact ⟨s, Nat.le_refl s, by omega, by rw [if_pos hs], hs, fun i h1 h2 => by omega⟩
    · rw [if_neg hs]
      rcases ih (s + 1) with ⟨h1, h2⟩ | ⟨k, h1, h2, h3, h4, h5⟩
      · left
        refine ⟨h1, fun i hi1 hi2 => ?_⟩
        by_cases hi : i = s
        · subst hi
          simpa using hs
        · exact h2 i (by omega) (by omega)
      · right
        refine ⟨k, by omega, by omega, h3, h4, fun i hi1 hi2 => ?_⟩
        by_cases hi : i = s
        · subst hi
          simpa using hs
        · exact h5 i (by omega) hi2

/-- The value a search loop over the counter values `0, ..., n - 1` returns. -/
theorem returnFirst_range (hit : Nat → Bool) (n : Nat) :
    (returnFirst hit (List.range n) = -1 ∧ ∀ i, i < n → hit i = false) ∨
    ∃ k, k < n ∧ returnFirst hit (List.range n) = (k : Int) ∧ hit k = true ∧
      ∀ i, i < k → hit i = false := by
  rw [List.range_eq_range']
  rcases returnFirst_rangeFrom hit n 0 with ⟨h1, h2⟩ | ⟨k, _, h2, h3, h4, h5⟩
  · left
    exact ⟨h1, fun i hi => h2 i (Nat.zero_le i) (by omega)⟩
  · right
    exact ⟨k, by omega, h3, h4, fun i hi => h5 i (Nat.zero_le i) hi⟩

end ArrayLoops

namespace ArrayLoops

variable {α : Type}

theorem pairwise_take_iff_getD (dflt : α) (r : α → α → Prop) (l : List α) (n : Nat)
    (hn : n ≤ l.length) :
    (l.take n).Pairwise r ↔ ∀ a b, a < b → b < n → r (l.getD a dflt) (l.getD b dflt) := by
  constructor
  · intro h a b hab hb
    rw [List.pairwise_iff_getElem] at h
    have hlen : (l.take n).length = n := by
      rw [List.length_take]
      omega
    have := h a b (by omega) (by omega) hab
    rw [List.getD_eq_getElem _ _ (by omega), List.getD_eq_getElem _ _ (by omega)]
    simpa [List.getElem_take] using this
  · exact pairwise_take_of_getD dflt r l n hn

theorem mem_take_iff_getD (dflt : α) (l : List α) (n : Nat) (hn : n ≤ l.length) (x : α) :
    x ∈ l.take n ↔ ∃ i, i < n ∧ l.getD i dflt = x := by
  have hlen : (l.take n).length = n := by
    rw [List.length_take]
    omega
  rw [List.mem_iff_getElem]
  constructor
  · rintro ⟨i, hi, e⟩
    refine ⟨i, by omega, ?_⟩
    rw [List.getD_eq_getElem _ _ (by omega)]
    simpa [List.getElem_take] using e
  · rintro ⟨i, hi, e⟩
    refine ⟨i, by omega, ?_⟩
    rw [List.getD_eq_getElem _ _ (by omega)] at e
    simpa [List.getElem_take] using e

end ArrayLoops

/-! ## Sorting and searching in `dynamicmath.c` -/

namespace DynamicMath

theorem sortAsc_spec (data : List Int) (size : Int) (h : size ≤ data.length) :
    (sortAsc data size).length = data.length ∧ (sortAsc data size).Perm data ∧
    (∀ k, size.toNat ≤ k → (sortAsc data size).getD k 0 = data.getD k 0) ∧
    (∀ a b, a < b → b < size.toNat →
      (sortAsc data size).getD a 0 ≤ (sortAsc data size).getD b 0) :=
  ArrayLoops.bubbleLoops_spec 0 (fun a b : Int => a > b) (fun a b => a ≤ b)
    (fun _ _ hxy => Int.not_lt.mp hxy) (fun _ _ hxy => Int.le_of_lt hxy)
    (fun _ _ _ => Int.le_trans) data size.toNat (by omega) (size - 1).toNat
    (fun i => (size - i - 1).toNat) (by omega)
    (fun i hi => by show (size - (i : Int) - 1).toNat = size.toNat - i - 1; omega)

theorem sortDesc_spec (data : List Int) (size : Int) (h : size ≤ data.length) :
    (sortDesc data size).length = data.length ∧ (sortDesc data size).Perm data ∧
    (∀ k, size.toNat ≤ k → (sortDesc data size).getD k 0 = data.getD k 0) ∧
    (∀ a b, a < b → b < size.toNat →
      (sortDesc data size).getD a 0 ≥ (sortDesc data size).getD b 0) :=
  ArrayLoops.bubbleLoops_spec 0 (fun a b : Int => a < b) (fun a b => a ≥ b)
    (fun _ _ hxy => Int.not_lt.mp hxy) (fun _ _ hxy => Int.le_of_lt hxy)
    (fun _ _ _ hxy hyz => Int.le_trans hyz hxy) data size.toNat (by omega) (size - 1).toNat
    (fun i => (size - i - 1).toNat) (by omega)
    (fun i hi => by show (size - (i : Int) - 1).toNat = size.toNat - i - 1; omega)

/-- Claim C25 (sort correctness).  For every list `data` and every `size` not
above its length, `sortAsc data size` leaves the first `size` elements in
non-decreasing order and a permutation of the first `size` elements of `data`,
and `sortDesc data size` leaves them in non-increasing order and a
permutation of them; both leave the elements from position `size` on alone.
A `size` of 0 (or below) is the case `size.toNat = 0`. -/
theorem sort_correctness (data : List Int) (size : Int) (h : size ≤ data.length) :
    ((sortAsc data size).take size.toNat).Sorted (fun a b => a ≤ b) ∧
    ((sortAsc data size).take size.toNat).Perm (data.take size.toNat) ∧
    (sortAsc data size).drop size.toNat = data.drop size.toNat ∧
    ((sortDesc data size).take size.toNat).Sorted (fun a b => a ≥ b) ∧
    ((sortDesc data size).take size.toNat).Perm (data.take size.toNat) ∧
    (sortDesc data size).drop size.toNat = data.drop size.toNat := by
  obtain ⟨al, ap, ar, as⟩ := sortAsc_spec data size h
  obtain ⟨dl, dp, dr, ds⟩ := sortDesc_spec data size h
  have ad := ArrayLoops.drop_eq_of_getD 0 _ _ size.toNat al ar
  have dd := ArrayLoops.drop_eq_of_getD 0 _ _ size.toNat dl dr
  exact ⟨ArrayLoops.pairwise_take_of_getD 0 _ _ _ (by omega) as,
    ArrayLoops.take_perm_of_drop_eq _ _ _ ap ad, ad,
    ArrayLoops.pairwise_take_of_getD 0 _ _ _ (by omega) ds,
    ArrayLoops.take_perm_of_drop_eq _ _ _ dp dd, dd⟩

/-- Witness for `sort_correctness`: the first five elements of
`3, 1, 2, 5, 4, 9`. -/
theorem sort_correctness_witness :
    ((5 : Int) ≤ ([3, 1, 2, 5, 4, 9] : List Int).length) ∧
    ((sortAsc [3, 1, 2, 5, 4, 9] 5).take (5 : Int).toNat).Sorted (fun a b => a ≤ b) ∧
    ((sortAsc [3, 1, 2, 5, 4, 9] 5).take (5 : Int).toNat).Perm
      (([3, 1, 2, 5, 4, 9] : List Int).take (5 : Int).toNat) ∧
    (sortAsc [3, 1, 2, 5, 4, 9] 5).drop (5 : Int).toNat =
      ([3, 1, 2, 5, 4, 9] : List Int).drop (5 : Int).toNat ∧
    ((sortDesc [3, 1, 2, 5, 4, 9] 5).take (5 : Int).toNat).Sorted (fun a b => a ≥ b) ∧
    ((sortDesc [3, 1, 2, 5, 4, 9] 5).take (5 : Int).toNat).Perm
      (([3, 1, 2, 5, 4, 9] : List Int).take (5 : Int).toNat) ∧
    (sortDesc [3, 1, 2, 5, 4, 9] 5).drop (5 : Int).toNat =
      ([3, 1, 2, 5, 4, 9] : List Int).drop (5 : Int).toNat :=
  ⟨by decide, sort_correctness [3, 1, 2, 5, 4, 9] 5 (by decide)⟩

theorem searchVal_spec (data : List Int) (size v : Int) (h : size ≤ data.length) :
    (searchVal data size v = -1 ∧ v ∉ data.take size.toNat) ∨
    ∃ k : Nat, searchVal data size v = (k : Int) ∧ k < size.toNat ∧ data.getD k 0 = v ∧
      ∀ i, i < k → data.getD i 0 ≠ v := by
  unfold searchVal
  rcases ArrayLoops.returnFirst_range (fun i => data.getD i 0 == v) size.toNat with
    ⟨h1, h2⟩ | ⟨k, h1, h2, h3, h4⟩
  · left
    refine ⟨h1, fun hmem => ?_⟩
    obtain ⟨i, hi, e⟩ := (ArrayLoops.mem_take_iff_getD 0 data size.toNat (by omega) v).mp hmem
    have := h2 i hi
    rw [e] at this
    simp at this
  · right
    refine ⟨k, h2, h1, by simpa using h3, fun i hi => ?_⟩
    have := h4 i hi
    simpa using this

end DynamicMath

/-! ## The roster operations of `studentmg.c` -/

namespace StudentMg

theorem mem_rosterIds (students : List Student) (count : Int) (h : count ≤ students.length)
    (id : Int) :
    id ∈ rosterIds students count ↔
      ∃ i, i < count.toNat ∧ (students.getD i noStudent).id = id := by
  unfold rosterIds
  rw [List.mem_map]
  constructor
  · rintro ⟨s, hs, e⟩
    obtain ⟨i, hi, e2⟩ :=
      (ArrayLoops.mem_take_iff_getD noStudent students count.toNat (by omega) s).mp hs
    exact ⟨i, hi, by rw [e2, e]⟩
  · rintro ⟨i, hi, e⟩
    exact ⟨students.getD i noStudent,
      (ArrayLoops.mem_take_iff_getD noStudent students count.toNat (by omega) _).mpr ⟨i, hi, rfl⟩,
      e⟩

theorem find_by_id_spec (arr : List Student) (n id : Int) (h : n ≤ arr.length) :
    (find_by_id arr n id = -1 ∧ id ∉ rosterIds arr n) ∨
    ∃ k : Nat, find_by_id arr n id = (k : Int) ∧ k < n.toNat ∧
      (arr.getD k noStudent).id = id ∧ ∀ i, i < k → (arr.getD i noStudent).id ≠ id := by
  unfold find_by_id
  rcases ArrayLoops.returnFirst_range (fun i => (arr.getD i noStudent).id == id) n.toNat with
    ⟨h1, h2⟩ | ⟨k, h1, h2, h3, h4⟩
  · left
    refine ⟨h1, fun hmem => ?_⟩
    obtain ⟨i, hi, e⟩ := (mem_rosterIds arr n h id).mp hmem
    have := h2 i hi
    rw [e] at this
    simp at this
  · right
    refine ⟨k, h2, h1, by simpa using h3, fun i hi => ?_⟩
    have := h4 i hi
    simpa using this

/-- Claim C26 (search result).  For every list `data`, every `size` not above
its length and every value `v`, `searchVal` returns -1 exactly when `v` does
not occur among the first `size` elements, and otherwise returns the smallest
index `k` below `size` with `data[k] = v`; `find_by_id` does the same on the
ids of the first `n` students of an array. -/
theorem search_result (data : List Int) (size v : Int) (h : size ≤ data.length)
    (arr : List Student) (n id : Int) (hn : n ≤ arr.length) :
    (DynamicMath.searchVal data size v = -1 ↔ v ∉ data.take size.toNat) ∧
    (v ∈ data.take size.toNat →
      ∃ k : Nat, DynamicMath.searchVal data size v = (k : Int) ∧ k < size.toNat ∧
        data[k]? = some v ∧ ∀ i, i < k → data[i]? ≠ some v) ∧
    (find_by_id arr n id = -1 ↔ id ∉ (arr.take n.toNat).map Student.id) ∧
    (id ∈ (arr.take n.toNat).map Student.id →
      ∃ k : Nat, find_by_id arr n id = (k : Int) ∧ k < n.toNat ∧
        arr[k]?.map Student.id = some id ∧ ∀ i, i < k → arr[i]?.map Student.id ≠ some id) := by
  refine ⟨?_, ?_, ?_, ?_⟩
  · rcases DynamicMath.searchVal_spec data size v h with ⟨h1, h2⟩ | ⟨k, h1, h2, h3, _⟩
    · exact ⟨fun _ => h2, fun _ => h1⟩
    · have hmem : v ∈ data.take size.toNat :=
        (ArrayLoops.mem_take_iff_getD 0 data size.toNat (by omega) v).mpr ⟨k, h2, h3⟩
      rw [h1]
      exact ⟨fun e => by omega, fun e => absurd hmem e⟩
  · intro hmem
    rcases DynamicMath.searchVal_spec data size v h with ⟨_, h2⟩ | ⟨k, h1, h2, h3, h4⟩
    · exact absurd hmem h2
    · have hk : k < data.length := by omega
      refine ⟨k, h1, h2, ?_, fun i hi => ?_⟩
      · rw [List.getD_eq_getElem _ _ hk] at h3
        rw [List.getElem?_eq_getElem hk, h3]
      · have := h4 i hi
        rw [List.getD_eq_getElem _ _ (by omega)] at this
        rw [List.getElem?_eq_getElem (by omega)]
        simpa using this
  · rcases find_by_id_spec arr n id hn with ⟨h1, h2⟩ | ⟨k, h1, h2, h3, _⟩
    · exact ⟨fun _ => h2, fun _ => h1⟩
    · have hmem : id ∈ rosterIds arr n := (mem_rosterIds arr n hn id).mpr ⟨k, h2, h3⟩
      rw [h1]
      exact ⟨fun e => by omega, fun e => absurd hmem e⟩
  · intro hmem
    rcases find_by_id_spec arr n id hn with ⟨_, h2⟩ | ⟨k, h1, h2, h3, h4⟩
    · exact absurd hmem h2
    · have hk : k < arr.length := by omega
      refine ⟨k, h1, h2, ?_, fun i hi => ?_⟩
      · rw [List.getD_eq_getElem _ _ hk] at h3
        rw [List.getElem?_eq_getElem hk]
        simp [h3]
      · have := h4 i hi
        rw [List.getD_eq_getElem _ _ (by omega)] at this
        rw [List.getElem?_eq_getElem (by omega)]
        simpa using this

/-- Witness for `search_result`: the value 1 in `3, 1, 2, 1`, and the id 7 in
`sampleRoster`. -/
theorem search_result_witness :
    ((4 : Int) ≤ ([3, 1, 2, 1] : List Int).length) ∧
    ((3 : Int) ≤ sampleRoster.length) ∧
    (1 ∈ ([3, 1, 2, 1] : List Int).take (4 : Int).toNat →
      ∃ k : Nat, DynamicMath.searchVal [3, 1, 2, 1] 4 1 = (k : Int) ∧ k < (4 : Int).toNat ∧
        ([3, 1, 2, 1] : List Int)[k]? = some 1 ∧
        ∀ i, i < k → ([3, 1, 2, 1] : List Int)[i]? ≠ some 1) ∧
    (find_by_id sampleRoster 3 7 = -1 ↔
      7 ∉ (sampleRoster.take (3 : Int).toNat).map Student.id) :=
  have h := search_result [3, 1, 2, 1] 4 1 (by decide) sampleRoster 3 7 (by decide)
  ⟨by decide, by decide, h.2.1, h.2.2.1⟩

end StudentMg

namespace StudentMg

theorem uniqueIds_iff (students : List Student) (count : Int) (h : count ≤ students.length) :
    UniqueIds students count ↔
      ∀ a b, a < b → b < count.toNat →
        (students.getD a noStudent).id ≠ (students.getD b noStudent).id := by
  unfold UniqueIds rosterIds List.Nodup
  rw [List.pairwise_map]
  exact ArrayLoops.pairwise_take_iff_getD noStudent _ students count.toNat (by omega)

theorem getD_set (l : List Student) (k : Nat) (x : Student) (p : Nat) (hk : k < l.length) :
    (l.set k x).getD p noStudent = if p = k then x else l.getD p noStudent := by
  simp only [List.getD_eq_getElem?_getD, List.getElem?_set]
  by_cases h : p = k
  · subst h
    simp [hk]
  · simp [h, Ne.symm h]

theorem realloc_length (l : List Student) (m : Nat) : (realloc l m).length = m := by
  simp only [realloc, List.length_append, List.length_take, List.length_replicate]
  omega

theorem realloc_getD (l : List Student) (m p : Nat) (hp : p < m) (hl : p < l.length) :
    (realloc l m).getD p noStudent = l.getD p noStudent := by
  have h1 : p < (l.take m).length := by
    rw [List.length_take]
    omega
  simp only [realloc, List.getD_eq_getElem?_getD]
  rw [List.getElem?_append_left h1, List.getElem?_take_of_lt hp]

/-- Appending a student whose id is not in the roster: the `realloc` to
`count + 1` cells and the assignment of cell `count`. -/
theorem append_ok (students : List Student) (count : Int) (hw : WellFormed students count)
    (hu : UniqueIds students count) (x : Student) (hx : x.id ∉ rosterIds students count) :
    WellFormed ((realloc students (count + 1).toNat).set count.toNat x) (count + 1) ∧
    UniqueIds ((realloc students (count + 1).toNat).set count.toNat x) (count + 1) := by
  obtain ⟨h0, hlen⟩ := hw
  have hrl := realloc_length students (count + 1).toNat
  have hsl : ((realloc students (count + 1).toNat).set count.toNat x).length =
      (count + 1).toNat := by
    rw [List.length_set, hrl]
  have hw2 : WellFormed ((realloc students (count + 1).toNat).set count.toNat x) (count + 1) := by
    refine ⟨by omega, ?_⟩
    rw [hsl]
    omega
  refine ⟨hw2, (uniqueIds_iff _ _ hw2.2).mpr ?_⟩
  intro a b hab hb
  have hold := (uniqueIds_iff students count hlen).mp hu
  rw [getD_set _ _ _ _ (by omega), getD_set _ _ _ _ (by omega), if_neg (by omega)]
  rw [realloc_getD students _ a (by omega) (by omega)]
  by_cases hbc : b = count.toNat
  · rw [if_pos hbc]
    intro e
    exact hx ((mem_rosterIds students count hlen x.id).mpr ⟨a, by omega, e⟩)
  · rw [if_neg hbc, realloc_getD students _ b (by omega) (by omega)]
    exact hold a b hab (by omega)

theorem add_student_ok (lib : Parsers) (students : List Student) (count : Int) (inp : AddInput)
    (hw : WellFormed students count) (hu : UniqueIds students count) :
    WellFormed (add_student lib students count inp).1 (add_student lib students count inp).2 ∧
    UniqueIds (add_student lib students count inp).1 (add_student lib students count inp).2 := by
  unfold add_student
  split
  · exact ⟨hw, hu⟩
  · split
    · exact ⟨hw, hu⟩
    · next id _ =>
      split
      · exact ⟨hw, hu⟩
      · next hfind =>
        split
        · exact ⟨hw, hu⟩
        · split
          · exact ⟨hw, hu⟩
          · split
            · exact ⟨hw, hu⟩
            · split
              · exact ⟨hw, hu⟩
              · split
                · exact ⟨hw, hu⟩
                · refine append_ok students count hw hu _ ?_
                  rcases find_by_id_spec students count id hw.2 with ⟨_, h2⟩ | ⟨k, h1, _⟩
                  · exact h2
                  · exact absurd (by rw [h1]; omega) hfind

/-- With an id that is already in the roster, `add_student` returns the
block and the count it was given. -/
theorem add_student_present (lib : Parsers) (students : List Student) (count : Int)
    (inp : AddInput) (hw : WellFormed students count) (buf : List Nat) (id : Int)
    (hline : inp.idLine = some buf) (hparse : lib.parse_int buf = some id)
    (hmem : id ∈ rosterIds students count) :
    add_student lib students count inp = (students, count) := by
  have hfind : find_by_id students count id ≠ -1 := by
    rcases find_by_id_spec students count id hw.2 with ⟨_, h2⟩ | ⟨k, h1, _⟩
    · exact absurd hmem h2
    · rw [h1]
      omega
  unfold add_student
  simp only [hline, hparse, hfind, ne_eq, not_false_eq_true, if_true]

/-- An assignment to the name or the grade of a cell leaves the ids alone. -/
theorem set_keeps_ids (l : List Student) (k : Nat) (x : Student)
    (hx : x.id = (l.getD k noStudent).id) :
    (l.set k x).length = l.length ∧
    ∀ p, ((l.set k x).getD p noStudent).id = (l.getD p noStudent).id := by
  refine ⟨List.length_set _ _ _, fun p => ?_⟩
  by_cases hk : k < l.length
  · rw [getD_set l k x p hk]
    by_cases hp : p = k
    · rw [if_pos hp, hp, hx]
    · rw [if_neg hp]
  · rw [List.set_eq_of_length_le (by omega)]

theorem update_student_ids (lib : Parsers) (students : List Student) (count : Int)
    (inp : UpdateInput) :
    (update_student lib students count inp).length = students.length ∧
    ∀ p, ((update_student lib students count inp).getD p noStudent).id =
      (students.getD p noStudent).id := by
  have hrefl : students.length = students.length ∧
      ∀ p, (students.getD p noStudent).id = (students.getD p noStudent).id :=
    ⟨rfl, fun _ => rfl⟩
  unfold update_student
  split
  · exact hrefl
  · split
    · exact hrefl
    · split
      · exact hrefl
      · next id _ =>
        simp only []
        split
        · exact hrefl
        · generalize (find_by_id students count id).toNat = k
          have hname : ∀ buf : List Nat,
              (if buf ≠ [] then
                students.set k { students.getD k noStudent with name := copyName buf }
              else students).length = students.length ∧
              ∀ p, ((if buf ≠ [] then
                students.set k { students.getD k noStudent with name := copyName buf }
              else students).getD p noStudent).id = (students.getD p noStudent).id := by
            intro buf
            split
            · exact set_keeps_ids students k _ rfl
            · exact hrefl
          split
          · exact hrefl
          · next buf _ =>
            obtain ⟨hl1, hid1⟩ := hname buf
            generalize (if buf ≠ [] then
                students.set k { students.getD k noStudent with name := copyName buf }
              else students) = mid at hl1 hid1 ⊢
            split
            · exact ⟨hl1, hid1⟩
            · split
              · split
                · exact ⟨hl1, hid1⟩
                · next g _ =>
                  split
                  · exact ⟨hl1, hid1⟩
                  · obtain ⟨hl2, hid2⟩ := set_keeps_ids mid k
                      { mid.getD k noStudent with grade := g } rfl
                    exact ⟨hl2.trans hl1, fun p => (hid2 p).trans (hid1 p)⟩
              · exact ⟨hl1, hid1⟩

theorem ids_transfer (students new : List Student) (count : Int)
    (hw : WellFormed students count) (hu : UniqueIds students count)
    (hlen : new.length = students.length)
    (hid : ∀ p, (new.getD p noStudent).id = (students.getD p noStudent).id) :
    WellFormed new count ∧ UniqueIds new count := by
  have hw2 : WellFormed new count := ⟨hw.1, by rw [hlen]; exact hw.2⟩
  refine ⟨hw2, (uniqueIds_iff new count hw2.2).mpr ?_⟩
  intro a b hab hb
  rw [hid a, hid b]
  exact (uniqueIds_iff students count hw.2).mp hu a b hab hb

/-- The array after the first `m` iterations of the shift loop started at
index `k`: the cells `k, ..., k + m - 1` hold what their right neighbours
held, the other cells are unchanged. -/
theorem shift_fold (l : List Student) (k : Nat) :
    ∀ m, k + m + 1 ≤ l.length →
      ((List.range' k m).foldl
        (fun students (i : Nat) => students.set i (students.getD (i + 1) noStudent)) l).length =
        l.length ∧
      ∀ p, ((List.range' k m).foldl
        (fun students (i : Nat) => students.set i (students.getD (i + 1) noStudent)) l).getD p
          noStudent =
        if k ≤ p ∧ p < k + m then l.getD (p + 1) noStudent else l.getD p noStudent := by
  intro m
  induction m with
  | zero =>
    intro _
    refine ⟨rfl, fun p => ?_⟩
    rw [if_neg (by omega)]
    rfl
  | succ m ih =>
    intro hm
    obtain ⟨hlen, hget⟩ := ih (by omega)
    rw [List.range'_concat, List.foldl_append]
    simp only [List.foldl_cons, List.foldl_nil, Nat.one_mul]
    generalize (List.range' k m).foldl
      (fun students (i : Nat) => students.set i (students.getD (i + 1) noStudent)) l = cur at *
    refine ⟨(List.length_set _ _ _).trans hlen, fun p => ?_⟩
    rw [getD_set cur (k + m) _ p (by omega)]
    by_cases hp : p = k + m
    · rw [if_pos hp, hget (k + m + 1), if_neg (by omega), if_pos (by omega), hp]
    · rw [if_neg hp, hget p]
      by_cases hin : k ≤ p ∧ p < k + m
      · rw [if_pos hin, if_pos (by omega)]
      · rw [if_neg hin, if_neg (by omega)]

theorem delete_student_ok (lib : Parsers) (students : List Student) (count : Int)
    (inp : DeleteInput) (hw : WellFormed students count) (hu : UniqueIds students count) :
    WellFormed (delete_student lib students count inp).1
      (delete_student lib students count inp).2 ∧
    UniqueIds (delete_student lib students count inp).1
      (delete_student lib students count inp).2 := by
  have hnil : WellFormed ([] : List Student) 0 ∧ UniqueIds ([] : List Student) 0 :=
    ⟨⟨Int.le_refl 0, Int.le_refl 0⟩, List.nodup_nil⟩
  unfold delete_student
  split
  · exact ⟨hw, hu⟩
  · split
    · exact ⟨hw, hu⟩
    · split
      · exact ⟨hw, hu⟩
      · next id _ =>
        simp only []
        split
        · exact ⟨hw, hu⟩
        · next hfind =>
          split
          · exact hnil
          · next hsize =>
            rcases find_by_id_spec students count id hw.2 with ⟨h1, _⟩ | ⟨k, h1, hk, _, _⟩
            · exact absurd h1 hfind
            · rw [h1]
              obtain ⟨h0, hlen⟩ := hw
              have hm : ((k : Int)).toNat + (count - 1 - (k : Int)).toNat + 1 ≤ students.length := by
                omega
              obtain ⟨slen, sget⟩ := shift_fold students ((k : Int)).toNat
                (count - 1 - (k : Int)).toNat hm
              have hshift : ∀ p, p < (count - 1).toNat →
                  (shiftLeft students count (k : Int)).getD p noStudent =
                    if k ≤ p then students.getD (p + 1) noStudent
                    else students.getD p noStudent := by
                intro p hp
                unfold shiftLeft
                rw [sget p]
                by_cases hkp : k ≤ p
                · rw [if_pos (by omega), if_pos hkp]
                · rw [if_neg (by omega), if_neg hkp]
              have hslen : (shiftLeft students count (k : Int)).length = students.length := slen
              have hold := (uniqueIds_iff students count hlen).mp hu
              have hw2 : WellFormed
                  (if inp.reallocOk = true then
                    realloc (shiftLeft students count (k : Int)) (count - 1).toNat
                  else shiftLeft students count (k : Int)) (count - 1) := by
                refine ⟨by omega, ?_⟩
                split
                · rw [realloc_length]
                  omega
                · rw [hslen]
                  omega
              refine ⟨hw2, (uniqueIds_iff _ _ hw2.2).mpr ?_⟩
              intro a b hab hb
              have hget : ∀ p, p < (count - 1).toNat →
                  (if inp.reallocOk = true then
                    realloc (shiftLeft students count (k : Int)) (count - 1).toNat
                  else shiftLeft students count (k : Int)).getD p noStudent =
                    if k ≤ p then students.getD (p + 1) noStudent
                    else students.getD p noStudent := by
                intro p hp
                split
                · rw [realloc_getD _ _ p hp (by omega)]
                  exact hshift p hp
                · exact hshift p hp
              rw [hget a (by omega), hget b hb]
              by_cases hka : k ≤ a
              · rw [if_pos hka, if_pos (by omega)]
                exact hold (a + 1) (b + 1) (by omega) (by omega)
              · rw [if_neg hka]
                by_cases hkb : k ≤ b
                · rw [if_pos hkb]
                  exact hold a (b + 1) (by omega) (by omega)
                · rw [if_neg hkb]
                  exact hold a b hab (by omega)

theorem sort_by_name_ok (students : List Student) (count : Int)
    (hw : WellFormed students count) (hu : UniqueIds students count) :
    WellFormed (sort_by_name students count) count ∧
    UniqueIds (sort_by_name students count) count := by
  unfold sort_by_name
  split
  · exact ⟨hw, hu⟩
  · obtain ⟨hlen, hperm, hrest, _⟩ :=
      ArrayLoops.bubbleLoops_spec noStudent (fun a b : Student => strcmp a.name b.name > 0)
        (fun _ _ => True) (fun _ _ _ => trivial) (fun _ _ _ => trivial)
        (fun _ _ _ _ _ => trivial) students count.toNat (by have := hw.2; omega)
        (count - 1).toNat (fun i => (count - 1 - i).toNat) (by omega)
        (fun i hi => by show (count - 1 - (i : Int)).toNat = count.toNat - i - 1; omega)
    have hdrop := ArrayLoops.drop_eq_of_getD noStudent _ _ count.toNat hlen hrest
    have htake := ArrayLoops.take_perm_of_drop_eq _ _ count.toNat hperm hdrop
    refine ⟨⟨hw.1, ?_⟩, ?_⟩
    · exact hlen ▸ hw.2
    · exact ((htake.map Student.id).nodup_iff).mpr hu

/-- Claim C27 (unique student ids).  For every block and count that hold a
roster whose ids are pairwise distinct, every pair of parsing helpers and every
input, the block and count after `add_student`, `update_student`,
`delete_student` or `sort_by_name` again hold a roster whose ids are pairwise
distinct; and `add_student` called with an id that is already in the roster
returns the block and the count unchanged. -/
theorem unique_ids_preserved (lib : Parsers) (students : List Student) (count : Int)
    (hw : WellFormed students count) (hu : UniqueIds students count)
    (a : AddInput) (u : UpdateInput) (d : DeleteInput) :
    (WellFormed (add_student lib students count a).1 (add_student lib students count a).2 ∧
      UniqueIds (add_student lib students count a).1 (add_student lib students count a).2) ∧
    (WellFormed (update_student lib students count u) count ∧
      UniqueIds (update_student lib students count u) count) ∧
    (WellFormed (delete_student lib students count d).1
        (delete_student lib students count d).2 ∧
      UniqueIds (delete_student lib students count d).1
        (delete_student lib students count d).2) ∧
    (WellFormed (sort_by_name students count) count ∧
      UniqueIds (sort_by_name students count) count) ∧
    (∀ buf id, a.idLine = some buf → lib.parse_int buf = some id →
      id ∈ rosterIds students count →
      add_student lib students count a = (students, count)) :=
  ⟨add_student_ok lib students count a hw hu,
    ids_transfer students _ count hw hu (update_student_ids lib students count u).1
      (update_student_ids lib students count u).2,
    delete_student_ok lib students count d hw hu,
    sort_by_name_ok students count hw hu,
    fun buf id h1 h2 h3 => add_student_present lib students count a hw buf id h1 h2 h3⟩

/-- Witness for `unique_ids_preserved`: `sampleRoster` with all three of its
students, and the inputs `sampleAdd`, `sampleUpdate` and `sampleDelete`. -/
theorem unique_ids_preserved_witness :
    WellFormed sampleRoster 3 ∧ UniqueIds sampleRoster 3 ∧
    UniqueIds (add_student sampleParsers sampleRoster 3 sampleAdd).1
      (add_student sampleParsers sampleRoster 3 sampleAdd).2 ∧
    UniqueIds (update_student sampleParsers sampleRoster 3 sampleUpdate) 3 ∧
    UniqueIds (delete_student sampleParsers sampleRoster 3 sampleDelete).1
      (delete_student sampleParsers sampleRoster 3 sampleDelete).2 ∧
    UniqueIds (sort_by_name sampleRoster 3) 3 :=
  have hw : WellFormed sampleRoster 3 := ⟨by decide, by decide⟩
  have hu : UniqueIds sampleRoster 3 := by
    unfold UniqueIds rosterIds
    decide
  have h := unique_ids_preserved sampleParsers sampleRoster 3 hw hu sampleAdd sampleUpdate
    sampleDelete
  ⟨hw, hu, h.1.2, h.2.1.2, h.2.2.1.2, h.2.2.2.1.2⟩

end StudentMg
